import Mathlib

/-!
SegmentationDataLayer: the prefetching segmentation data layer.

A shallow embedding of `src/caffe/layers/segmentation_data_layer.cpp`:
manifest loading (`DataLayerSetUp`), `ShuffleImages`, `RandBool` and the
batch production loop (`InternalThreadEntry`).

Conventions of the embedding.

* `Dtype`/`float` values live in an arbitrary type `F` that carries the
  operations the source applies to them (`-`, the literals `0` and `1`, the
  conversion of an `uchar` to `float`).  Nothing is assumed about these
  operations, so every statement holds for IEEE arithmetic as for exact
  arithmetic.
* External collaborators (the image codec, the random generator, the
  `shuffle` helper of `caffe/util/rng.hpp`, the data transformer, the file
  system, stream extraction of a `float`) are the fields of `Env`.
* An unchecked `std::vector` read past the end, a `std::out_of_range` thrown by
  `substr` and a failed glog `CHECK` end the run with a `Fault`.
* `int` values are `Int`; the conversion of a `size_t` to `int` is reduction
  modulo `2^32` into the signed range and the conversion of an `int` to
  `size_t` is reduction modulo `2^64`.  The `int` sums and differences of the
  manifest parser, which a long line takes out of range, are reduced modulo
  `2^32` into the signed range (`wrap_int`); loop counters and image sizes are
  exact.
-/

namespace caffe

/-- A `std::string`, as the list of its characters. -/
abbrev string := List Char

/-- The ways a run can stop before its end. -/
inductive Fault where
  /-- An unchecked `operator[]` on a `std::vector` read past the end. -/
  | out_of_bounds
  /-- The exception `std::out_of_range` of `std::string::substr`. -/
  | out_of_range
  /-- A failed `CHECK` of the framework. -/
  | check_failed
  deriving DecidableEq

/-- Modelled from the spec: the struct `ImagePair` is declared in
`caffe/data_layers.hpp`, which is not among the sources.  It is the
`SampleEntry` of the spec, one manifest row: image path, mask path and the two
coordinates of the manipulation point, under the member names the layer
uses. -/
structure ImagePair (F : Type) where
  image : string
  gt_image : string
  mp_x : F
  mp_y : F
  deriving DecidableEq

/-- A decoded `cv::Mat` with `uchar` elements: `at_ h w c` is element `c` of
the pixel in row `h`, column `w` (`c = 0` for a single-channel matrix). -/
structure Mat where
  rows : Nat
  cols : Nat
  channels : Nat
  at_ : Nat → Nat → Nat → Nat

/-- Modelled from the spec: the protobuf message `Datum` is declared in
`caffe.proto`, which is not among the sources.  It is the sample handed to the
transformer, restricted to the fields the layer sets: the declared channels,
height and width and the float data, which `add_float_data` extends at the
end. -/
structure Datum (F : Type) where
  channels : Nat
  height : Nat
  width : Nat
  float_data : List F
  deriving DecidableEq

/-- Modelled from the spec: the class `Blob` is declared in `caffe/blob.hpp`,
which is not among the sources.  It is the fixed-shape tensor region of the
spec: a shape `[num, channels, height, width]` and storage addressed by flat
offset. -/
structure Blob (F : Type) where
  num : Nat
  channels : Nat
  height : Nat
  width : Nat
  data : Nat → F

/-- Modelled from the spec: the message `SegmentationDataParameter` is declared
in `caffe.proto`, which is not among the sources.  These are the configuration
options of the spec, under the names of the accessors the layer calls,
together with `transform_param().crop_size()`. -/
structure SegmentationDataParameter (F : Type) where
  source : string
  shuffle : Bool
  batch_size : Int
  has_manipulation_data : Bool
  mirror : Bool
  show_level : Int
  mean_value : List F
  crop_size : Int

/-- The external collaborators of the layer.  `S` is the state of a
`caffe::rng_t`, `T` the state of the data transformer. -/
structure Env (F S T : Type) where
  /-- The content of the file at a path, `none` when it cannot be opened. -/
  read_file : string → Option (List Char)
  /-- Stream extraction `in >> x` for a `float`: the value and the number of
  characters consumed, `none` when extraction fails. -/
  read_float : List Char → Option (F × Nat)
  /-- The value an uninitialised `float` member happens to hold. -/
  indeterminate : F
  /-- `cv::imread(path)`: a colour image. -/
  imread : string → Mat
  /-- `cv::imread(path, CV_LOAD_IMAGE_GRAYSCALE)`. -/
  imread_grayscale : string → Mat
  /-- `new Caffe::RNG(seed)`. -/
  seed : Nat → S
  /-- One draw `(*rng)()`: the value and the advanced generator. -/
  rng : S → Nat × S
  /-- The helper `shuffle(begin, end, gen)` on the whole index. -/
  shuffle : List (ImagePair F) → S → List (ImagePair F) × S
  /-- `data_transformer_->Transform(datum, &transformed_data_)` for a
  destination of the given height and width: element `k` of the destination
  and the advanced transformer. -/
  Transform : Datum F → Nat → Nat → T → (Nat → F) × T

/-- Modelled from the spec: the class `SegmentationDataLayer` is declared in
`caffe/data_layers.hpp`, which is not among the sources.  These are the members
the layer reads and writes; the cursor `image_pair_id_` is the single integer
cursor of the spec, taken as a natural number. -/
structure SegmentationDataLayer (F S T : Type) where
  image_pairs_ : List (ImagePair F)
  image_pair_id_ : Nat
  prefetch_rng_ : S
  bool_rng_ : S
  mean_values_ : List F
  transformed_data_ : Nat × Nat × Nat × Nat
  prefetch_data_ : Blob F
  prefetch_label_ : Blob F
  data_transformer_ : T

/-- What one pass of the item loop did: the cursor it read, the entry found
there, the mirror decision and the datum handed to the transformer. -/
structure Item (F : Type) where
  cursor : Nat
  entry : ImagePair F
  mirror_image : Bool
  datum : Datum F
  deriving DecidableEq

/-- The loop `for (int i = 0; i < n; ++i) body` over a state. -/
def forLoop {σ : Type} (body : Nat → σ → Except Fault σ) : Nat → σ → Except Fault σ
  | 0, s => .ok s
  | n + 1, s =>
    match forLoop body n s with
    | .ok s' => body n s'
    | .error e => .error e

/-- The read `v[i]` of a `std::vector`. -/
def vec_get {α : Type} (v : List α) (i : Nat) : Except Fault α :=
  match v[i]? with
  | some a => .ok a
  | none => .error .out_of_bounds

/-! ## Manifest parsing -/

/-- The constant `std::string::npos`. -/
def npos : Nat := 2 ^ 64 - 1

/-- Conversion of a `size_t` to `int`. -/
def to_int (x : Nat) : Int :=
  if x % 2 ^ 32 < 2 ^ 31 then ((x % 2 ^ 32 : Nat) : Int) else ((x % 2 ^ 32 : Nat) : Int) - 2 ^ 32

/-- Conversion of an `int` to `size_t`. -/
def to_size_t (x : Int) : Nat := (x % 2 ^ 64).toNat

/-- The value an `int` holds for a sum or a difference of `int`s whose
mathematical result is `x`: `x` itself when it lies between `-2^31` and
`2^31 - 1`, and otherwise `x` reduced to that range modulo `2^32`, which is what
the compiled code computes (the language leaves the overflow undefined). -/
def wrap_int (x : Int) : Int := (x + 2 ^ 31) % 2 ^ 32 - 2 ^ 31

/-- Search of `ch` in `cs`, whose first character has index `i`. -/
def find_from (ch : Char) : List Char → Nat → Nat
  | [], _ => npos
  | c :: cs, i => if c = ch then i else find_from ch cs (i + 1)

/-- The call `line.find(ch, pos)`. -/
def find (line : string) (ch : Char) (pos : Nat) : Nat :=
  find_from ch (line.drop pos) pos

/-- The call `line.substr(pos, len)`. -/
def substr (line : string) (pos len : Nat) : Except Fault string :=
  if line.length < pos then .error .out_of_range else .ok ((line.drop pos).take len)

/-- The body of the `getline` loop of `DataLayerSetUp` (source lines 58-63) on
a freshly declared `pair`.  The positions are `int`s: the results of `find`
are converted to `int`, `pos1 + 1` and `pos2 - pos1 - 1` are `int` arithmetic,
and the arguments of `substr` are converted back to `size_t`. -/
def parse_line {F : Type} (pair : ImagePair F) (line : string) : Except Fault (ImagePair F) :=
  let pos1 : Int := to_int (find line ' ' 0)
  match substr line 0 (to_size_t pos1) with
  | .error e => .error e
  | .ok image =>
    let pos2 : Int := to_int (find line ' ' (to_size_t (wrap_int (pos1 + 1))))
    match substr line (to_size_t (wrap_int (pos1 + 1)))
        (to_size_t (wrap_int (wrap_int (pos2 - pos1) - 1))) with
    | .error e => .error e
    | .ok gt_image => .ok { pair with image := image, gt_image := gt_image }

/-- The call `std::getline(in, line)`: the line and the rest of the stream,
`none` when nothing is left to extract. -/
def getline : List Char → Option (string × List Char)
  | [] => none
  | c :: cs =>
    some ((c :: cs).takeWhile (fun x => x ≠ '\n'), ((c :: cs).dropWhile (fun x => x ≠ '\n')).drop 1)

/-- The loop `while (std::getline(in_file, line))` of the basic form. -/
def read_basic {F : Type} (pair : ImagePair F) :
    Nat → List Char → List (ImagePair F) → Except Fault (List (ImagePair F))
  | 0, _, image_pairs => .ok image_pairs
  | fuel + 1, s, image_pairs =>
    match getline s with
    | none => .ok image_pairs
    | some (line, rest) =>
      match parse_line pair line with
      | .error e => .error e
      | .ok p => read_basic pair fuel rest (image_pairs ++ [p])

/-- The predicate `std::isspace` in the C locale. -/
def isspace (c : Char) : Bool :=
  c = ' ' || c = '\t' || c = '\n' || c = '\x0b' || c = '\x0c' || c = '\r'

/-- Stream extraction `in >> s` for a `std::string`: leading whitespace is
skipped, then characters are taken up to the next whitespace; extraction fails
when no character is taken. -/
def read_string (s : List Char) : Option (string × List Char) :=
  let t := s.dropWhile isspace
  match t.takeWhile (fun c => !isspace c) with
  | [] => none
  | c :: cs => some (c :: cs, t.dropWhile (fun c => !isspace c))

/-- The loop `while (in_file >> image_path >> gt_image_path >> mp_x >> mp_y)`
of the extended form. -/
def read_extended {F S T : Type} (env : Env F S T) :
    Nat → List Char → List (ImagePair F) → List (ImagePair F)
  | 0, _, image_pairs => image_pairs
  | fuel + 1, s, image_pairs =>
    match read_string s with
    | none => image_pairs
    | some (image_path, s1) =>
      match read_string s1 with
      | none => image_pairs
      | some (gt_image_path, s2) =>
        match env.read_float s2 with
        | none => image_pairs
        | some (mp_x, n3) =>
          match env.read_float (s2.drop n3) with
          | none => image_pairs
          | some (mp_y, n4) =>
            read_extended env fuel ((s2.drop n3).drop n4)
              (image_pairs ++
                [{ image := image_path, gt_image := gt_image_path, mp_x := mp_x, mp_y := mp_y }])

/-- Source lines 45-67: the index read from the manifest.  A file that cannot
be opened yields a stream on which every extraction fails. -/
def load_manifest {F S T : Type} (env : Env F S T) (source : string)
    (has_manipulation_data : Bool) (image_pairs : List (ImagePair F)) :
    Except Fault (List (ImagePair F)) :=
  match env.read_file source with
  | none => .ok image_pairs
  | some content =>
    if has_manipulation_data then
      .ok (read_extended env content.length content image_pairs)
    else
      read_basic
        { image := [], gt_image := [], mp_x := env.indeterminate, mp_y := env.indeterminate }
        content.length content image_pairs

/-! ## Blobs -/

/-- Modelled from the spec: `Blob::Reshape(num, channels, height, width)` fixes
the shape of the region; a region has no negative extent, so a negative
dimension is refused. -/
def Blob.Reshape {F : Type} (b : Blob F) (num channels height width : Int) :
    Except Fault (Blob F) :=
  if num < 0 ∨ channels < 0 ∨ height < 0 ∨ width < 0 then .error .check_failed
  else .ok { b with num := num.toNat, channels := channels.toNat, height := height.toNat,
                    width := width.toNat }

/-- Modelled from the spec: `Blob::offset(n)`, the flat offset at which item
`n` of a batch starts. -/
def Blob.offset {F : Type} (b : Blob F) (n : Nat) : Nat :=
  n * (b.channels * b.height * b.width)

/-- Storage after `count` elements `vals 0, vals 1, ...` are written from flat
offset `offset` on. -/
def write_block {F : Type} (data : Nat → F) (offset count : Nat) (vals : Nat → F) : Nat → F :=
  fun i => if offset ≤ i ∧ i < offset + count then vals (i - offset) else data i

/-- The assignment `p[i] = v` into storage. -/
def store {F : Type} (data : Nat → F) (i : Nat) (v : F) : Nat → F :=
  fun j => if j = i then v else data j

/-! ## Random streams -/

/-- The method `ShuffleImages`: the index is shuffled with `prefetch_rng_`. -/
def ShuffleImages {F S T : Type} (env : Env F S T) (L : SegmentationDataLayer F S T) :
    SegmentationDataLayer F S T :=
  let r := env.shuffle L.image_pairs_ L.prefetch_rng_
  { L with image_pairs_ := r.1, prefetch_rng_ := r.2 }

/-- The method `RandBool`: one draw of `bool_rng_`, reduced modulo 2. -/
def RandBool {F S T : Type} (env : Env F S T) (L : SegmentationDataLayer F S T) :
    Bool × SegmentationDataLayer F S T :=
  let r := env.rng L.bool_rng_
  (r.1 % 2 != 0, { L with bool_rng_ := r.2 })

/-! ## Setup -/

/-- The method `DataLayerSetUp` on a freshly constructed layer; the two seeds
are the two values `caffe_rng_rand()` returns. -/
def DataLayerSetUp {F S T : Type} [Zero F] (env : Env F S T)
    (data_param : SegmentationDataParameter F) (data_transformer : T)
    (prefetch_rng_seed bool_rng_seed : Nat) : Except Fault (SegmentationDataLayer F S T) :=
  let mean_values_ : List F := [] ++ data_param.mean_value
  match load_manifest env data_param.source data_param.has_manipulation_data [] with
  | .error e => .error e
  | .ok image_pairs_ =>
    let L : SegmentationDataLayer F S T :=
      { image_pairs_ := image_pairs_
        image_pair_id_ := 0
        prefetch_rng_ := env.seed prefetch_rng_seed
        bool_rng_ := env.seed bool_rng_seed
        mean_values_ := mean_values_
        transformed_data_ := (0, 0, 0, 0)
        prefetch_data_ := { num := 0, channels := 0, height := 0, width := 0, data := fun _ => 0 }
        prefetch_label_ := { num := 0, channels := 0, height := 0, width := 0, data := fun _ => 0 }
        data_transformer_ := data_transformer }
    let L := if data_param.shuffle then ShuffleImages env L else L
    match vec_get L.image_pairs_ 0 with
    | .error e => .error e
    | .ok pair0 =>
      let I := env.imread pair0.image
      let height : Int := if data_param.crop_size > 0 then data_param.crop_size else I.rows
      let width : Int := if data_param.crop_size > 0 then data_param.crop_size else I.cols
      let L := { L with transformed_data_ := (1, 4, height.toNat, width.toNat) }
      match L.prefetch_data_.Reshape data_param.batch_size 4 height width with
      | .error e => .error e
      | .ok prefetch_data_ =>
        let L := { L with prefetch_data_ := prefetch_data_ }
        if data_param.has_manipulation_data then
          match L.prefetch_label_.Reshape data_param.batch_size 2 1 1 with
          | .error e => .error e
          | .ok prefetch_label_ => .ok { L with prefetch_label_ := prefetch_label_ }
        else .ok L

/-! ## Batch production -/

/-- Source lines 177-188: the colour values of `I_image` are appended to the
float data, channel by channel, row by row, reading each row backwards when
the sample is mirrored.  The channel count is that of `I`, the image decoded
at the start of the cycle. -/
def fill_image {F : Type} [Sub F] [NatCast F] (I I_image : Mat) (mean_values_ : List F)
    (mirror_image : Bool) (float_data : List F) : Except Fault (List F) :=
  forLoop (fun c float_data =>
    forLoop (fun h float_data =>
      forLoop (fun w float_data =>
        if !mirror_image then
          match vec_get mean_values_ c with
          | .error e => .error e
          | .ok m => .ok (float_data ++ [((I_image.at_ h w c : Nat) : F) - m])
        else
          match vec_get mean_values_ c with
          | .error e => .error e
          | .ok m => .ok (float_data ++ [((I_image.at_ h (I_image.cols - w - 1) c : Nat) : F) - m]))
        I_image.cols float_data)
      I_image.rows float_data)
    I.channels float_data

/-- Source lines 190-201: the binarised mask values are appended to the float
data, row by row, reading each row backwards when the sample is mirrored. -/
def fill_label {F : Type} [Zero F] [One F] (I_label : Mat) (mirror_image : Bool)
    (float_data : List F) : Except Fault (List F) :=
  forLoop (fun h float_data =>
    forLoop (fun w float_data =>
      if !mirror_image then
        let label : F := if I_label.at_ h w 0 > 0 then 1 else 0
        .ok (float_data ++ [label])
      else
        let label : F := if I_label.at_ h (I_label.cols - w - 1) 0 > 0 then 1 else 0
        .ok (float_data ++ [label]))
      I_label.cols float_data)
    I_label.rows float_data

/-- Source lines 164-172: the manipulation point of `pair` is written for item
`item_id`, its x coordinate reflected when the sample is mirrored. -/
def write_label {F : Type} [Sub F] [One F] (prefetch_label : Nat → F) (item_id : Nat)
    (pair : ImagePair F) (mirror_image : Bool) : Nat → F :=
  let prefetch_label :=
    if !mirror_image then store prefetch_label (2 * item_id + 0) pair.mp_x
    else store prefetch_label (2 * item_id + 0) (1 - pair.mp_x)
  store prefetch_label (2 * item_id + 1) pair.mp_y

/-- Source lines 221-227: the cursor moves on; at the end of the index it
returns to 0 and the index is reshuffled when shuffling is enabled. -/
def advance {F S T : Type} (env : Env F S T) (shuffle : Bool) (L : SegmentationDataLayer F S T) :
    SegmentationDataLayer F S T :=
  let L := { L with image_pair_id_ := L.image_pair_id_ + 1 }
  if L.image_pair_id_ ≥ L.image_pairs_.length then
    let L := { L with image_pair_id_ := 0 }
    if shuffle then ShuffleImages env L else L
  else L

/-- One pass of the item loop of `InternalThreadEntry` (source lines 158-227).
The entry `image_pairs_[image_pair_id_]` is read once, the cursor being fixed
until the end of the pass.  The preview shown for `show_level == 1` writes no
member and is left out. -/
def item_body {F S T : Type} [Sub F] [Zero F] [One F] [NatCast F] (env : Env F S T)
    (data_param : SegmentationDataParameter F) (I : Mat) (height width : Nat) (item_id : Nat)
    (s : SegmentationDataLayer F S T × List (Item F)) :
    Except Fault (SegmentationDataLayer F S T × List (Item F)) :=
  let r := if data_param.mirror then RandBool env s.1 else (false, s.1)
  let mirror_image := r.1
  let L := r.2
  match vec_get L.image_pairs_ L.image_pair_id_ with
  | .error e => .error e
  | .ok pair =>
    let L :=
      if data_param.has_manipulation_data then
        { L with prefetch_label_ :=
            { L.prefetch_label_ with
                data := write_label L.prefetch_label_.data item_id pair mirror_image } }
      else L
    let I_image := env.imread pair.image
    match fill_image I I_image L.mean_values_ mirror_image [] with
    | .error e => .error e
    | .ok float_data =>
      let I_label := env.imread_grayscale pair.gt_image
      match fill_label I_label mirror_image float_data with
      | .error e => .error e
      | .ok float_data =>
        let datum : Datum F :=
          { channels := 4, height := I.rows, width := I.cols, float_data := float_data }
        let offset := L.prefetch_data_.offset item_id
        let t := env.Transform datum height width L.data_transformer_
        let L :=
          { L with
              prefetch_data_ :=
                { L.prefetch_data_ with
                    data := write_block L.prefetch_data_.data offset (1 * 4 * height * width) t.1 }
              data_transformer_ := t.2 }
        let item : Item F :=
          { cursor := L.image_pair_id_, entry := pair, mirror_image := mirror_image,
            datum := datum }
        .ok (advance env data_param.shuffle L, s.2 ++ [item])

/-- The method `InternalThreadEntry`: one production cycle.  The result is the
layer after the cycle and the record of its items, in item order. -/
def InternalThreadEntry {F S T : Type} [Sub F] [Zero F] [One F] [NatCast F] (env : Env F S T)
    (data_param : SegmentationDataParameter F) (L : SegmentationDataLayer F S T) :
    Except Fault (SegmentationDataLayer F S T × List (Item F)) :=
  match vec_get L.image_pairs_ L.image_pair_id_ with
  | .error e => .error e
  | .ok pair =>
    let I := env.imread pair.image
    let height : Nat := if data_param.crop_size > 0 then data_param.crop_size.toNat else I.rows
    let width : Nat := if data_param.crop_size > 0 then data_param.crop_size.toNat else I.cols
    let L := { L with transformed_data_ := (1, 4, height, width) }
    forLoop (item_body env data_param I height width) data_param.batch_size.toNat (L, [])

/-- The first `k` production cycles run one after the other: the layer after
them and the record of each cycle. -/
def run_cycles {F S T : Type} [Sub F] [Zero F] [One F] [NatCast F] (env : Env F S T)
    (data_param : SegmentationDataParameter F) :
    Nat → SegmentationDataLayer F S T →
      Except Fault (SegmentationDataLayer F S T × List (List (Item F)))
  | 0, L => .ok (L, [])
  | k + 1, L =>
    match run_cycles env data_param k L with
    | .error e => .error e
    | .ok (L', batches) =>
      match InternalThreadEntry env data_param L' with
      | .error e => .error e
      | .ok (L'', items) => .ok (L'', batches ++ [items])


/-! ## Closed forms

The results of the loops above written without loops; `mean c` stands for the
value read as `mean_values_[c]`. -/

/-- The float data of a sample: for every channel `c`, row `h` and column `w`
the colour value less the channel mean, then for every row and column the
binarised mask value, columns being read backwards for a mirrored sample. -/
def sample_float_data {F : Type} [Sub F] [Zero F] [One F] [NatCast F] (I I_image I_label : Mat)
    (mean : Nat → F) (mirror_image : Bool) : List F :=
  ((List.range I.channels).flatMap (fun c =>
    (List.range I_image.rows).flatMap (fun h =>
      (List.range I_image.cols).flatMap (fun w =>
        [((I_image.at_ h (if mirror_image then I_image.cols - w - 1 else w) c : Nat) : F)
          - mean c])))) ++
  (List.range I_label.rows).flatMap (fun h =>
    (List.range I_label.cols).flatMap (fun w =>
      [if I_label.at_ h (if mirror_image then I_label.cols - w - 1 else w) 0 > 0
        then (1 : F) else 0]))

/-- The mirror decision of a pass that starts in layer `L`. -/
def mirror_decision {F S T : Type} (env : Env F S T) (data_param : SegmentationDataParameter F)
    (L : SegmentationDataLayer F S T) : Bool :=
  if data_param.mirror then (env.rng L.bool_rng_).1 % 2 != 0 else false

/-- The record of a pass that starts in layer `L` and reads `pair`. -/
def item_record {F S T : Type} [Sub F] [Zero F] [One F] [NatCast F] (env : Env F S T)
    (data_param : SegmentationDataParameter F) (I : Mat) (L : SegmentationDataLayer F S T)
    (pair : ImagePair F) (mean : Nat → F) : Item F :=
  { cursor := L.image_pair_id_
    entry := pair
    mirror_image := mirror_decision env data_param L
    datum :=
      { channels := 4, height := I.rows, width := I.cols,
        float_data :=
          sample_float_data I (env.imread pair.image) (env.imread_grayscale pair.gt_image) mean
            (mirror_decision env data_param L) } }

/-- The layer after a pass that starts in layer `L` and reads `pair`. -/
def item_layer {F S T : Type} [Sub F] [Zero F] [One F] [NatCast F] (env : Env F S T)
    (data_param : SegmentationDataParameter F) (I : Mat) (height width item_id : Nat)
    (L : SegmentationDataLayer F S T) (pair : ImagePair F) (mean : Nat → F) :
    SegmentationDataLayer F S T :=
  let it := item_record env data_param I L pair mean
  advance env data_param.shuffle
    { L with
        bool_rng_ := if data_param.mirror then (env.rng L.bool_rng_).2 else L.bool_rng_
        prefetch_label_ :=
          { L.prefetch_label_ with
              data :=
                if data_param.has_manipulation_data then
                  write_label L.prefetch_label_.data item_id pair it.mirror_image
                else L.prefetch_label_.data }
        prefetch_data_ :=
          { L.prefetch_data_ with
              data :=
                write_block L.prefetch_data_.data (L.prefetch_data_.offset item_id)
                  (1 * 4 * height * width)
                  (env.Transform it.datum height width L.data_transformer_).1 }
        data_transformer_ := (env.Transform it.datum height width L.data_transformer_).2 }

/-- The mean of channel `c` as the passes of a cycle read it. -/
def channel_mean {F : Type} [Zero F] (mean_values_ : List F) (c : Nat) : F :=
  mean_values_.getD c 0

/-- The height of the destination of the transformer in a cycle whose first
image is `I`. -/
def cycle_height {F : Type} (data_param : SegmentationDataParameter F) (I : Mat) : Nat :=
  if data_param.crop_size > 0 then data_param.crop_size.toNat else I.rows

/-- The width of the destination of the transformer in a cycle whose first
image is `I`. -/
def cycle_width {F : Type} (data_param : SegmentationDataParameter F) (I : Mat) : Nat :=
  if data_param.crop_size > 0 then data_param.crop_size.toNat else I.cols

/-- The state of a random stream after `i` draws from state `s`. -/
def stream_after {F S T : Type} (env : Env F S T) (s : S) : Nat → S
  | 0 => s
  | i + 1 => (env.rng (stream_after env s i)).2

/-- The index, the cursor and the shuffle stream after one pass of the item
loop, from those before it. -/
def schedule_step {F S T : Type} (env : Env F S T) (shuffle : Bool)
    (st : List (ImagePair F) × Nat × S) : List (ImagePair F) × Nat × S :=
  (if st.1.length ≤ st.2.1 + 1 ∧ shuffle = true then (env.shuffle st.1 st.2.2).1 else st.1,
    if st.1.length ≤ st.2.1 + 1 then 0 else st.2.1 + 1,
    if st.1.length ≤ st.2.1 + 1 ∧ shuffle = true then (env.shuffle st.1 st.2.2).2 else st.2.2)

/-- The index, the cursor and the shuffle stream after `i` passes. -/
def schedule_after {F S T : Type} (env : Env F S T) (shuffle : Bool)
    (st : List (ImagePair F) × Nat × S) : Nat → List (ImagePair F) × Nat × S
  | 0 => st
  | i + 1 => schedule_step env shuffle (schedule_after env shuffle st i)

/-- The image with the columns in reverse order: column `w` holds what column
`cols - 1 - w` held. -/
def flip_columns (m : Mat) : Mat :=
  { m with at_ := fun h w c => m.at_ h (m.cols - 1 - w) c }

/-! ## The shuffle helper -/

/-- Modelled from the spec: the exchange of two positions of a sequence, the
step of the in-place permutation of `shuffle` below (`caffe/util/rng.hpp` is
not among the sources); nothing moves when a position is outside the
sequence. -/
def iter_swap {α : Type} (l : List α) (i j : Nat) : List α :=
  match l[i]?, l[j]? with
  | some a, some b => (l.set i b).set j a
  | _, _ => l

/-- Modelled from the spec: the loop of `shuffle` below (`caffe/util/rng.hpp` is
not among the sources); the positions `i + 1` down to 1 of a sequence are each
exchanged with a drawn position, one draw per position. -/
def shuffle_from {α S : Type} (draw : S → Nat → Nat × S) : Nat → List α → S → List α × S
  | 0, l, s => (l, s)
  | i + 1, l, s => shuffle_from draw i (iter_swap l (i + 1) (draw s (i + 1)).1) (draw s (i + 1)).2

/-- Modelled from the spec: the helper `shuffle(begin, end, gen)` is defined in
`caffe/util/rng.hpp`, which is not among the sources.  It is the in-place
random permutation of the full index of the spec, driven by the current state
of the stream: every position from the last down to the second is exchanged
with a position drawn for it, `draw s i` being the position drawn from `0..i`
in state `s` together with the advanced stream, so that the shuffle consumes
the draws its permutation requires and nothing else. -/
def shuffle {α S : Type} (draw : S → Nat → Nat × S) (l : List α) (s : S) : List α × S :=
  shuffle_from draw (l.length - 1) l s

/-! ## Manifests as they are written

The two manifest forms of the external interface, and the quantities of the
split of a basic line. -/

/-- The line of an entry in the basic form: `<image_path> <mask_path>`. -/
def write_basic_line {F : Type} (e : ImagePair F) : List Char :=
  e.image ++ ' ' :: (e.gt_image ++ ['\n'])

/-- The basic manifest of a list of entries, one line per entry. -/
def write_basic {F : Type} (es : List (ImagePair F)) : List Char :=
  es.flatMap write_basic_line

/-- The line of an entry in the extended form,
`<image_path> <mask_path> <mp_x> <mp_y>`, the numbers written by `print`. -/
def write_extended_line {F : Type} (print : F → List Char) (e : ImagePair F) : List Char :=
  e.image ++ ' ' :: (e.gt_image ++ ' ' :: (print e.mp_x ++ ' ' :: (print e.mp_y ++ ['\n'])))

/-- The extended manifest of a list of entries, one line per entry. -/
def write_extended {F : Type} (print : F → List Char) (es : List (ImagePair F)) : List Char :=
  es.flatMap (write_extended_line print)

/-- The value of `pos1` in the body of the `getline` loop. -/
def split_pos1 (line : string) : Int := to_int (find line ' ' 0)

/-- The value of the `int` expression `pos1 + 1`, where the second search and
the mask path start. -/
def split_start (line : string) : Int := wrap_int (split_pos1 line + 1)

/-- The value of `pos2` in the body of the `getline` loop. -/
def split_pos2 (line : string) : Int :=
  to_int (find line ' ' (to_size_t (split_start line)))

/-- The value of the `int` expression `pos2 - pos1 - 1`, the length asked of
`substr` for the mask path. -/
def mask_length (line : string) : Int :=
  wrap_int (wrap_int (split_pos2 line - split_pos1 line) - 1)

/-- The lines of the text that follows a line begun with `cur`: a newline ends
the line, and the text that remains at the end is a line when it is not
empty. -/
def manifest_lines_from : List Char → List Char → List (List Char)
  | [], [] => []
  | [], c :: cur => [c :: cur]
  | c :: cs, cur =>
    if c = '\n' then cur :: manifest_lines_from cs [] else manifest_lines_from cs (cur ++ [c])

/-- The lines of a manifest. -/
def manifest_lines (s : List Char) : List (List Char) := manifest_lines_from s []

/-! ## A worked example

A manifest of three entries, images of one row and three columns, a mirror
stream whose draws keep the parity of its seed, a shuffle that reverses the
index and a transformer that copies the float data. -/

/-- An image of one row whose pixel in column `w` holds `10 * (w + 1) + c` in
channel `c`. -/
def ex_image : Mat :=
  { rows := 1, cols := 3, channels := 3, at_ := fun _ w c => 10 * (w + 1) + c }

/-- A mask of one row that is set in column 0 only. -/
def ex_mask : Mat :=
  { rows := 1, cols := 3, channels := 1, at_ := fun _ w _ => if w = 0 then 255 else 0 }

/-- The example environment, over the rational numbers. -/
def ex_env : Env ℚ Nat Unit :=
  { read_file := fun _ => some ['a', ' ', 'b', '\n', 'c', ' ', 'd', '\n', 'e', ' ', 'f']
    read_float := fun _ => none
    indeterminate := 0
    imread := fun _ => ex_image
    imread_grayscale := fun _ => ex_mask
    seed := fun n => n
    rng := fun s => (s, s + 2)
    shuffle := fun l s => (l.reverse, s + 1)
    Transform := fun d _ _ t => (fun k => d.float_data.getD k 0, t) }

/-- The example options: basic manifest form, batches of two, mirroring
enabled, shuffling as given. -/
def ex_param (shuffle : Bool) : SegmentationDataParameter ℚ :=
  { source := ['l'], shuffle := shuffle, batch_size := 2, has_manipulation_data := false,
    mirror := true, show_level := 0, mean_value := [0, 0, 0], crop_size := 0 }

/-- The first entry of the example index, with manipulation point (0.3, 1). -/
def ex_pair : ImagePair ℚ :=
  { image := ['a'], gt_image := ['b'], mp_x := 3 / 10, mp_y := 1 }

/-- The example index: the entries of the example manifest with manipulation
points. -/
def ex_index : List (ImagePair ℚ) :=
  [ex_pair,
   { image := ['c'], gt_image := ['d'], mp_x := 0, mp_y := 0 },
   { image := ['e'], gt_image := ['f'], mp_x := 1, mp_y := 0 }]

/-- The index the example manifest loads to in the basic form. -/
def ex_manifest : List (ImagePair ℚ) :=
  [{ image := ['a'], gt_image := ['b'], mp_x := 0, mp_y := 0 },
   { image := ['c'], gt_image := ['d'], mp_x := 0, mp_y := 0 },
   { image := ['e'], gt_image := ['f'], mp_x := 0, mp_y := 0 }]

/-- A layer on the example index whose mirror stream has the given state. -/
def ex_layer (bool_rng : Nat) : SegmentationDataLayer ℚ Nat Unit :=
  { image_pairs_ := ex_index
    image_pair_id_ := 0
    prefetch_rng_ := 0
    bool_rng_ := bool_rng
    mean_values_ := [0, 0, 0]
    transformed_data_ := (0, 0, 0, 0)
    prefetch_data_ := { num := 2, channels := 4, height := 1, width := 3, data := fun _ => 0 }
    prefetch_label_ := { num := 2, channels := 2, height := 1, width := 1, data := fun _ => 0 }
    data_transformer_ := () }

/-- Extraction of a number in the example: whitespace is skipped and the run
of decimal digits that follows is read as a natural number; extraction fails
when no digit follows.  On numbers written with digits only this is what
`in >> x` does. -/
def ex_read_float (s : List Char) : Option (ℚ × Nat) :=
  match (s.dropWhile isspace).takeWhile Char.isDigit with
  | [] => none
  | d :: ds =>
    some ((((d :: ds).foldl (fun n c => 10 * n + (c.toNat - 48)) 0 : Nat) : ℚ),
      (s.takeWhile isspace).length + (d :: ds).length)

/-- The decimal digits of the integer part of a number, as the example writes
numbers. -/
def ex_print (x : ℚ) : List Char := Nat.toDigits 10 x.num.toNat

/-- Two entries with manipulation points, as written to an extended manifest. -/
def ex_records : List (ImagePair ℚ) :=
  [{ image := ['a'], gt_image := ['b'], mp_x := 1, mp_y := 2 },
   { image := ['c'], gt_image := ['d'], mp_x := 3, mp_y := 4 }]

/-- The example environment for the extended form.  Source `g` is the written
manifest of `ex_records`; `x` is a manifest whose second record has the
token `x` for `mp_x`; `y` is the written manifest of the first example record
followed by a record with the token `y` for `mp_y`; `w` is the written
manifest of the first example record followed by the lines `c d 3 4x` and
`e 5 6`; `e` is the written manifest of one entry whose image path is empty;
`z` is an empty file; no other source can be opened. -/
def ex_env_ext : Env ℚ Nat Unit :=
  { ex_env with
    read_float := ex_read_float
    read_file := fun source =>
      if source = ['g'] then some (write_extended ex_print ex_records)
      else if source = ['x'] then
        some ['a', ' ', 'b', ' ', '1', ' ', '2', '\n', 'c', ' ', 'd', ' ', 'x', ' ', '4', '\n',
          'e', ' ', 'f', ' ', '5', ' ', '6', '\n']
      else if source = ['y'] then
        some (write_extended ex_print (ex_records.take 1) ++
          ['c', ' ', 'd', ' ', '3', ' ', 'y', '\n'])
      else if source = ['w'] then
        some (write_extended ex_print (ex_records.take 1) ++
          ['c', ' ', 'd', ' ', '3', ' ', '4', 'x', '\n', 'e', ' ', '5', ' ', '6', '\n'])
      else if source = ['e'] then
        some (write_extended ex_print
          [{ image := [], gt_image := ['m'], mp_x := 1, mp_y := 2 }])
      else if source = ['z'] then some []
      else none }

/-- The example options for the extended form, for a given source. -/
def ex_param_ext (source : string) : SegmentationDataParameter ℚ :=
  { source := source, shuffle := false, batch_size := 2, has_manipulation_data := true,
    mirror := true, show_level := 0, mean_value := [0, 0, 0], crop_size := 0 }

/-- The last entry of the example index. -/
def ex_last_pair : ImagePair ℚ :=
  { image := ['e'], gt_image := ['f'], mp_x := 1, mp_y := 0 }

/-- The example layer with the cursor on the last entry of the index. -/
def ex_layer_last : SegmentationDataLayer ℚ Nat Unit :=
  { ex_layer 1 with image_pair_id_ := 2 }

end caffe

namespace caffe

/-! ## Loops -/

theorem forLoop_succ {σ : Type} (body : Nat → σ → Except Fault σ) (n : Nat) (s s' : σ)
    (h : forLoop body n s = .ok s') : forLoop body (n + 1) s = body n s' := by
  simp [forLoop, h]

/-- A loop whose passes all succeed and keep an invariant succeeds and
establishes the invariant for the final count. -/
theorem forLoop_invariant {σ : Type} (body : Nat → σ → Except Fault σ) (P : Nat → σ → Prop)
    (n : Nat) (s : σ) (h0 : P 0 s)
    (hstep : ∀ i, i < n → ∀ t, P i t → ∃ t', body i t = .ok t' ∧ P (i + 1) t') :
    ∃ t, forLoop body n s = .ok t ∧ P n t := by
  induction n with
  | zero => exact ⟨s, rfl, h0⟩
  | succ n ih =>
    obtain ⟨t, ht, hP⟩ := ih (fun i hi => hstep i (Nat.lt_succ_of_lt hi))
    obtain ⟨t', ht', hP'⟩ := hstep n (Nat.lt_succ_self n) t hP
    exact ⟨t', by rw [forLoop_succ body n s t ht, ht'], hP'⟩

/-- A loop whose pass `i` appends the block `blk i` appends the blocks in
order. -/
theorem forLoop_append {α : Type} (body : Nat → List α → Except Fault (List α))
    (blk : Nat → List α) (n : Nat)
    (hb : ∀ i, i < n → ∀ d, body i d = .ok (d ++ blk i)) (d : List α) :
    forLoop body n d = .ok (d ++ (List.range n).flatMap blk) := by
  induction n with
  | zero => simp [forLoop]
  | succ n ih =>
    rw [forLoop_succ body n d _ (ih (fun i hi => hb i (Nat.lt_succ_of_lt hi))),
      hb n (Nat.lt_succ_self n), List.range_succ, List.flatMap_append]
    simp

theorem length_flatMap_range {α : Type} (blk : Nat → List α) (m n : Nat)
    (hlen : ∀ i, i < n → (blk i).length = m) :
    ((List.range n).flatMap blk).length = n * m := by
  induction n with
  | zero => simp
  | succ n ih =>
    rw [List.range_succ, List.flatMap_append, List.length_append,
      ih (fun i hi => hlen i (Nat.lt_succ_of_lt hi))]
    simp [hlen n (Nat.lt_succ_self n), Nat.succ_mul]

/-- Element `j` of block `i` sits at position `i * m + j` of the concatenation
of blocks of length `m`. -/
theorem getElem?_flatMap_range {α : Type} (blk : Nat → List α) (m n : Nat)
    (hlen : ∀ i, i < n → (blk i).length = m) (i j : Nat) (hi : i < n) (hj : j < m) :
    ((List.range n).flatMap blk)[i * m + j]? = (blk i)[j]? := by
  induction n with
  | zero => omega
  | succ n ih =>
    have hl := length_flatMap_range blk m n (fun i hi => hlen i (Nat.lt_succ_of_lt hi))
    rw [List.range_succ, List.flatMap_append]
    rcases Nat.lt_succ_iff_lt_or_eq.mp hi with h | h
    · have hlt : i * m + j < n * m := by
        calc i * m + j < i * m + m := by omega
          _ = (i + 1) * m := by rw [Nat.succ_mul]
          _ ≤ n * m := Nat.mul_le_mul_right m h
      rw [List.getElem?_append_left (by rw [hl]; exact hlt)]
      exact ih (fun i hi => hlen i (Nat.lt_succ_of_lt hi)) h
    · subst h
      rw [List.getElem?_append_right (by rw [hl]; omega), hl]
      simp


/-! ## The float data of one sample -/

/-- The colour loops in closed form: the blocks of the channels, each made of
the blocks of its rows. -/
theorem fill_image_eq {F : Type} [Sub F] [NatCast F] (I I_image : Mat) (mean_values_ : List F)
    (mirror_image : Bool) (mean : Nat → F)
    (hm : ∀ c, c < I.channels → mean_values_[c]? = some (mean c)) (d : List F) :
    fill_image I I_image mean_values_ mirror_image d =
      .ok (d ++ (List.range I.channels).flatMap (fun c =>
        (List.range I_image.rows).flatMap (fun h =>
          (List.range I_image.cols).flatMap (fun w =>
            [((I_image.at_ h (if mirror_image then I_image.cols - w - 1 else w) c : Nat) : F)
              - mean c])))) := by
  unfold fill_image
  apply forLoop_append
  intro c hc d
  apply forLoop_append
  intro h _ d
  apply forLoop_append
  intro w _ d
  cases mirror_image <;> simp [vec_get, hm c hc]

/-- The mask loops in closed form: the blocks of the rows. -/
theorem fill_label_eq {F : Type} [Zero F] [One F] (I_label : Mat) (mirror_image : Bool)
    (d : List F) :
    fill_label I_label mirror_image d =
      .ok (d ++ (List.range I_label.rows).flatMap (fun h =>
        (List.range I_label.cols).flatMap (fun w =>
          [if I_label.at_ h (if mirror_image then I_label.cols - w - 1 else w) 0 > 0
            then (1 : F) else 0]))) := by
  unfold fill_label
  apply forLoop_append
  intro h _ d
  apply forLoop_append
  intro w _ d
  cases mirror_image <;> simp

theorem length_row_block {α : Type} (f : Nat → α) (n : Nat) :
    ((List.range n).flatMap (fun w => [f w])).length = n := by
  rw [length_flatMap_range (fun w => [f w]) 1 n (fun _ _ => rfl)]; simp

theorem getElem?_row_block {α : Type} (f : Nat → α) (n w : Nat) (hw : w < n) :
    ((List.range n).flatMap (fun w => [f w]))[w]? = some (f w) := by
  have h := getElem?_flatMap_range (fun w => [f w]) 1 n (fun _ _ => rfl) w 0 hw Nat.one_pos
  simpa using h

theorem length_plane_block {α : Type} (f : Nat → Nat → α) (rows cols : Nat) :
    ((List.range rows).flatMap (fun h => (List.range cols).flatMap (fun w => [f h w]))).length
      = rows * cols :=
  length_flatMap_range _ cols rows (fun h _ => length_row_block (f h) cols)

theorem getElem?_plane_block {α : Type} (f : Nat → Nat → α) (rows cols h w : Nat)
    (hh : h < rows) (hw : w < cols) :
    ((List.range rows).flatMap (fun h => (List.range cols).flatMap (fun w => [f h w])))[h * cols + w]?
      = some (f h w) := by
  rw [getElem?_flatMap_range _ cols rows (fun h _ => length_row_block (f h) cols) h w hh hw]
  exact getElem?_row_block (f h) cols w hw

theorem length_volume_block {α : Type} (f : Nat → Nat → Nat → α) (chans rows cols : Nat) :
    ((List.range chans).flatMap (fun c =>
      (List.range rows).flatMap (fun h => (List.range cols).flatMap (fun w => [f c h w])))).length
      = chans * (rows * cols) :=
  length_flatMap_range _ (rows * cols) chans (fun c _ => length_plane_block (f c) rows cols)

theorem vec_get_ok {α : Type} (v : List α) (i : Nat) (a : α) (h : v[i]? = some a) :
    vec_get v i = .ok a := by
  simp [vec_get, h]

/-- One pass of the item loop in closed form, when the cursor is inside the
index and every channel has a mean value. -/
theorem item_body_ok {F S T : Type} [Sub F] [Zero F] [One F] [NatCast F] (env : Env F S T)
    (data_param : SegmentationDataParameter F) (I : Mat) (height width item_id : Nat)
    (L : SegmentationDataLayer F S T) (log : List (Item F)) (pair : ImagePair F)
    (hpair : L.image_pairs_[L.image_pair_id_]? = some pair) (mean : Nat → F)
    (hm : ∀ c, c < I.channels → L.mean_values_[c]? = some (mean c)) :
    item_body env data_param I height width item_id (L, log) =
      .ok (item_layer env data_param I height width item_id L pair mean,
        log ++ [item_record env data_param I L pair mean]) := by
  unfold item_body item_layer item_record mirror_decision
  cases hmir : data_param.mirror <;> cases hman : data_param.has_manipulation_data <;>
    simp [RandBool, vec_get_ok _ _ _ hpair, fill_image_eq I _ _ _ mean hm, fill_label_eq,
      sample_float_data]


/-! ## Projections of one pass -/

section projections

variable {F S T : Type} [Sub F] [Zero F] [One F] [NatCast F] (env : Env F S T)
  (data_param : SegmentationDataParameter F) (I : Mat) (height width item_id : Nat)
  (L : SegmentationDataLayer F S T) (pair : ImagePair F) (mean : Nat → F)

theorem item_layer_cursor :
    (item_layer env data_param I height width item_id L pair mean).image_pair_id_ =
      if L.image_pairs_.length ≤ L.image_pair_id_ + 1 then 0 else L.image_pair_id_ + 1 := by
  unfold item_layer advance ShuffleImages
  by_cases h : L.image_pairs_.length ≤ L.image_pair_id_ + 1 <;>
    cases data_param.shuffle <;> simp [h]

theorem item_layer_pairs :
    (item_layer env data_param I height width item_id L pair mean).image_pairs_ =
      if L.image_pairs_.length ≤ L.image_pair_id_ + 1 ∧ data_param.shuffle = true then
        (env.shuffle L.image_pairs_ L.prefetch_rng_).1
      else L.image_pairs_ := by
  unfold item_layer advance ShuffleImages
  by_cases h : L.image_pairs_.length ≤ L.image_pair_id_ + 1 <;>
    cases data_param.shuffle <;> simp [h]

theorem item_layer_prefetch_rng :
    (item_layer env data_param I height width item_id L pair mean).prefetch_rng_ =
      if L.image_pairs_.length ≤ L.image_pair_id_ + 1 ∧ data_param.shuffle = true then
        (env.shuffle L.image_pairs_ L.prefetch_rng_).2
      else L.prefetch_rng_ := by
  unfold item_layer advance ShuffleImages
  by_cases h : L.image_pairs_.length ≤ L.image_pair_id_ + 1 <;>
    cases data_param.shuffle <;> simp [h]

theorem item_layer_bool_rng :
    (item_layer env data_param I height width item_id L pair mean).bool_rng_ =
      if data_param.mirror then (env.rng L.bool_rng_).2 else L.bool_rng_ := by
  unfold item_layer advance ShuffleImages
  by_cases h : L.image_pairs_.length ≤ L.image_pair_id_ + 1 <;>
    cases data_param.shuffle <;> simp [h]

theorem item_layer_mean_values :
    (item_layer env data_param I height width item_id L pair mean).mean_values_ =
      L.mean_values_ := by
  unfold item_layer advance ShuffleImages
  by_cases h : L.image_pairs_.length ≤ L.image_pair_id_ + 1 <;>
    cases data_param.shuffle <;> simp [h]

theorem item_layer_label :
    (item_layer env data_param I height width item_id L pair mean).prefetch_label_.data =
      if data_param.has_manipulation_data then
        write_label L.prefetch_label_.data item_id pair (mirror_decision env data_param L)
      else L.prefetch_label_.data := by
  unfold item_layer advance ShuffleImages item_record
  by_cases h : L.image_pairs_.length ≤ L.image_pair_id_ + 1 <;>
    cases data_param.shuffle <;> simp [h]

theorem item_layer_data :
    (item_layer env data_param I height width item_id L pair mean).prefetch_data_.data =
      write_block L.prefetch_data_.data (L.prefetch_data_.offset item_id)
        (1 * 4 * height * width)
        (env.Transform (item_record env data_param I L pair mean).datum height width
          L.data_transformer_).1 := by
  unfold item_layer advance ShuffleImages
  by_cases h : L.image_pairs_.length ≤ L.image_pair_id_ + 1 <;>
    cases data_param.shuffle <;> simp [h]

theorem item_layer_offset (n : Nat) :
    (item_layer env data_param I height width item_id L pair mean).prefetch_data_.offset n =
      L.prefetch_data_.offset n := by
  unfold item_layer advance ShuffleImages Blob.offset
  by_cases h : L.image_pairs_.length ≤ L.image_pair_id_ + 1 <;>
    cases data_param.shuffle <;> simp [h]

theorem item_layer_transformer :
    (item_layer env data_param I height width item_id L pair mean).data_transformer_ =
      (env.Transform (item_record env data_param I L pair mean).datum height width
        L.data_transformer_).2 := by
  unfold item_layer advance ShuffleImages
  by_cases h : L.image_pairs_.length ≤ L.image_pair_id_ + 1 <;>
    cases data_param.shuffle <;> simp [h]

end projections

/-! ## One production cycle -/

theorem channel_mean_spec {F : Type} [Zero F] (mean_values_ : List F) (n : Nat)
    (h : n ≤ mean_values_.length) (c : Nat) (hc : c < n) :
    mean_values_[c]? = some (channel_mean mean_values_ c) := by
  have hlt : c < mean_values_.length := Nat.lt_of_lt_of_le hc h
  simp [channel_mean, List.getD, List.getElem?_eq_getElem hlt]

/-- A cycle that starts with the cursor on `pair0` is the item loop run from
the layer with the transformer destination reshaped. -/
theorem InternalThreadEntry_eq {F S T : Type} [Sub F] [Zero F] [One F] [NatCast F]
    (env : Env F S T) (data_param : SegmentationDataParameter F)
    (L : SegmentationDataLayer F S T) (pair0 : ImagePair F)
    (hpair0 : L.image_pairs_[L.image_pair_id_]? = some pair0) :
    InternalThreadEntry env data_param L =
      forLoop
        (item_body env data_param (env.imread pair0.image)
          (cycle_height data_param (env.imread pair0.image))
          (cycle_width data_param (env.imread pair0.image)))
        data_param.batch_size.toNat
        ({ L with
            transformed_data_ :=
              (1, 4, cycle_height data_param (env.imread pair0.image),
                cycle_width data_param (env.imread pair0.image)) }, []) := by
  simp [InternalThreadEntry, vec_get_ok _ _ _ hpair0, cycle_height, cycle_width]

/-- A cycle that starts with the cursor inside the index, under a shuffle that
keeps the length of the index and with a mean value for every channel of its
first image, runs to its end, and establishes every property `P` of the pass
count, the layer and the record that holds at the start and is kept by a pass
in closed form. -/
theorem cycle_invariant {F S T : Type} [Sub F] [Zero F] [One F] [NatCast F]
    (env : Env F S T) (data_param : SegmentationDataParameter F)
    (L : SegmentationDataLayer F S T) (pair0 : ImagePair F)
    (hpair0 : L.image_pairs_[L.image_pair_id_]? = some pair0)
    (hsh : data_param.shuffle = true → ∀ l s, (env.shuffle l s).1.length = l.length)
    (hmean : (env.imread pair0.image).channels ≤ L.mean_values_.length)
    (P : Nat → SegmentationDataLayer F S T → List (Item F) → Prop)
    (h0 : P 0 { L with
            transformed_data_ :=
              (1, 4, cycle_height data_param (env.imread pair0.image),
                cycle_width data_param (env.imread pair0.image)) } [])
    (hstep : ∀ k L1 log pair, k < data_param.batch_size.toNat → P k L1 log →
      L1.image_pairs_[L1.image_pair_id_]? = some pair →
      L1.mean_values_ = L.mean_values_ →
      L1.image_pairs_.length = L.image_pairs_.length →
      P (k + 1)
        (item_layer env data_param (env.imread pair0.image)
          (cycle_height data_param (env.imread pair0.image))
          (cycle_width data_param (env.imread pair0.image)) k L1 pair
          (channel_mean L.mean_values_))
        (log ++ [item_record env data_param (env.imread pair0.image) L1 pair
          (channel_mean L.mean_values_)])) :
    ∃ L' log, InternalThreadEntry env data_param L = .ok (L', log) ∧
      P data_param.batch_size.toNat L' log ∧
      L'.image_pair_id_ < L'.image_pairs_.length ∧
      L'.mean_values_ = L.mean_values_ ∧
      L'.image_pairs_.length = L.image_pairs_.length := by
  have hcur : L.image_pair_id_ < L.image_pairs_.length := by
    by_contra hge
    rw [List.getElem?_eq_none (Nat.le_of_not_lt hge)] at hpair0
    exact Option.noConfusion hpair0
  rw [InternalThreadEntry_eq env data_param L pair0 hpair0]
  obtain ⟨t, ht, hP, h1, h2, h3⟩ := forLoop_invariant
    (item_body env data_param (env.imread pair0.image)
      (cycle_height data_param (env.imread pair0.image))
      (cycle_width data_param (env.imread pair0.image)))
    (fun k t => P k t.1 t.2 ∧ t.1.image_pair_id_ < t.1.image_pairs_.length ∧
      t.1.mean_values_ = L.mean_values_ ∧ t.1.image_pairs_.length = L.image_pairs_.length)
    data_param.batch_size.toNat
    ({ L with
        transformed_data_ :=
          (1, 4, cycle_height data_param (env.imread pair0.image),
            cycle_width data_param (env.imread pair0.image)) }, [])
    ⟨h0, hcur, rfl, rfl⟩
    (by
      rintro k hk ⟨L1, log⟩ ⟨hP, h1, h2, h3⟩
      have hpair : L1.image_pairs_[L1.image_pair_id_]? = some (L1.image_pairs_[L1.image_pair_id_]) :=
        List.getElem?_eq_getElem h1
      refine ⟨_, item_body_ok env data_param _ _ _ k L1 log _ hpair (channel_mean L.mean_values_)
        (by rw [h2]; exact channel_mean_spec _ _ hmean), hstep k L1 log _ hk hP hpair h2 h3, ?_, ?_, ?_⟩
      · simp only [item_layer_cursor, item_layer_pairs]
        split_ifs <;> simp_all <;> omega
      · simp only [item_layer_mean_values]; exact h2
      · simp only [item_layer_pairs]
        split_ifs <;> simp_all)
  exact ⟨t.1, t.2, ht, hP, h1, h2, h3⟩


/-- Every item of a cycle carries the float data of its entry in closed form,
and the cycle has as many items as the batch size. -/
theorem cycle_items_float_data {F S T : Type} [Sub F] [Zero F] [One F] [NatCast F]
    (env : Env F S T) (data_param : SegmentationDataParameter F)
    (L : SegmentationDataLayer F S T) (pair0 : ImagePair F)
    (hpair0 : L.image_pairs_[L.image_pair_id_]? = some pair0)
    (hsh : data_param.shuffle = true → ∀ l s, (env.shuffle l s).1.length = l.length)
    (hmean : (env.imread pair0.image).channels ≤ L.mean_values_.length) :
    ∃ L' items, InternalThreadEntry env data_param L = .ok (L', items) ∧
      items.length = data_param.batch_size.toNat ∧
      ∀ it ∈ items,
        it.datum.channels = 4 ∧ it.datum.height = (env.imread pair0.image).rows ∧
        it.datum.width = (env.imread pair0.image).cols ∧
        it.datum.float_data =
          sample_float_data (env.imread pair0.image) (env.imread it.entry.image)
            (env.imread_grayscale it.entry.gt_image) (channel_mean L.mean_values_)
            it.mirror_image := by
  obtain ⟨L', items, hrun, hP, -⟩ := cycle_invariant env data_param L pair0 hpair0 hsh hmean
    (fun k _ log => log.length = k ∧ ∀ it ∈ log,
        it.datum.channels = 4 ∧ it.datum.height = (env.imread pair0.image).rows ∧
        it.datum.width = (env.imread pair0.image).cols ∧
        it.datum.float_data =
          sample_float_data (env.imread pair0.image) (env.imread it.entry.image)
            (env.imread_grayscale it.entry.gt_image) (channel_mean L.mean_values_)
            it.mirror_image)
    ⟨rfl, by simp⟩
    (by
      rintro k L1 log pair - ⟨hlen, hall⟩ - - -
      refine ⟨by simp [hlen], ?_⟩
      intro it hit
      rcases List.mem_append.mp hit with h | h
      · exact hall it h
      · rw [List.mem_singleton] at h
        subst h
        simp [item_record])
  exact ⟨L', items, hrun, hP.1, hP.2⟩

/-- C2: in a production cycle every item holds, right after its colour
values, at offset `h*W + w` (`W` the columns of the item's mask, `h` and `w`
inside the mask), the value 1 when the mask is positive at row `h` and column
`w'` and 0 otherwise, with `w' = w` for an item that is not mirrored and
`w' = W-1-w` for a mirrored one. -/
theorem InternalThreadEntry_mask_values {F S T : Type} [Sub F] [Zero F] [One F] [NatCast F]
    (env : Env F S T) (data_param : SegmentationDataParameter F)
    (L : SegmentationDataLayer F S T) (pair0 : ImagePair F)
    (hpair0 : L.image_pairs_[L.image_pair_id_]? = some pair0)
    (hsh : data_param.shuffle = true → ∀ l s, (env.shuffle l s).1.length = l.length)
    (hmean : (env.imread pair0.image).channels ≤ L.mean_values_.length) :
    ∃ L' items, InternalThreadEntry env data_param L = .ok (L', items) ∧
      items.length = data_param.batch_size.toNat ∧
      ∀ it ∈ items, ∀ h w : Nat,
        h < (env.imread_grayscale it.entry.gt_image).rows →
        w < (env.imread_grayscale it.entry.gt_image).cols →
        it.datum.float_data[(env.imread pair0.image).channels *
            ((env.imread it.entry.image).rows * (env.imread it.entry.image).cols) +
            (h * (env.imread_grayscale it.entry.gt_image).cols + w)]? =
          some (if (env.imread_grayscale it.entry.gt_image).at_ h
              (if it.mirror_image then (env.imread_grayscale it.entry.gt_image).cols - 1 - w
                else w) 0 > 0
            then (1 : F) else 0) := by
  obtain ⟨L', items, hrun, hlen, hall⟩ :=
    cycle_items_float_data env data_param L pair0 hpair0 hsh hmean
  refine ⟨L', items, hrun, hlen, ?_⟩
  intro it hit h w hh hw
  rw [(hall it hit).2.2.2, sample_float_data,
    List.getElem?_append_right (by rw [length_volume_block]; omega), length_volume_block,
    Nat.add_sub_cancel_left, getElem?_plane_block _ _ _ h w hh hw]
  have : (env.imread_grayscale it.entry.gt_image).cols - w - 1 =
      (env.imread_grayscale it.entry.gt_image).cols - 1 - w := by omega
  rw [this]


/-! ## The manipulation-point label -/

theorem write_label_x {F : Type} [Sub F] [One F] (d : Nat → F) (k : Nat) (p : ImagePair F)
    (m : Bool) : write_label d k p m (2 * k) = if m then 1 - p.mp_x else p.mp_x := by
  cases m <;> simp [write_label, store]

theorem write_label_y {F : Type} [Sub F] [One F] (d : Nat → F) (k : Nat) (p : ImagePair F)
    (m : Bool) : write_label d k p m (2 * k + 1) = p.mp_y := by
  simp [write_label, store]

theorem write_label_other {F : Type} [Sub F] [One F] (d : Nat → F) (k : Nat) (p : ImagePair F)
    (m : Bool) (j : Nat) (h0 : j ≠ 2 * k) (h1 : j ≠ 2 * k + 1) :
    write_label d k p m j = d j := by
  cases m <;> simp [write_label, store, h0, h1]

/-- C3: with manipulation data enabled, after a production cycle the label
buffer holds, for every item `i` of the batch, at position `2*i` the entry's
`mp_x` when the item was not mirrored and `1 - mp_x` when it was, and at
position `2*i+1` the entry's `mp_y` in both cases. -/
theorem InternalThreadEntry_label {F S T : Type} [Sub F] [Zero F] [One F] [NatCast F]
    (env : Env F S T) (data_param : SegmentationDataParameter F)
    (L : SegmentationDataLayer F S T) (pair0 : ImagePair F)
    (hpair0 : L.image_pairs_[L.image_pair_id_]? = some pair0)
    (hsh : data_param.shuffle = true → ∀ l s, (env.shuffle l s).1.length = l.length)
    (hmean : (env.imread pair0.image).channels ≤ L.mean_values_.length)
    (hman : data_param.has_manipulation_data = true) :
    ∃ L' items, InternalThreadEntry env data_param L = .ok (L', items) ∧
      items.length = data_param.batch_size.toNat ∧
      ∀ i, i < data_param.batch_size.toNat → ∃ it, items[i]? = some it ∧
        L'.prefetch_label_.data (2 * i) =
          (if it.mirror_image then 1 - it.entry.mp_x else it.entry.mp_x) ∧
        L'.prefetch_label_.data (2 * i + 1) = it.entry.mp_y := by
  obtain ⟨L', items, hrun, hP, -⟩ := cycle_invariant env data_param L pair0 hpair0 hsh hmean
    (fun k L1 log => log.length = k ∧ ∀ i it, log[i]? = some it →
        L1.prefetch_label_.data (2 * i) =
          (if it.mirror_image then 1 - it.entry.mp_x else it.entry.mp_x) ∧
        L1.prefetch_label_.data (2 * i + 1) = it.entry.mp_y)
    ⟨rfl, by simp⟩
    (by
      rintro k L1 log pair - ⟨hlen, hall⟩ - - -
      refine ⟨by simp [hlen], ?_⟩
      intro i it hit
      rw [item_layer_label, if_pos hman]
      by_cases hi : i < log.length
      · rw [List.getElem?_append_left hi] at hit
        rw [write_label_other _ _ _ _ _ (by omega) (by omega),
          write_label_other _ _ _ _ _ (by omega) (by omega)]
        exact hall i it hit
      · rw [List.getElem?_append_right (Nat.le_of_not_lt hi)] at hit
        have hi0 : i - log.length = 0 := by
          by_contra hne
          rw [List.getElem?_eq_none (by simp; omega)] at hit
          exact Option.noConfusion hit
        have hik : i = k := by omega
        rw [hi0] at hit
        simp only [List.getElem?_cons_zero, Option.some.injEq] at hit
        subst hit
        subst hik
        rw [write_label_x, write_label_y]
        simp [item_record])
  refine ⟨L', items, hrun, hP.1, ?_⟩
  intro i hi
  have hlt : i < items.length := by rw [hP.1]; exact hi
  exact ⟨items[i], List.getElem?_eq_getElem hlt, hP.2 i _ (List.getElem?_eq_getElem hlt)⟩


/-! ## Successive production cycles -/

theorem getElem?_of_lt {α : Type} (l : List α) (i : Nat) (h : i < l.length) :
    l[i]? = some (l.get ⟨i, h⟩) := by
  simp [List.getElem?_eq_getElem h]

theorem lt_length_of_getElem? {α : Type} (l : List α) (i : Nat) (a : α) (h : l[i]? = some a) :
    i < l.length := by
  by_contra hge
  rw [List.getElem?_eq_none (Nat.le_of_not_lt hge)] at h
  exact Option.noConfusion h

/-- Successive cycles from a layer whose cursor is inside the index, under a
shuffle that keeps the length of the index and with a mean value for every
channel of every image, all run to their end, and establish every property `J`
of the layer and of the record of all items so far that holds at the start,
does not depend on the shape of the transformer destination and is kept by a
pass in closed form. -/
theorem run_invariant {F S T : Type} [Sub F] [Zero F] [One F] [NatCast F]
    (env : Env F S T) (data_param : SegmentationDataParameter F)
    (L : SegmentationDataLayer F S T)
    (hcur : L.image_pair_id_ < L.image_pairs_.length)
    (hsh : data_param.shuffle = true → ∀ l s, (env.shuffle l s).1.length = l.length)
    (hmean : ∀ p, (env.imread p).channels ≤ L.mean_values_.length)
    (J : SegmentationDataLayer F S T → List (Item F) → Prop)
    (h0 : J L [])
    (hshape : ∀ L1 log shape, J L1 log → J { L1 with transformed_data_ := shape } log)
    (hstep : ∀ I height width k L1 log pair, J L1 log →
      L1.image_pairs_[L1.image_pair_id_]? = some pair →
      L1.mean_values_ = L.mean_values_ →
      L1.image_pairs_.length = L.image_pairs_.length →
      J (item_layer env data_param I height width k L1 pair (channel_mean L.mean_values_))
        (log ++ [item_record env data_param I L1 pair (channel_mean L.mean_values_)]))
    (K : Nat) :
    ∃ L' batches, run_cycles env data_param K L = .ok (L', batches) ∧
      J L' batches.flatten ∧ batches.length = K ∧
      (∀ b ∈ batches, b.length = data_param.batch_size.toNat) ∧
      L'.image_pair_id_ < L'.image_pairs_.length ∧
      L'.mean_values_ = L.mean_values_ ∧
      L'.image_pairs_.length = L.image_pairs_.length := by
  induction K with
  | zero => exact ⟨L, [], rfl, by simpa using h0, rfl, by simp, hcur, rfl, rfl⟩
  | succ K ih =>
    obtain ⟨L1, batches, hrun, hJ, hlen, hB, h1, h2, h3⟩ := ih
    obtain ⟨L2, items, hrun2, ⟨hJ2, hB2⟩, g1, g2, g3⟩ :=
      cycle_invariant env data_param L1 (L1.image_pairs_.get ⟨L1.image_pair_id_, h1⟩)
        (getElem?_of_lt _ _ h1) hsh (by rw [h2]; exact hmean _)
        (fun k La log => J La (batches.flatten ++ log) ∧ log.length = k)
        ⟨by simpa using hshape L1 _ _ hJ, rfl⟩
        (by
          rintro k La log pair - ⟨hJa, hk⟩ hpair hm hl
          refine ⟨?_, by simp [hk]⟩
          rw [← List.append_assoc, h2]
          exact hstep _ _ _ k La _ pair hJa hpair (hm.trans h2) (hl.trans h3))
    refine ⟨L2, batches ++ [items], ?_, by simpa using hJ2, by simp [hlen], ?_, g1,
      g2.trans h2, g3.trans h3⟩
    · simp [run_cycles, hrun, hrun2]
    · intro b hb
      rcases List.mem_append.mp hb with h | h
      · exact hB b h
      · rw [List.mem_singleton] at h
        rw [h]; exact hB2

/-- In a list of batches of `B` items each, item `j` of batch `k` is item
`k * B + j` of the batches laid end to end. -/
theorem getElem?_flatten_uniform {α : Type} (bs : List (List α)) (B : Nat)
    (h : ∀ b ∈ bs, b.length = B) (k j : Nat) (hj : j < B) (b : List α)
    (hb : bs[k]? = some b) : bs.flatten[k * B + j]? = b[j]? := by
  induction bs generalizing k with
  | nil => simp at hb
  | cons b0 bs ih =>
    have hb0 : b0.length = B := h b0 (List.mem_cons_self _ _)
    cases k with
    | zero =>
      simp only [List.getElem?_cons_zero, Option.some.injEq] at hb
      subst hb
      rw [List.flatten_cons, Nat.zero_mul, Nat.zero_add,
        List.getElem?_append_left (by rw [hb0]; exact hj)]
    | succ k =>
      simp only [List.getElem?_cons_succ] at hb
      rw [List.flatten_cons, List.getElem?_append_right (by rw [hb0, Nat.succ_mul]; omega), hb0]
      have : (k + 1) * B + j - B = k * B + j := by rw [Nat.succ_mul]; omega
      rw [this]
      exact ih (fun b hb => h b (List.mem_cons_of_mem _ hb)) k hb


theorem getElem?_concat_cases {α : Type} (log : List α) (x it : α) (i : Nat)
    (h : (log ++ [x])[i]? = some it) :
    (i < log.length ∧ log[i]? = some it) ∨ (i = log.length ∧ it = x) := by
  have hi := lt_length_of_getElem? _ _ _ h
  rw [List.length_append, List.length_singleton] at hi
  by_cases hlt : i < log.length
  · rw [List.getElem?_append_left hlt] at h
    exact Or.inl ⟨hlt, h⟩
  · have hi0 : i = log.length := by omega
    subst hi0
    rw [List.getElem?_append_right (Nat.le_refl _), Nat.sub_self] at h
    simp only [List.getElem?_cons_zero, Option.some.injEq] at h
    exact Or.inr ⟨rfl, h.symm⟩

theorem succ_mod_wrap (a N : Nat) (hN : 0 < N) :
    (a + 1) % N = if N ≤ a % N + 1 then 0 else a % N + 1 := by
  have hlt : a % N < N := Nat.mod_lt a hN
  rw [Nat.add_mod]
  by_cases h : N ≤ a % N + 1
  · rw [if_pos h]
    have h1 : a % N + 1 = N := by omega
    by_cases hN1 : N = 1
    · subst hN1; simp [Nat.mod_one]
    · rw [Nat.mod_eq_of_lt (show 1 < N by omega), h1, Nat.mod_self]
  · rw [if_neg h]
    have hN1 : 1 < N := by omega
    rw [Nat.mod_eq_of_lt hN1, Nat.mod_eq_of_lt (by omega)]

/-- The cursors of successive cycles: item `i` of the whole record reads the
cursor `(c + i) mod N`, where `c` is the cursor at the start and `N` the length
of the index; without shuffling the index never changes, so that item
reads entry `(c + i) mod N` of the index at the start. -/
theorem run_cursors {F S T : Type} [Sub F] [Zero F] [One F] [NatCast F]
    (env : Env F S T) (data_param : SegmentationDataParameter F)
    (L : SegmentationDataLayer F S T)
    (hcur : L.image_pair_id_ < L.image_pairs_.length)
    (hsh : data_param.shuffle = true → ∀ l s, (env.shuffle l s).1.length = l.length)
    (hmean : ∀ p, (env.imread p).channels ≤ L.mean_values_.length) (K : Nat) :
    ∃ L' batches, run_cycles env data_param K L = .ok (L', batches) ∧
      batches.length = K ∧
      (∀ b ∈ batches, b.length = data_param.batch_size.toNat) ∧
      L'.image_pairs_.length = L.image_pairs_.length ∧
      L'.mean_values_ = L.mean_values_ ∧
      L'.image_pair_id_ = (L.image_pair_id_ + batches.flatten.length) % L.image_pairs_.length ∧
      (∀ i it, batches.flatten[i]? = some it →
        it.cursor = (L.image_pair_id_ + i) % L.image_pairs_.length) ∧
      (data_param.shuffle = false → L'.image_pairs_ = L.image_pairs_ ∧
        L'.prefetch_rng_ = L.prefetch_rng_ ∧
        ∀ i it, batches.flatten[i]? = some it →
          L.image_pairs_[(L.image_pair_id_ + i) % L.image_pairs_.length]? = some it.entry) := by
  obtain ⟨L', batches, hrun, ⟨hJ1, hJ2, hJ3⟩, hlen, hB, -, h2, h3⟩ :=
    run_invariant env data_param L hcur hsh hmean
      (fun (L1 : SegmentationDataLayer F S T) (log : List (Item F)) =>
        L1.image_pair_id_ = (L.image_pair_id_ + log.length) % L.image_pairs_.length ∧
        (∀ i it, log[i]? = some it →
          it.cursor = (L.image_pair_id_ + i) % L.image_pairs_.length) ∧
        (data_param.shuffle = false → L1.image_pairs_ = L.image_pairs_ ∧
          L1.prefetch_rng_ = L.prefetch_rng_ ∧
          ∀ i it, log[i]? = some it →
            L.image_pairs_[(L.image_pair_id_ + i) % L.image_pairs_.length]? = some it.entry))
      ⟨by simp [Nat.mod_eq_of_lt hcur], by simp, by simp⟩
      (by intro L1 log shape h; exact h)
      (by
        rintro I height width k L1 log pair ⟨hc, hcs, hns⟩ hpair - hl
        have hN : 0 < L.image_pairs_.length := Nat.lt_of_le_of_lt (Nat.zero_le _) hcur
        refine ⟨?_, ?_, ?_⟩
        · rw [item_layer_cursor, hl, hc, List.length_append, List.length_singleton,
            ← Nat.add_assoc, succ_mod_wrap _ _ hN]
        · intro i it hit
          rcases getElem?_concat_cases _ _ _ _ hit with ⟨-, h⟩ | ⟨hi, h⟩
          · exact hcs i it h
          · subst hi; subst h
            simp [item_record, hc]
        · intro hsf
          obtain ⟨hp, hr, he⟩ := hns hsf
          refine ⟨by rw [item_layer_pairs]; simp [hsf, hp],
            by rw [item_layer_prefetch_rng]; simp [hsf, hr], ?_⟩
          intro i it hit
          rcases getElem?_concat_cases _ _ _ _ hit with ⟨-, h⟩ | ⟨hi, h⟩
          · exact he i it h
          · subst hi; subst h
            rw [← hc, ← hp]
            simpa [item_record] using hpair)
      K
  exact ⟨L', batches, hrun, hlen, hB, h3, h2, hJ1, hJ2, hJ3⟩


/-! ## Setup -/

theorem Blob.Reshape_ok {F : Type} (b : Blob F) (num channels height width : Int)
    (h1 : 0 ≤ num) (h2 : 0 ≤ channels) (h3 : 0 ≤ height) (h4 : 0 ≤ width) :
    b.Reshape num channels height width =
      .ok { b with num := num.toNat, channels := channels.toNat, height := height.toNat,
                   width := width.toNat } := by
  unfold Blob.Reshape
  rw [if_neg (by omega)]

/-- Setup on a manifest that loads to a non-empty index, with a batch size that
is not negative and a shuffle that keeps the length of the index, returns a
layer whose cursor is 0, whose index is the loaded one (shuffled once when
shuffling is enabled), whose streams are freshly seeded and whose mean values
are the configured ones. -/
theorem DataLayerSetUp_ok {F S T : Type} [Zero F] (env : Env F S T)
    (data_param : SegmentationDataParameter F) (data_transformer : T)
    (prefetch_rng_seed bool_rng_seed : Nat) (index : List (ImagePair F))
    (hload : load_manifest env data_param.source data_param.has_manipulation_data [] = .ok index)
    (hne : index ≠ []) (hB : 0 ≤ data_param.batch_size)
    (hsh : data_param.shuffle = true → ∀ l s, (env.shuffle l s).1.length = l.length) :
    ∃ L, DataLayerSetUp env data_param data_transformer prefetch_rng_seed bool_rng_seed = .ok L ∧
      L.image_pair_id_ = 0 ∧
      L.image_pairs_ =
        (if data_param.shuffle then (env.shuffle index (env.seed prefetch_rng_seed)).1
          else index) ∧
      L.prefetch_rng_ =
        (if data_param.shuffle then (env.shuffle index (env.seed prefetch_rng_seed)).2
          else env.seed prefetch_rng_seed) ∧
      L.bool_rng_ = env.seed bool_rng_seed ∧
      L.mean_values_ = data_param.mean_value := by
  have hpos : 0 < index.length := List.length_pos.mpr hne
  have hidx : ∀ l : List (ImagePair F), 0 < l.length → ∃ p, vec_get l 0 = .ok p := by
    intro l hl
    exact ⟨l.get ⟨0, hl⟩, vec_get_ok _ _ _ (getElem?_of_lt l 0 hl)⟩
  have hh : ∀ I : Mat, (0 : Int) ≤ if data_param.crop_size > 0 then data_param.crop_size
      else (I.rows : Int) := by
    intro I; split_ifs <;> omega
  have hw : ∀ I : Mat, (0 : Int) ≤ if data_param.crop_size > 0 then data_param.crop_size
      else (I.cols : Int) := by
    intro I; split_ifs <;> omega
  unfold DataLayerSetUp
  rw [hload]
  cases hs : data_param.shuffle
  · obtain ⟨p, hp⟩ := hidx index hpos
    simp only [Bool.false_eq_true, if_false, hp]
    rw [Blob.Reshape_ok _ _ _ _ _ hB (by decide) (hh _) (hw _)]
    cases hm : data_param.has_manipulation_data
    · simp
    · simp only [if_true]
      rw [Blob.Reshape_ok _ _ _ _ _ hB (by decide) (by decide) (by decide)]
      simp
  · obtain ⟨p, hp⟩ := hidx (env.shuffle index (env.seed prefetch_rng_seed)).1
      (by rw [hsh hs]; exact hpos)
    simp only [if_true, ShuffleImages, hp]
    rw [Blob.Reshape_ok _ _ _ _ _ hB (by decide) (hh _) (hw _)]
    cases hm : data_param.has_manipulation_data
    · simp
    · simp only [if_true]
      rw [Blob.Reshape_ok _ _ _ _ _ hB (by decide) (by decide) (by decide)]
      simp


/-! ## Order of consumption -/

/-- C4: with shuffle disabled, after setup on a manifest that loads to a
non-empty index of `N` entries, item `j` of the `k`-th production cycle (both
counted from 0) reads the cursor `(k * batch_size + j) mod N` and is built
from the manifest entry at that position. -/
theorem cycles_follow_manifest_order {F S T : Type} [Sub F] [Zero F] [One F] [NatCast F]
    (env : Env F S T) (data_param : SegmentationDataParameter F) (data_transformer : T)
    (prefetch_rng_seed bool_rng_seed : Nat) (index : List (ImagePair F))
    (hload : load_manifest env data_param.source data_param.has_manipulation_data [] = .ok index)
    (hne : index ≠ []) (hB : 0 ≤ data_param.batch_size)
    (hshuffle : data_param.shuffle = false)
    (hmean : ∀ p, (env.imread p).channels ≤ data_param.mean_value.length) :
    ∃ L, DataLayerSetUp env data_param data_transformer prefetch_rng_seed bool_rng_seed = .ok L ∧
      L.image_pair_id_ = 0 ∧
      ∀ K, ∃ L' batches, run_cycles env data_param K L = .ok (L', batches) ∧
        batches.length = K ∧
        ∀ k j, k < K → j < data_param.batch_size.toNat → ∃ b it,
          batches[k]? = some b ∧ b[j]? = some it ∧
          it.cursor = (k * data_param.batch_size.toNat + j) % index.length ∧
          index[(k * data_param.batch_size.toNat + j) % index.length]? = some it.entry := by
  have hsh : data_param.shuffle = true → ∀ l s, (env.shuffle l s).1.length = l.length := by
    intro h; rw [hshuffle] at h; exact Bool.noConfusion h
  obtain ⟨L, hset, hc, hp, -, -, hm⟩ := DataLayerSetUp_ok env data_param data_transformer
    prefetch_rng_seed bool_rng_seed index hload hne hB hsh
  rw [hshuffle] at hp
  simp only [Bool.false_eq_true, if_false] at hp
  refine ⟨L, hset, hc, ?_⟩
  intro K
  obtain ⟨L', batches, hrun, hlen, hBs, -, -, -, hcs, hns⟩ := run_cursors env data_param L
    (by rw [hc, hp]; exact List.length_pos.mpr hne) hsh (by rw [hm]; exact hmean) K
  refine ⟨L', batches, hrun, hlen, ?_⟩
  intro k j hk hj
  have hkl : k < batches.length := by rw [hlen]; exact hk
  have hb : batches[k]? = some (batches.get ⟨k, hkl⟩) := getElem?_of_lt _ _ hkl
  have hbl : (batches.get ⟨k, hkl⟩).length = data_param.batch_size.toNat :=
    hBs _ (List.get_mem _ _ _)
  have hjl : j < (batches.get ⟨k, hkl⟩).length := by rw [hbl]; exact hj
  have hit := getElem?_of_lt (batches.get ⟨k, hkl⟩) j hjl
  have hflat := getElem?_flatten_uniform batches _ hBs k j hj _ hb
  rw [hit] at hflat
  refine ⟨_, _, hb, hit, ?_, ?_⟩
  · have := hcs _ _ hflat
    rw [hc, Nat.zero_add, hp] at this
    exact this
  · have := (hns hshuffle).2.2 _ _ hflat
    rw [hc, Nat.zero_add, hp] at this
    exact this

/-- C5: setup on a manifest that loads to a non-empty index leaves the cursor
at 0, inside the index; in every run of production cycles after it, every
item reads a cursor inside the index, the cursor after the last cycle is inside
the index, and the cursor after the pass of an item is 0 when the increment
makes it reach the length of the index and one more than before otherwise. -/
theorem cursor_stays_in_index {F S T : Type} [Sub F] [Zero F] [One F] [NatCast F]
    (env : Env F S T) (data_param : SegmentationDataParameter F) (data_transformer : T)
    (prefetch_rng_seed bool_rng_seed : Nat) (index : List (ImagePair F))
    (hload : load_manifest env data_param.source data_param.has_manipulation_data [] = .ok index)
    (hne : index ≠ []) (hB : 0 ≤ data_param.batch_size)
    (hsh : data_param.shuffle = true → ∀ l s, (env.shuffle l s).1.length = l.length)
    (hmean : ∀ p, (env.imread p).channels ≤ data_param.mean_value.length) :
    ∃ L, DataLayerSetUp env data_param data_transformer prefetch_rng_seed bool_rng_seed = .ok L ∧
      L.image_pair_id_ = 0 ∧ L.image_pair_id_ < L.image_pairs_.length ∧
      ∀ K, ∃ L' batches, run_cycles env data_param K L = .ok (L', batches) ∧
        L'.image_pairs_.length = L.image_pairs_.length ∧
        L'.image_pair_id_ < L'.image_pairs_.length ∧
        ∀ i it, batches.flatten[i]? = some it →
          it.cursor < L.image_pairs_.length ∧
          ((batches.flatten[i + 1]?).map Item.cursor).getD L'.image_pair_id_ =
            if it.cursor + 1 = L.image_pairs_.length then 0 else it.cursor + 1 := by
  obtain ⟨L, hset, hc, hp, -, -, hm⟩ := DataLayerSetUp_ok env data_param data_transformer
    prefetch_rng_seed bool_rng_seed index hload hne hB hsh
  have hN : 0 < L.image_pairs_.length := by
    rw [hp]
    split_ifs with hs
    · rw [hsh hs]; exact List.length_pos.mpr hne
    · exact List.length_pos.mpr hne
  refine ⟨L, hset, hc, by rw [hc]; exact hN, ?_⟩
  intro K
  obtain ⟨L', batches, hrun, -, -, hl, -, hcur, hcs, -⟩ := run_cursors env data_param L
    (by rw [hc]; exact hN) hsh (by rw [hm]; exact hmean) K
  rw [hc, Nat.zero_add] at hcur
  refine ⟨L', batches, hrun, hl, by rw [hcur, hl]; exact Nat.mod_lt _ hN, ?_⟩
  intro i it hit
  have hci := hcs i it hit
  rw [hc, Nat.zero_add] at hci
  have hlt : it.cursor < L.image_pairs_.length := by rw [hci]; exact Nat.mod_lt _ hN
  refine ⟨hlt, ?_⟩
  have hnext : ((batches.flatten[i + 1]?).map Item.cursor).getD L'.image_pair_id_ =
      (i + 1) % L.image_pairs_.length := by
    cases hnx : batches.flatten[i + 1]? with
    | some next =>
      have := hcs (i + 1) next hnx
      rw [hc, Nat.zero_add] at this
      simpa using this
    | none =>
      have h1 := lt_length_of_getElem? _ _ _ hit
      have h2 : batches.flatten.length ≤ i + 1 := by
        by_contra hgt
        rw [getElem?_of_lt _ _ (Nat.lt_of_not_le hgt)] at hnx
        exact Option.noConfusion hnx
      have : batches.flatten.length = i + 1 := by omega
      simp [hcur, this]
  rw [hnext, succ_mod_wrap _ _ hN, ← hci]
  by_cases h : it.cursor + 1 = L.image_pairs_.length
  · rw [if_pos h, if_pos (by omega)]
  · rw [if_neg h, if_neg (by omega)]

/-- C6: a production cycle that starts with the cursor at `c` inside an index
of `N` entries, with batch size `B`, has exactly `B` items and leaves the
cursor at `(c + B) mod N`; a cycle of `N` items from cursor 0 leaves it at 0. -/
theorem InternalThreadEntry_cursor {F S T : Type} [Sub F] [Zero F] [One F] [NatCast F]
    (env : Env F S T) (data_param : SegmentationDataParameter F)
    (L : SegmentationDataLayer F S T) (pair0 : ImagePair F) (B : Nat)
    (hpair0 : L.image_pairs_[L.image_pair_id_]? = some pair0)
    (hB : data_param.batch_size = (B : Int))
    (hsh : data_param.shuffle = true → ∀ l s, (env.shuffle l s).1.length = l.length)
    (hmean : (env.imread pair0.image).channels ≤ L.mean_values_.length) :
    ∃ L' items, InternalThreadEntry env data_param L = .ok (L', items) ∧
      items.length = B ∧
      L'.image_pair_id_ = (L.image_pair_id_ + B) % L.image_pairs_.length ∧
      (L.image_pair_id_ = 0 → B = L.image_pairs_.length → L'.image_pair_id_ = 0) := by
  have hBn : data_param.batch_size.toNat = B := by rw [hB]; exact Int.toNat_ofNat B
  have hcur := lt_length_of_getElem? _ _ _ hpair0
  have hN : 0 < L.image_pairs_.length := Nat.lt_of_le_of_lt (Nat.zero_le _) hcur
  obtain ⟨L', items, hrun, ⟨hlen, hc⟩, -⟩ := cycle_invariant env data_param L pair0 hpair0 hsh hmean
    (fun k (L1 : SegmentationDataLayer F S T) (log : List (Item F)) => log.length = k ∧
      L1.image_pair_id_ = (L.image_pair_id_ + k) % L.image_pairs_.length)
    ⟨rfl, by simp [Nat.mod_eq_of_lt hcur]⟩
    (by
      rintro k L1 log pair - ⟨hlen, hc⟩ - - hl
      refine ⟨by simp [hlen], ?_⟩
      rw [item_layer_cursor, hl, hc, ← Nat.add_assoc, succ_mod_wrap _ _ hN])
  rw [hBn] at hlen hc
  refine ⟨L', items, hrun, hlen, hc, ?_⟩
  intro h0 hBN
  rw [hc, h0, Nat.zero_add, hBN, Nat.mod_self]


/-! ## Epochs -/

theorem take_succ_of_getElem? {α : Type} (l : List α) (c : Nat) (a : α) (h : l[c]? = some a) :
    l.take c ++ [a] = l.take (c + 1) := by
  rw [List.take_succ, h]; rfl

/-- C7: under a shuffle that permutes the index, in every run of production
cycles, with shuffle enabled or not, the `N` consecutive items that start at
an item whose cursor is 0 are built from the entries of the index, each entry
exactly as often as it occurs in the index (`N` the length of the index),
wherever the batch boundaries fall. -/
theorem epoch_visits_each_entry_once {F S T : Type} [Sub F] [Zero F] [One F] [NatCast F]
    (env : Env F S T) (data_param : SegmentationDataParameter F)
    (L : SegmentationDataLayer F S T)
    (hcur : L.image_pair_id_ < L.image_pairs_.length)
    (hperm : data_param.shuffle = true → ∀ l s, List.Perm (env.shuffle l s).1 l)
    (hmean : ∀ p, (env.imread p).channels ≤ L.mean_values_.length) (K : Nat) :
    ∃ L' batches, run_cycles env data_param K L = .ok (L', batches) ∧
      ∀ p it, batches.flatten[p]? = some it → it.cursor = 0 →
        p + L.image_pairs_.length ≤ batches.flatten.length →
        List.Perm
          (((batches.flatten.drop p).take L.image_pairs_.length).map Item.entry)
          L.image_pairs_ := by
  have hsh : data_param.shuffle = true → ∀ l s, (env.shuffle l s).1.length = l.length :=
    fun h l s => (hperm h l s).length_eq
  obtain ⟨L', batches, hrun, ⟨-, hJ⟩, -⟩ :=
    run_invariant env data_param L hcur hsh hmean
      (fun (L1 : SegmentationDataLayer F S T) (log : List (Item F)) =>
        List.Perm L1.image_pairs_ L.image_pairs_ ∧
        ∀ p it, log[p]? = some it → it.cursor = 0 →
          (p + L.image_pairs_.length ≤ log.length →
            List.Perm (((log.drop p).take L.image_pairs_.length).map Item.entry)
              L.image_pairs_) ∧
          (log.length < p + L.image_pairs_.length →
            (log.drop p).map Item.entry = L1.image_pairs_.take (log.length - p) ∧
            L1.image_pair_id_ = log.length - p))
      ⟨List.Perm.refl _, by simp⟩
      (by intro L1 log shape h; exact h)
      (by
        rintro I height width k L1 log pair ⟨hA, hC⟩ hpair - hl
        have hc := lt_length_of_getElem? _ _ _ hpair
        refine ⟨?_, ?_⟩
        · rw [item_layer_pairs]
          split_ifs with h
          · exact (hperm h.2 _ _).trans hA
          · exact hA
        · intro p it hit hz
          -- the epoch that starts at `p` is either complete or still open
          have hp : p ≤ log.length := by
            have := lt_length_of_getElem? _ _ _ hit
            rw [List.length_append, List.length_singleton] at this
            omega
          have hdrop : (log ++ [item_record env data_param I L1 pair
              (channel_mean L.mean_values_)]).drop p =
              log.drop p ++ [item_record env data_param I L1 pair
                (channel_mean L.mean_values_)] :=
            List.drop_append_of_le_length hp
          have hopen : p + L.image_pairs_.length ≤ log.length ∨
              (log.length < p + L.image_pairs_.length ∧
                (log.drop p).map Item.entry = L1.image_pairs_.take (log.length - p) ∧
                L1.image_pair_id_ = log.length - p) := by
            rcases getElem?_concat_cases _ _ _ _ hit with ⟨-, h⟩ | ⟨hi, h⟩
            · by_cases hfull : p + L.image_pairs_.length ≤ log.length
              · exact Or.inl hfull
              · exact Or.inr ⟨Nat.lt_of_not_le hfull, (hC p it h hz).2 (Nat.lt_of_not_le hfull)⟩
            · subst hi
              subst h
              have h0 : L1.image_pair_id_ = 0 := by simpa [item_record] using hz
              refine Or.inr ⟨by omega, ?_, ?_⟩
              · simp
              · rw [h0, Nat.sub_self]
          rcases hopen with hfull | ⟨hlt, hent, hcp⟩
          · -- complete before this pass
            have hit0 : log[p]? = some it := by
              rw [List.getElem?_append_left (by omega)] at hit
              exact hit
            refine ⟨fun _ => ?_, fun h => ?_⟩
            · rw [hdrop, List.take_append_of_le_length (by rw [List.length_drop]; omega)]
              exact (hC p it hit0 hz).1 hfull
            · rw [List.length_append, List.length_singleton] at h
              omega
          · -- open: this pass adds the entry under the cursor
            have hent2 : ((log ++ [item_record env data_param I L1 pair
                (channel_mean L.mean_values_)]).drop p).map Item.entry =
                L1.image_pairs_.take (L1.image_pair_id_ + 1) := by
              rw [hdrop, List.map_append, hent, ← hcp]
              exact take_succ_of_getElem? _ _ _ hpair
            have hlen2 : (log ++ [item_record env data_param I L1 pair
                (channel_mean L.mean_values_)]).length = p + (L1.image_pair_id_ + 1) := by
              rw [List.length_append, List.length_singleton]
              omega
            refine ⟨fun h => ?_, fun h => ?_⟩
            · rw [hlen2] at h
              have hN : L1.image_pair_id_ + 1 = L1.image_pairs_.length := by omega
              rw [List.take_of_length_le (by
                rw [List.length_drop, hlen2]; omega), hent2, hN, List.take_length]
              exact hA
            · rw [hlen2] at h
              have hN : ¬ L1.image_pairs_.length ≤ L1.image_pair_id_ + 1 := by omega
              rw [item_layer_pairs, item_layer_cursor, if_neg (fun hh => hN hh.1), if_neg hN,
                hent2, hlen2]
              constructor
              · congr 1; omega
              · omega)
      K
  refine ⟨L', batches, hrun, ?_⟩
  intro p it hit hz hfull
  exact (hJ p it hit hz).1 hfull


/-! ## The two random streams -/

/-- C8: with `mirror = false` a production cycle leaves the mirror stream
untouched, and it writes the same pixel data and labels, from the same items,
as the cycle with `mirror = true` run from the same layer when each of its
draws decides not to mirror; the two resulting layers differ in the state of
the mirror stream only. -/
theorem mirror_disabled_equals_never_mirroring {F S T : Type} [Sub F] [Zero F] [One F]
    [NatCast F] (env : Env F S T) (data_param : SegmentationDataParameter F)
    (L : SegmentationDataLayer F S T) (pair0 : ImagePair F)
    (hpair0 : L.image_pairs_[L.image_pair_id_]? = some pair0)
    (hsh : data_param.shuffle = true → ∀ l s, (env.shuffle l s).1.length = l.length)
    (hmean : (env.imread pair0.image).channels ≤ L.mean_values_.length)
    (hdraws : ∀ i, i < data_param.batch_size.toNat →
      (env.rng (stream_after env L.bool_rng_ i)).1 % 2 = 0) :
    ∃ LA LB items,
      InternalThreadEntry env { data_param with mirror := false } L = .ok (LA, items) ∧
      InternalThreadEntry env { data_param with mirror := true } L = .ok (LB, items) ∧
      LA.bool_rng_ = L.bool_rng_ ∧
      LB.prefetch_data_.data = LA.prefetch_data_.data ∧
      LB.prefetch_label_.data = LA.prefetch_label_.data ∧
      (∀ it ∈ items, it.mirror_image = false) ∧
      LB = { LA with
              bool_rng_ := stream_after env L.bool_rng_ data_param.batch_size.toNat } := by
  obtain ⟨LA, items, hrun, ⟨hB, hrng, hno⟩, -⟩ :=
    cycle_invariant env { data_param with mirror := false } L pair0 hpair0 hsh hmean
      (fun k (LA : SegmentationDataLayer F S T) (log : List (Item F)) =>
        forLoop
          (item_body env { data_param with mirror := true } (env.imread pair0.image)
            (cycle_height data_param (env.imread pair0.image))
            (cycle_width data_param (env.imread pair0.image))) k
          ({ L with
              transformed_data_ :=
                (1, 4, cycle_height data_param (env.imread pair0.image),
                  cycle_width data_param (env.imread pair0.image)) }, []) =
          .ok ({ LA with bool_rng_ := stream_after env L.bool_rng_ k }, log) ∧
        LA.bool_rng_ = L.bool_rng_ ∧ ∀ it ∈ log, it.mirror_image = false)
      ⟨rfl, rfl, by simp⟩
      (by
        rintro k LA log pair hk ⟨hB, hrng, hno⟩ hpair hm -
        have hd : (env.rng (stream_after env L.bool_rng_ k)).1 % 2 = 0 := hdraws k hk
        refine ⟨?_, ?_, ?_⟩
        · rw [forLoop_succ _ _ _ _ hB,
            item_body_ok env { data_param with mirror := true } _ _ _ k
              { LA with bool_rng_ := stream_after env L.bool_rng_ k } log pair hpair
              (channel_mean L.mean_values_)
              (by
                show ∀ c, c < _ → LA.mean_values_[c]? = _
                rw [hm]; exact channel_mean_spec _ _ hmean)]
          have hrec : item_record env { data_param with mirror := true } (env.imread pair0.image)
              { LA with bool_rng_ := stream_after env L.bool_rng_ k } pair
              (channel_mean L.mean_values_) =
              item_record env { data_param with mirror := false } (env.imread pair0.image)
                LA pair (channel_mean L.mean_values_) := by
            simp [item_record, mirror_decision, hd]
          rw [hrec]
          congr 2
          unfold item_layer
          rw [hrec]
          unfold advance ShuffleImages
          simp only [stream_after]
          by_cases hw : LA.image_pairs_.length ≤ LA.image_pair_id_ + 1 <;>
            cases data_param.shuffle <;>
              simp [hw, item_record, mirror_decision, cycle_height, cycle_width]
        · rw [item_layer_bool_rng]; exact hrng
        · intro it hit
          rcases List.mem_append.mp hit with h | h
          · exact hno it h
          · rw [List.mem_singleton] at h
            subst h
            simp [item_record, mirror_decision])
  have hrunB := InternalThreadEntry_eq env { data_param with mirror := true } L pair0 hpair0
  refine ⟨LA, { LA with bool_rng_ := stream_after env L.bool_rng_ data_param.batch_size.toNat },
    items, hrun, hrunB.trans hB, hrng, rfl, rfl, hno, rfl⟩


/-- The index, the cursor and the shuffle stream along a cycle are those of
`schedule_after`, which looks at the index, the cursor, the shuffle stream and
the shuffle flag only; item `i` reads the cursor and the entry under it after
`i` passes. -/
theorem cycle_schedule {F S T : Type} [Sub F] [Zero F] [One F] [NatCast F]
    (env : Env F S T) (data_param : SegmentationDataParameter F)
    (L : SegmentationDataLayer F S T) (pair0 : ImagePair F)
    (hpair0 : L.image_pairs_[L.image_pair_id_]? = some pair0)
    (hsh : data_param.shuffle = true → ∀ l s, (env.shuffle l s).1.length = l.length)
    (hmean : (env.imread pair0.image).channels ≤ L.mean_values_.length) :
    ∃ L' items, InternalThreadEntry env data_param L = .ok (L', items) ∧
      items.length = data_param.batch_size.toNat ∧
      (L'.image_pairs_, L'.image_pair_id_, L'.prefetch_rng_) =
        schedule_after env data_param.shuffle
          (L.image_pairs_, L.image_pair_id_, L.prefetch_rng_) data_param.batch_size.toNat ∧
      ∀ i it, items[i]? = some it →
        it.cursor = (schedule_after env data_param.shuffle
          (L.image_pairs_, L.image_pair_id_, L.prefetch_rng_) i).2.1 ∧
        (schedule_after env data_param.shuffle
          (L.image_pairs_, L.image_pair_id_, L.prefetch_rng_) i).1[it.cursor]? = some it.entry := by
  obtain ⟨L', items, hrun, ⟨hlen, hst, hall⟩, -⟩ :=
    cycle_invariant env data_param L pair0 hpair0 hsh hmean
      (fun k (L1 : SegmentationDataLayer F S T) (log : List (Item F)) =>
        log.length = k ∧
        (L1.image_pairs_, L1.image_pair_id_, L1.prefetch_rng_) =
          schedule_after env data_param.shuffle
            (L.image_pairs_, L.image_pair_id_, L.prefetch_rng_) k ∧
        ∀ i it, log[i]? = some it →
          it.cursor = (schedule_after env data_param.shuffle
            (L.image_pairs_, L.image_pair_id_, L.prefetch_rng_) i).2.1 ∧
          (schedule_after env data_param.shuffle
            (L.image_pairs_, L.image_pair_id_, L.prefetch_rng_) i).1[it.cursor]? =
              some it.entry)
      ⟨rfl, rfl, by simp⟩
      (by
        rintro k L1 log pair - ⟨hlen, hst, hall⟩ hpair - -
        refine ⟨by simp [hlen], ?_, ?_⟩
        · rw [item_layer_pairs, item_layer_cursor, item_layer_prefetch_rng]
          show _ = schedule_step env data_param.shuffle _
          rw [← hst]
          rfl
        · intro i it hit
          rcases getElem?_concat_cases _ _ _ _ hit with ⟨-, h⟩ | ⟨hi, h⟩
          · exact hall i it h
          · subst h
            rw [hi, hlen, ← hst]
            exact ⟨rfl, hpair⟩)
  exact ⟨L', items, hrun, hlen, hst, hall⟩

/-- The mirror stream along a cycle: with mirroring enabled item `i` is
mirrored exactly when draw `i` of the stream is odd and the stream ends after
as many draws as items; with mirroring disabled no item is mirrored and the
stream is untouched. -/
theorem cycle_mirror_decisions {F S T : Type} [Sub F] [Zero F] [One F] [NatCast F]
    (env : Env F S T) (data_param : SegmentationDataParameter F)
    (L : SegmentationDataLayer F S T) (pair0 : ImagePair F)
    (hpair0 : L.image_pairs_[L.image_pair_id_]? = some pair0)
    (hsh : data_param.shuffle = true → ∀ l s, (env.shuffle l s).1.length = l.length)
    (hmean : (env.imread pair0.image).channels ≤ L.mean_values_.length) :
    ∃ L' items, InternalThreadEntry env data_param L = .ok (L', items) ∧
      items.length = data_param.batch_size.toNat ∧
      L'.bool_rng_ =
        (if data_param.mirror then stream_after env L.bool_rng_ data_param.batch_size.toNat
          else L.bool_rng_) ∧
      ∀ i it, items[i]? = some it →
        it.mirror_image =
          (if data_param.mirror then (env.rng (stream_after env L.bool_rng_ i)).1 % 2 != 0
            else false) := by
  obtain ⟨L', items, hrun, ⟨hlen, hst, hall⟩, -⟩ :=
    cycle_invariant env data_param L pair0 hpair0 hsh hmean
      (fun k (L1 : SegmentationDataLayer F S T) (log : List (Item F)) =>
        log.length = k ∧
        L1.bool_rng_ =
          (if data_param.mirror then stream_after env L.bool_rng_ k else L.bool_rng_) ∧
        ∀ i it, log[i]? = some it →
          it.mirror_image =
            (if data_param.mirror then (env.rng (stream_after env L.bool_rng_ i)).1 % 2 != 0
              else false))
      ⟨rfl, by simp [stream_after], by simp⟩
      (by
        rintro k L1 log pair - ⟨hlen, hst, hall⟩ - - -
        refine ⟨by simp [hlen], ?_, ?_⟩
        · rw [item_layer_bool_rng, hst]
          cases data_param.mirror <;> simp [stream_after]
        · intro i it hit
          rcases getElem?_concat_cases _ _ _ _ hit with ⟨-, h⟩ | ⟨hi, h⟩
          · exact hall i it h
          · subst h
            rw [hi, hlen]
            simp only [item_record, mirror_decision, hst]
            cases data_param.mirror <;> simp)
  exact ⟨L', items, hrun, hlen, hst, hall⟩

/-- C9: of two production cycles with the same batch size, (1) when they start
from the same index, cursor and shuffle stream with the same shuffle flag,
whatever their mirror flags and mirror streams, they end with the same index,
cursor and shuffle stream and visit the same cursors and entries in the same
order; (2) when they start with the same mirror flag and mirror stream,
whatever their indexes, cursors, shuffle flags and shuffle streams, they take
the same mirror decisions and end with the same mirror stream. -/
theorem streams_do_not_interfere {F S T : Type} [Sub F] [Zero F] [One F] [NatCast F]
    (env : Env F S T) (pa pb : SegmentationDataParameter F)
    (La Lb : SegmentationDataLayer F S T) (pair_a pair_b : ImagePair F)
    (hpair_a : La.image_pairs_[La.image_pair_id_]? = some pair_a)
    (hpair_b : Lb.image_pairs_[Lb.image_pair_id_]? = some pair_b)
    (hsh_a : pa.shuffle = true → ∀ l s, (env.shuffle l s).1.length = l.length)
    (hsh_b : pb.shuffle = true → ∀ l s, (env.shuffle l s).1.length = l.length)
    (hmean_a : (env.imread pair_a.image).channels ≤ La.mean_values_.length)
    (hmean_b : (env.imread pair_b.image).channels ≤ Lb.mean_values_.length)
    (hB : pa.batch_size = pb.batch_size) :
    ∃ La' Lb' items_a items_b,
      InternalThreadEntry env pa La = .ok (La', items_a) ∧
      InternalThreadEntry env pb Lb = .ok (Lb', items_b) ∧
      (La.image_pairs_ = Lb.image_pairs_ → La.image_pair_id_ = Lb.image_pair_id_ →
        La.prefetch_rng_ = Lb.prefetch_rng_ → pa.shuffle = pb.shuffle →
        La'.image_pairs_ = Lb'.image_pairs_ ∧ La'.image_pair_id_ = Lb'.image_pair_id_ ∧
        La'.prefetch_rng_ = Lb'.prefetch_rng_ ∧
        items_a.map (fun it => (it.cursor, it.entry)) =
          items_b.map (fun it => (it.cursor, it.entry))) ∧
      (pa.mirror = pb.mirror → La.bool_rng_ = Lb.bool_rng_ →
        La'.bool_rng_ = Lb'.bool_rng_ ∧
        items_a.map Item.mirror_image = items_b.map Item.mirror_image) := by
  obtain ⟨La', ia, hra, hla, hsa, haa⟩ := cycle_schedule env pa La pair_a hpair_a hsh_a hmean_a
  obtain ⟨Lb', ib, hrb, hlb, hsb, hab⟩ := cycle_schedule env pb Lb pair_b hpair_b hsh_b hmean_b
  obtain ⟨La2, ia2, hra2, -, hma, hda⟩ :=
    cycle_mirror_decisions env pa La pair_a hpair_a hsh_a hmean_a
  obtain ⟨Lb2, ib2, hrb2, -, hmb, hdb⟩ :=
    cycle_mirror_decisions env pb Lb pair_b hpair_b hsh_b hmean_b
  rw [hra] at hra2
  rw [hrb] at hrb2
  simp only [Except.ok.injEq, Prod.mk.injEq] at hra2 hrb2
  obtain ⟨rfl, rfl⟩ := hra2
  obtain ⟨rfl, rfl⟩ := hrb2
  have hlen : ia.length = ib.length := by rw [hla, hlb, hB]
  refine ⟨La', Lb', ia, ib, hra, hrb, ?_, ?_⟩
  · intro h1 h2 h3 h4
    rw [h1, h2, h3, h4, hB] at hsa
    rw [h1, h2, h3, h4] at haa
    have hfin := hsa.trans hsb.symm
    simp only [Prod.mk.injEq] at hfin
    refine ⟨hfin.1, hfin.2.1, hfin.2.2, ?_⟩
    apply List.ext_getElem?
    intro i
    rw [List.getElem?_map, List.getElem?_map]
    by_cases hi : i < ia.length
    · have ha := haa i _ (getElem?_of_lt ia i hi)
      have hb := hab i _ (getElem?_of_lt ib i (hlen ▸ hi))
      rw [getElem?_of_lt ia i hi, getElem?_of_lt ib i (hlen ▸ hi)]
      simp only [Option.map_some', Option.some.injEq, Prod.mk.injEq]
      refine ⟨ha.1.trans hb.1.symm, ?_⟩
      have h5 := ha.2
      rw [ha.1, ← hb.1, hb.2] at h5
      exact (Option.some.inj h5).symm
    · rw [List.getElem?_eq_none (Nat.le_of_not_lt hi),
        List.getElem?_eq_none (hlen ▸ Nat.le_of_not_lt hi)]
  · intro h1 h2
    rw [h1, h2, hB] at hma
    rw [h1, h2] at hda
    refine ⟨hma.trans hmb.symm, ?_⟩
    apply List.ext_getElem?
    intro i
    rw [List.getElem?_map, List.getElem?_map]
    by_cases hi : i < ia.length
    · have ha := hda i _ (getElem?_of_lt ia i hi)
      have hb := hdb i _ (getElem?_of_lt ib i (hlen ▸ hi))
      rw [getElem?_of_lt ia i hi, getElem?_of_lt ib i (hlen ▸ hi)]
      simp only [Option.map_some', Option.some.injEq]
      exact ha.trans hb.symm
    · rw [List.getElem?_eq_none (Nat.le_of_not_lt hi),
        List.getElem?_eq_none (hlen ▸ Nat.le_of_not_lt hi)]


/-! ## The basic manifest form -/

theorem to_int_of_lt (n : Nat) (h : n < 2 ^ 31) : to_int n = (n : Int) := by
  have h1 : n % 2 ^ 32 = n := Nat.mod_eq_of_lt (by omega)
  unfold to_int
  rw [h1, if_pos h]

theorem to_int_npos : to_int npos = -1 := by decide

theorem to_size_t_of_nat (n : Nat) (h : n < 2 ^ 64) : to_size_t (n : Int) = n := by
  unfold to_size_t
  omega

theorem to_size_t_of_neg (x : Int) (h0 : x < 0) (h1 : -(2 ^ 64) ≤ x) :
    to_size_t x = (2 ^ 64 + x).toNat := by
  unfold to_size_t
  omega

/-- A result in the range of `int` is the value the `int` holds. -/
theorem wrap_int_of_range (x : Int) (h0 : -(2 ^ 31) ≤ x) (h1 : x < 2 ^ 31) : wrap_int x = x := by
  unfold wrap_int
  omega

/-- The `int` expression `x - 1` for a difference `x` of `int`s, when neither
subtraction leaves the range of `int`. -/
theorem wrap_int_sub_one (x : Int) (h0 : -(2 ^ 31) < x) (h1 : x < 2 ^ 31) :
    wrap_int (wrap_int x - 1) = x - 1 := by
  unfold wrap_int
  omega

theorem find_from_append (a rest : List Char) (ch : Char) (i : Nat) (ha : ch ∉ a) :
    find_from ch (a ++ ch :: rest) i = i + a.length := by
  induction a generalizing i with
  | nil => simp [find_from]
  | cons c cs ih =>
    have hc : c ≠ ch := fun h => ha (h ▸ List.mem_cons_self _ _)
    have hcs : ch ∉ cs := fun h => ha (List.mem_cons_of_mem _ h)
    show find_from ch (c :: (cs ++ ch :: rest)) i = _
    rw [find_from, if_neg hc, ih (i + 1) hcs, List.length_cons]
    omega

theorem find_from_absent (a : List Char) (ch : Char) (i : Nat) (ha : ch ∉ a) :
    find_from ch a i = npos := by
  induction a generalizing i with
  | nil => rfl
  | cons c cs ih =>
    have hc : c ≠ ch := fun h => ha (h ▸ List.mem_cons_self _ _)
    have hcs : ch ∉ cs := fun h => ha (List.mem_cons_of_mem _ h)
    rw [find_from, if_neg hc, ih (i + 1) hcs]

theorem drop_past_first (a rest : List Char) (ch : Char) :
    (a ++ ch :: rest).drop (a.length + 1) = rest := by
  rw [List.drop_append]
  rfl

/-- A line `a b` or `a b rest` whose first two tokens and the space between
them take fewer than `2^31` characters parses to the entry with image path `a`
and mask path `b`, whatever follows. -/
theorem parse_line_tokens {F : Type} (pair : ImagePair F) (a b : List Char)
    (ha : ' ' ∉ a) (hb : ' ' ∉ b) (hlen : a.length + b.length + 1 < 2 ^ 31) :
    parse_line pair (a ++ ' ' :: b) = .ok { pair with image := a, gt_image := b } ∧
    ∀ rest, parse_line pair (a ++ ' ' :: (b ++ ' ' :: rest)) =
      .ok { pair with image := a, gt_image := b } := by
  have hpos1 : ∀ t, to_int (find (a ++ ' ' :: t) ' ' 0) = (a.length : Int) := by
    intro t
    rw [find, List.drop_zero, find_from_append _ _ _ _ ha, Nat.zero_add,
      to_int_of_lt _ (by omega)]
  have himg : ∀ t, substr (a ++ ' ' :: t) 0 (to_size_t (a.length : Int)) = .ok a := by
    intro t
    rw [to_size_t_of_nat _ (by omega)]
    simp [substr]
  have hnext : to_size_t (wrap_int ((a.length : Int) + 1)) = a.length + 1 := by
    have := to_size_t_of_nat (a.length + 1) (by omega)
    rw [wrap_int_of_range _ (by omega) (by omega), ← this]; congr 1
  constructor
  · unfold parse_line
    simp only [hpos1, himg, hnext]
    rw [find, drop_past_first, find_from_absent _ _ _ hb, to_int_npos,
      wrap_int_sub_one _ (by omega) (by omega), to_size_t_of_neg _ (by omega) (by omega)]
    have hsub : substr (a ++ ' ' :: b) (a.length + 1)
        ((2 : Int) ^ 64 + (-1 - (a.length : Int) - 1)).toNat = .ok b := by
      unfold substr
      rw [if_neg (by simp), drop_past_first, List.take_of_length_le (by omega)]
    rw [hsub]
  · intro rest
    unfold parse_line
    simp only [hpos1, himg, hnext]
    rw [find, drop_past_first, find_from_append _ _ _ _ hb, to_int_of_lt _ (by omega)]
    have hlenb : to_size_t
        (wrap_int (wrap_int (((a.length + 1 + b.length : Nat) : Int) - (a.length : Int)) - 1))
        = b.length := by
      have h : ((a.length + 1 + b.length : Nat) : Int) - (a.length : Int) - 1 =
          (b.length : Int) := by omega
      rw [wrap_int_sub_one _ (by omega) (by omega), h]
      exact to_size_t_of_nat _ (by omega)
    rw [hlenb]
    have hsub : substr (a ++ ' ' :: (b ++ ' ' :: rest)) (a.length + 1) b.length = .ok b := by
      unfold substr
      rw [if_neg (by simp), drop_past_first]
      simp
    rw [hsub]


/-- A line whose first token has `2^31` characters: the position of the first
space does not fit an `int`, the first `substr` returns the whole line and the
second one is asked for a start past the end of the line. -/
theorem parse_line_at_int_limit {F : Type} (pair : ImagePair F) (a b : List Char)
    (ha : ' ' ∉ a) (hla : a.length = 2 ^ 31) (hlb : b.length < 2 ^ 31) :
    parse_line pair (a ++ ' ' :: b) = .error .out_of_range := by
  have hfind : find (a ++ ' ' :: b) ' ' 0 = 2 ^ 31 := by
    rw [find, List.drop_zero, find_from_append _ _ _ _ ha, Nat.zero_add, hla]
  have hpos1 : to_int (2 ^ 31) = -(2 ^ 31 : Int) := by decide
  have hstart : to_size_t (wrap_int (-(2 ^ 31 : Int) + 1)) = 2 ^ 64 - 2 ^ 31 + 1 := by decide
  have h1 : ∀ n, substr (a ++ ' ' :: b) 0 n = .ok ((a ++ ' ' :: b).take n) := by
    intro n
    unfold substr
    rw [if_neg (Nat.not_lt_zero _), List.drop_zero]
  have h2 : ∀ n, substr (a ++ ' ' :: b) (2 ^ 64 - 2 ^ 31 + 1) n = .error .out_of_range := by
    intro n
    unfold substr
    rw [if_pos (by rw [List.length_append, List.length_cons, hla]; omega)]
  unfold parse_line
  simp only [hfind, hpos1, hstart, h1, h2]

/-- C10, at a line the parser does not split: for the line made of `2^31`
characters `a`, a space and `b`, the first two space-delimited tokens are the
run of `a` and `b`, and the parser stops with `std::out_of_range` without
producing an entry. -/
theorem parse_line_long_first_token :
    parse_line ({ image := [], gt_image := [], mp_x := 0, mp_y := 0 } : ImagePair Int)
      (List.replicate (2 ^ 31) 'a' ++ ' ' :: ['b']) = .error .out_of_range :=
  parse_line_at_int_limit _ (List.replicate (2 ^ 31) 'a') ['b']
    (fun h => absurd (List.eq_of_mem_replicate h) (by decide))
    (List.length_replicate _ _) (by decide)


/-! ## The statements above on the worked example -/

/-- C2 on the worked example. -/
theorem InternalThreadEntry_mask_values_witness :
    (ex_layer 1).image_pairs_[(ex_layer 1).image_pair_id_]? = some ex_pair ∧
    ((ex_param true).shuffle = true → ∀ l s, (ex_env.shuffle l s).1.length = l.length) ∧
    (ex_env.imread ex_pair.image).channels ≤ (ex_layer 1).mean_values_.length ∧
    ∃ L' items, InternalThreadEntry ex_env (ex_param true) (ex_layer 1) = .ok (L', items) ∧
      items.length = (ex_param true).batch_size.toNat ∧
      ∀ it ∈ items, ∀ h w : Nat,
        h < (ex_env.imread_grayscale it.entry.gt_image).rows →
        w < (ex_env.imread_grayscale it.entry.gt_image).cols →
        it.datum.float_data[(ex_env.imread ex_pair.image).channels *
            ((ex_env.imread it.entry.image).rows * (ex_env.imread it.entry.image).cols) +
            (h * (ex_env.imread_grayscale it.entry.gt_image).cols + w)]? =
          some (if (ex_env.imread_grayscale it.entry.gt_image).at_ h
              (if it.mirror_image then (ex_env.imread_grayscale it.entry.gt_image).cols - 1 - w
                else w) 0 > 0
            then (1 : ℚ) else 0) :=
  ⟨rfl, fun _ l _ => List.length_reverse l, by decide,
    InternalThreadEntry_mask_values ex_env (ex_param true) (ex_layer 1) ex_pair rfl
      (fun _ l _ => List.length_reverse l) (by decide)⟩

/-- C3 on the worked example, whose first entry has the manipulation point (0.3, 1). -/
theorem InternalThreadEntry_label_witness :
    (ex_layer 1).image_pairs_[(ex_layer 1).image_pair_id_]? = some ex_pair ∧
    (({ ex_param true with has_manipulation_data := true } :
        SegmentationDataParameter ℚ).shuffle = true →
      ∀ l s, (ex_env.shuffle l s).1.length = l.length) ∧
    (ex_env.imread ex_pair.image).channels ≤ (ex_layer 1).mean_values_.length ∧
    ({ ex_param true with has_manipulation_data := true } :
        SegmentationDataParameter ℚ).has_manipulation_data = true ∧
    ∃ L' items,
      InternalThreadEntry ex_env { ex_param true with has_manipulation_data := true }
        (ex_layer 1) = .ok (L', items) ∧
      items.length = 2 ∧
      ∀ i, i < 2 → ∃ it, items[i]? = some it ∧
        L'.prefetch_label_.data (2 * i) =
          (if it.mirror_image then 1 - it.entry.mp_x else it.entry.mp_x) ∧
        L'.prefetch_label_.data (2 * i + 1) = it.entry.mp_y :=
  ⟨rfl, fun _ l _ => List.length_reverse l, by decide, rfl,
    InternalThreadEntry_label ex_env { ex_param true with has_manipulation_data := true }
      (ex_layer 1) ex_pair rfl (fun _ l _ => List.length_reverse l) (by decide) rfl⟩

/-- C4 on the worked example: a manifest of 3 entries read in batches of 2. -/
theorem cycles_follow_manifest_order_witness :
    load_manifest ex_env (ex_param false).source (ex_param false).has_manipulation_data [] =
      .ok ex_manifest ∧
    ex_manifest ≠ [] ∧ 0 ≤ (ex_param false).batch_size ∧ (ex_param false).shuffle = false ∧
    (∀ p, (ex_env.imread p).channels ≤ (ex_param false).mean_value.length) ∧
    ∃ L, DataLayerSetUp ex_env (ex_param false) () 7 8 = .ok L ∧
      L.image_pair_id_ = 0 ∧
      ∀ K, ∃ L' batches, run_cycles ex_env (ex_param false) K L = .ok (L', batches) ∧
        batches.length = K ∧
        ∀ k j, k < K → j < 2 → ∃ b it,
          batches[k]? = some b ∧ b[j]? = some it ∧
          it.cursor = (k * 2 + j) % 3 ∧
          ex_manifest[(k * 2 + j) % 3]? = some it.entry :=
  ⟨rfl, by decide, by decide, rfl, fun _ => Nat.le_refl 3,
    cycles_follow_manifest_order ex_env (ex_param false) () 7 8 ex_manifest rfl (by decide)
      (by decide) rfl (fun _ => Nat.le_refl 3)⟩

/-- C5 on the worked example, with shuffling enabled. -/
theorem cursor_stays_in_index_witness :
    load_manifest ex_env (ex_param true).source (ex_param true).has_manipulation_data [] =
      .ok ex_manifest ∧
    ex_manifest ≠ [] ∧ 0 ≤ (ex_param true).batch_size ∧
    ((ex_param true).shuffle = true → ∀ l s, (ex_env.shuffle l s).1.length = l.length) ∧
    (∀ p, (ex_env.imread p).channels ≤ (ex_param true).mean_value.length) ∧
    ∃ L, DataLayerSetUp ex_env (ex_param true) () 7 8 = .ok L ∧
      L.image_pair_id_ = 0 ∧ L.image_pair_id_ < L.image_pairs_.length ∧
      ∀ K, ∃ L' batches, run_cycles ex_env (ex_param true) K L = .ok (L', batches) ∧
        L'.image_pairs_.length = L.image_pairs_.length ∧
        L'.image_pair_id_ < L'.image_pairs_.length ∧
        ∀ i it, batches.flatten[i]? = some it →
          it.cursor < L.image_pairs_.length ∧
          ((batches.flatten[i + 1]?).map Item.cursor).getD L'.image_pair_id_ =
            if it.cursor + 1 = L.image_pairs_.length then 0 else it.cursor + 1 :=
  ⟨rfl, by decide, by decide, fun _ l _ => List.length_reverse l, fun _ => Nat.le_refl 3,
    cursor_stays_in_index ex_env (ex_param true) () 7 8 ex_manifest rfl (by decide)
      (by decide) (fun _ l _ => List.length_reverse l) (fun _ => Nat.le_refl 3)⟩

/-- C6 on the worked example: a batch of 2 from cursor 2 in an index of 3 entries. -/
theorem InternalThreadEntry_cursor_witness :
    ({ ex_layer 1 with image_pair_id_ := 2 } : SegmentationDataLayer ℚ Nat Unit).image_pairs_[2]?
      = some { image := ['e'], gt_image := ['f'], mp_x := 1, mp_y := 0 } ∧
    (ex_param true).batch_size = ((2 : Nat) : Int) ∧
    ((ex_param true).shuffle = true → ∀ l s, (ex_env.shuffle l s).1.length = l.length) ∧
    (ex_env.imread ['e']).channels ≤ (ex_layer 1).mean_values_.length ∧
    ∃ L' items,
      InternalThreadEntry ex_env (ex_param true) { ex_layer 1 with image_pair_id_ := 2 } =
        .ok (L', items) ∧
      items.length = 2 ∧
      L'.image_pair_id_ = (2 + 2) % 3 ∧
      ((2 : Nat) = 0 → 2 = 3 → L'.image_pair_id_ = 0) :=
  ⟨rfl, rfl, fun _ l _ => List.length_reverse l, by decide,
    InternalThreadEntry_cursor ex_env (ex_param true) { ex_layer 1 with image_pair_id_ := 2 }
      { image := ['e'], gt_image := ['f'], mp_x := 1, mp_y := 0 } 2 rfl rfl
      (fun _ l _ => List.length_reverse l) (by decide)⟩

/-- C7 on the worked example: five cycles of 2 items over an index of 3 entries that is reversed at every wrap. -/
theorem epoch_visits_each_entry_once_witness :
    (ex_layer 1).image_pair_id_ < (ex_layer 1).image_pairs_.length ∧
    ((ex_param true).shuffle = true → ∀ l s, List.Perm (ex_env.shuffle l s).1 l) ∧
    (∀ p, (ex_env.imread p).channels ≤ (ex_layer 1).mean_values_.length) ∧
    ∃ L' batches, run_cycles ex_env (ex_param true) 5 (ex_layer 1) = .ok (L', batches) ∧
      ∀ p it, batches.flatten[p]? = some it → it.cursor = 0 →
        p + (ex_layer 1).image_pairs_.length ≤ batches.flatten.length →
        List.Perm
          (((batches.flatten.drop p).take (ex_layer 1).image_pairs_.length).map Item.entry)
          (ex_layer 1).image_pairs_ :=
  ⟨by decide, fun _ l _ => List.reverse_perm l, fun _ => Nat.le_refl 3,
    epoch_visits_each_entry_once ex_env (ex_param true) (ex_layer 1) (by decide)
      (fun _ l _ => List.reverse_perm l) (fun _ => Nat.le_refl 3) 5⟩

/-- C8 on the worked example, for a layer whose mirror stream draws even values. -/
theorem mirror_disabled_equals_never_mirroring_witness :
    (ex_layer 0).image_pairs_[(ex_layer 0).image_pair_id_]? = some ex_pair ∧
    ((ex_param true).shuffle = true → ∀ l s, (ex_env.shuffle l s).1.length = l.length) ∧
    (ex_env.imread ex_pair.image).channels ≤ (ex_layer 0).mean_values_.length ∧
    (∀ i, i < (ex_param true).batch_size.toNat →
      (ex_env.rng (stream_after ex_env (ex_layer 0).bool_rng_ i)).1 % 2 = 0) ∧
    ∃ LA LB items,
      InternalThreadEntry ex_env { ex_param true with mirror := false } (ex_layer 0) =
        .ok (LA, items) ∧
      InternalThreadEntry ex_env { ex_param true with mirror := true } (ex_layer 0) =
        .ok (LB, items) ∧
      LA.bool_rng_ = (ex_layer 0).bool_rng_ ∧
      LB.prefetch_data_.data = LA.prefetch_data_.data ∧
      LB.prefetch_label_.data = LA.prefetch_label_.data ∧
      (∀ it ∈ items, it.mirror_image = false) ∧
      LB = { LA with
              bool_rng_ := stream_after ex_env (ex_layer 0).bool_rng_
                (ex_param true).batch_size.toNat } :=
  have hdraws : ∀ i, i < (ex_param true).batch_size.toNat →
      (ex_env.rng (stream_after ex_env (ex_layer 0).bool_rng_ i)).1 % 2 = 0 := by
    intro i hi
    have hi2 : i < 2 := hi
    interval_cases i <;> rfl
  ⟨rfl, fun _ l _ => List.length_reverse l, by decide, hdraws,
    mirror_disabled_equals_never_mirroring ex_env (ex_param true) (ex_layer 0) ex_pair rfl
      (fun _ l _ => List.length_reverse l) (by decide) hdraws⟩

/-- C9 on the worked example: a cycle with mirroring from an even mirror stream and a cycle without mirroring from an odd one. -/
theorem streams_do_not_interfere_witness :
    (ex_layer 0).image_pairs_[(ex_layer 0).image_pair_id_]? = some ex_pair ∧
    (ex_layer 1).image_pairs_[(ex_layer 1).image_pair_id_]? = some ex_pair ∧
    ((ex_param true).shuffle = true → ∀ l s, (ex_env.shuffle l s).1.length = l.length) ∧
    (({ ex_param true with mirror := false } : SegmentationDataParameter ℚ).shuffle = true →
      ∀ l s, (ex_env.shuffle l s).1.length = l.length) ∧
    (ex_env.imread ex_pair.image).channels ≤ (ex_layer 0).mean_values_.length ∧
    (ex_env.imread ex_pair.image).channels ≤ (ex_layer 1).mean_values_.length ∧
    (ex_param true).batch_size =
      ({ ex_param true with mirror := false } : SegmentationDataParameter ℚ).batch_size ∧
    ∃ La' Lb' items_a items_b,
      InternalThreadEntry ex_env (ex_param true) (ex_layer 0) = .ok (La', items_a) ∧
      InternalThreadEntry ex_env { ex_param true with mirror := false } (ex_layer 1) =
        .ok (Lb', items_b) ∧
      ((ex_layer 0).image_pairs_ = (ex_layer 1).image_pairs_ →
        (ex_layer 0).image_pair_id_ = (ex_layer 1).image_pair_id_ →
        (ex_layer 0).prefetch_rng_ = (ex_layer 1).prefetch_rng_ →
        (ex_param true).shuffle =
          ({ ex_param true with mirror := false } : SegmentationDataParameter ℚ).shuffle →
        La'.image_pairs_ = Lb'.image_pairs_ ∧ La'.image_pair_id_ = Lb'.image_pair_id_ ∧
        La'.prefetch_rng_ = Lb'.prefetch_rng_ ∧
        items_a.map (fun it => (it.cursor, it.entry)) =
          items_b.map (fun it => (it.cursor, it.entry))) ∧
      ((ex_param true).mirror =
          ({ ex_param true with mirror := false } : SegmentationDataParameter ℚ).mirror →
        (ex_layer 0).bool_rng_ = (ex_layer 1).bool_rng_ →
        La'.bool_rng_ = Lb'.bool_rng_ ∧
        items_a.map Item.mirror_image = items_b.map Item.mirror_image) :=
  ⟨rfl, rfl, fun _ l _ => List.length_reverse l, fun _ l _ => List.length_reverse l,
    by decide, by decide, rfl,
    streams_do_not_interfere ex_env (ex_param true) { ex_param true with mirror := false }
      (ex_layer 0) (ex_layer 1) ex_pair ex_pair rfl rfl (fun _ l _ => List.length_reverse l)
      (fun _ l _ => List.length_reverse l) (by decide) (by decide) rfl⟩

/-! ## The mirror draws -/

/-- C15: with mirroring enabled a production cycle has as many items as the
batch size and leaves the mirror stream in the state reached after that many
draws; item `i` is mirrored exactly when draw `i` of the stream, counted from
the state at the start of the cycle, is odd.  `RandBool` itself returns whether
its draw is odd and advances the stream by that draw. -/
theorem mirror_draws_one_per_item {F S T : Type} [Sub F] [Zero F] [One F] [NatCast F]
    (env : Env F S T) (data_param : SegmentationDataParameter F)
    (L : SegmentationDataLayer F S T) (pair0 : ImagePair F)
    (hpair0 : L.image_pairs_[L.image_pair_id_]? = some pair0)
    (hsh : data_param.shuffle = true → ∀ l s, (env.shuffle l s).1.length = l.length)
    (hmean : (env.imread pair0.image).channels ≤ L.mean_values_.length)
    (hmirror : data_param.mirror = true) :
    ((RandBool env L).1 = true ↔ (env.rng L.bool_rng_).1 % 2 = 1) ∧
    (RandBool env L).2.bool_rng_ = (env.rng L.bool_rng_).2 ∧
    ∃ L' items, InternalThreadEntry env data_param L = .ok (L', items) ∧
      items.length = data_param.batch_size.toNat ∧
      L'.bool_rng_ = stream_after env L.bool_rng_ data_param.batch_size.toNat ∧
      ∀ i, i < data_param.batch_size.toNat → ∃ it, items[i]? = some it ∧
        (it.mirror_image = true ↔ (env.rng (stream_after env L.bool_rng_ i)).1 % 2 = 1) := by
  have hodd : ∀ n : Nat, ((n % 2 != 0) = true) ↔ n % 2 = 1 := by
    intro n
    rcases Nat.mod_two_eq_zero_or_one n with h | h <;> simp [h]
  refine ⟨hodd _, rfl, ?_⟩
  obtain ⟨L', items, hrun, hlen, hst, hall⟩ :=
    cycle_mirror_decisions env data_param L pair0 hpair0 hsh hmean
  rw [hmirror] at hst
  refine ⟨L', items, hrun, hlen, by simpa using hst, ?_⟩
  intro i hi
  have hlt : i < items.length := by rw [hlen]; exact hi
  refine ⟨items.get ⟨i, hlt⟩, getElem?_of_lt _ _ hlt, ?_⟩
  rw [hall i _ (getElem?_of_lt _ _ hlt), hmirror]
  simp

/-! ## Mirroring twice -/

theorem forLoop_congr {σ : Type} (b1 b2 : Nat → σ → Except Fault σ) (n : Nat)
    (h : ∀ i, i < n → ∀ s, b1 i s = b2 i s) (s : σ) : forLoop b1 n s = forLoop b2 n s := by
  induction n with
  | zero => rfl
  | succ n ih =>
    simp only [forLoop]
    rw [ih (fun i hi => h i (Nat.lt_succ_of_lt hi))]
    cases forLoop b2 n s with
    | error e => rfl
    | ok t => exact h n (Nat.lt_succ_self n) t

/-- C19: the colour loops run with the mirror decision true on the image with
reversed columns append the same float data as with the mirror decision false
on the image itself, and so do the mask loops on the mask; reversing the
columns twice gives back every column; and the float data of a sample, the
colour loops followed by the mask loops, is the same for the mirror decision
true on the reversed image and mask as for the mirror decision false on the
image and mask themselves. -/
theorem mirror_of_flipped_is_plain {F : Type} [Sub F] [Zero F] [One F] [NatCast F]
    (I I_image I_label : Mat) (mean_values_ : List F) (d : List F) :
    fill_image I (flip_columns I_image) mean_values_ true d =
      fill_image I I_image mean_values_ false d ∧
    fill_label (flip_columns I_label) true d = fill_label I_label false d ∧
    (∀ h w c, w < I_image.cols →
      (flip_columns (flip_columns I_image)).at_ h w c = I_image.at_ h w c) ∧
    (∀ h w c, w < I_label.cols →
      (flip_columns (flip_columns I_label)).at_ h w c = I_label.at_ h w c) ∧
    (fill_image I (flip_columns I_image) mean_values_ true []).bind
        (fun float_data => fill_label (flip_columns I_label) true float_data) =
      (fill_image I I_image mean_values_ false []).bind
        (fun float_data => fill_label I_label false float_data) := by
  have hcol : ∀ cols w : Nat, w < cols → cols - 1 - (cols - w - 1) = w := by
    intro cols w hw; omega
  have himage : ∀ d : List F, fill_image I (flip_columns I_image) mean_values_ true d =
      fill_image I I_image mean_values_ false d := by
    intro d
    unfold fill_image
    apply forLoop_congr
    intro c _ s
    apply forLoop_congr
    intro h _ s
    apply forLoop_congr
    intro w hw s
    simp only [flip_columns] at hw ⊢
    simp [hcol _ _ hw]
  have hlabel : ∀ d : List F, fill_label (flip_columns I_label) true d =
      fill_label I_label false d := by
    intro d
    unfold fill_label
    apply forLoop_congr
    intro h _ s
    apply forLoop_congr
    intro w hw s
    simp only [flip_columns] at hw ⊢
    simp [hcol _ _ hw]
  refine ⟨himage d, hlabel d, ?_, ?_, ?_⟩
  · intro h w c hw
    simp only [flip_columns]
    congr 1
    omega
  · intro h w c hw
    simp only [flip_columns]
    congr 1
    omega
  · rw [himage []]
    congr 1
    funext float_data
    exact hlabel float_data

/-! ## The size of the float data -/

theorem succ_div_wrap (a N : Nat) (hN : 0 < N) :
    (a + 1) / N = a / N + if N ≤ a % N + 1 then 1 else 0 := by
  rw [Nat.succ_div]
  congr 1
  have hw := succ_mod_wrap a N hN
  by_cases h : N ≤ a % N + 1
  · rw [if_pos h] at hw
    rw [if_pos h, if_pos (Nat.dvd_of_mod_eq_zero hw)]
  · rw [if_neg h] at hw
    rw [if_neg h, if_neg]
    intro hd
    have := Nat.mod_eq_zero_of_dvd hd
    omega

/-- A cycle in closed form: the number of items, the length of the index,
the cursor at the end, the index, cursor and shuffle stream at the end as
`schedule_after` gives them, and the cursor every item reads. -/
theorem cycle_states {F S T : Type} [Sub F] [Zero F] [One F] [NatCast F]
    (env : Env F S T) (data_param : SegmentationDataParameter F)
    (L : SegmentationDataLayer F S T) (pair0 : ImagePair F)
    (hpair0 : L.image_pairs_[L.image_pair_id_]? = some pair0)
    (hsh : data_param.shuffle = true → ∀ l s, (env.shuffle l s).1.length = l.length)
    (hmean : (env.imread pair0.image).channels ≤ L.mean_values_.length) :
    ∃ L' items, InternalThreadEntry env data_param L = .ok (L', items) ∧
      items.length = data_param.batch_size.toNat ∧
      L'.image_pairs_.length = L.image_pairs_.length ∧
      L'.image_pair_id_ =
        (L.image_pair_id_ + data_param.batch_size.toNat) % L.image_pairs_.length ∧
      (L'.image_pairs_, L'.image_pair_id_, L'.prefetch_rng_) =
        schedule_after env data_param.shuffle
          (L.image_pairs_, L.image_pair_id_, L.prefetch_rng_) data_param.batch_size.toNat ∧
      ∀ i it, items[i]? = some it →
        it.cursor = (L.image_pair_id_ + i) % L.image_pairs_.length := by
  have hcur := lt_length_of_getElem? _ _ _ hpair0
  have hN : 0 < L.image_pairs_.length := Nat.lt_of_le_of_lt (Nat.zero_le _) hcur
  obtain ⟨L', items, hrun, ⟨hlen, hc, hst, hall⟩, -, -, hl⟩ :=
    cycle_invariant env data_param L pair0 hpair0 hsh hmean
      (fun k (L1 : SegmentationDataLayer F S T) (log : List (Item F)) =>
        log.length = k ∧
        L1.image_pair_id_ = (L.image_pair_id_ + k) % L.image_pairs_.length ∧
        (L1.image_pairs_, L1.image_pair_id_, L1.prefetch_rng_) =
          schedule_after env data_param.shuffle
            (L.image_pairs_, L.image_pair_id_, L.prefetch_rng_) k ∧
        ∀ i it, log[i]? = some it →
          it.cursor = (L.image_pair_id_ + i) % L.image_pairs_.length)
      ⟨rfl, by simp [Nat.mod_eq_of_lt hcur], rfl, by simp⟩
      (by
        rintro k L1 log pair - ⟨hlen, hc, hst, hall⟩ - - hl
        refine ⟨by simp [hlen], ?_, ?_, ?_⟩
        · rw [item_layer_cursor, hl, hc, ← Nat.add_assoc, succ_mod_wrap _ _ hN]
        · rw [item_layer_pairs, item_layer_cursor, item_layer_prefetch_rng]
          show _ = schedule_step env data_param.shuffle _
          rw [← hst]
          rfl
        · intro i it hit
          rcases getElem?_concat_cases _ _ _ _ hit with ⟨-, h⟩ | ⟨hi, h⟩
          · exact hall i it h
          · subst h
            rw [hi, hlen, ← hc]
            rfl)
  exact ⟨L', items, hrun, hlen, hl, hc, hst, hall⟩

/-- A cycle does not look at the batch size beyond the number of passes. -/
theorem InternalThreadEntry_batch_size {F S T : Type} [Sub F] [Zero F] [One F] [NatCast F]
    (env : Env F S T) (data_param : SegmentationDataParameter F)
    (L : SegmentationDataLayer F S T) (pair0 : ImagePair F)
    (hpair0 : L.image_pairs_[L.image_pair_id_]? = some pair0) (n : Nat) :
    InternalThreadEntry env { data_param with batch_size := (n : Int) } L =
      forLoop
        (item_body env data_param (env.imread pair0.image)
          (cycle_height data_param (env.imread pair0.image))
          (cycle_width data_param (env.imread pair0.image)))
        n
        ({ L with
            transformed_data_ :=
              (1, 4, cycle_height data_param (env.imread pair0.image),
                cycle_width data_param (env.imread pair0.image)) }, []) := by
  rw [InternalThreadEntry_eq env _ L pair0 hpair0]
  rfl

/-- Along `schedule_after` the index keeps its length, the cursor after `k`
passes is `(c + k) mod N`, and an observer of the shuffle stream that goes up
by one at every call of the shuffle has gone up by `(c + k) / N` when shuffling
is enabled and has not moved when it is disabled. -/
theorem schedule_after_count {F S T : Type} (env : Env F S T) (shuffle : Bool)
    (pairs : List (ImagePair F)) (c : Nat) (s : S) (hc : c < pairs.length)
    (hsh : shuffle = true → ∀ l s, (env.shuffle l s).1.length = l.length)
    (count : S → Nat) (hcount : ∀ l s, count (env.shuffle l s).2 = count s + 1) (k : Nat) :
    (schedule_after env shuffle (pairs, c, s) k).1.length = pairs.length ∧
    (schedule_after env shuffle (pairs, c, s) k).2.1 = (c + k) % pairs.length ∧
    count (schedule_after env shuffle (pairs, c, s) k).2.2 =
      count s + if shuffle then (c + k) / pairs.length else 0 := by
  have hN : 0 < pairs.length := Nat.lt_of_le_of_lt (Nat.zero_le _) hc
  induction k with
  | zero =>
    refine ⟨rfl, by simp [schedule_after, Nat.mod_eq_of_lt hc], ?_⟩
    simp [schedule_after, Nat.div_eq_of_lt hc]
  | succ k ih =>
    obtain ⟨h1, h2, h3⟩ := ih
    simp only [schedule_after, schedule_step]
    rw [h1, h2]
    refine ⟨?_, ?_, ?_⟩
    · split_ifs with h
      · rw [hsh h.2, h1]
      · exact h1
    · rw [← Nat.add_assoc, succ_mod_wrap _ _ hN]
    · rw [← Nat.add_assoc, succ_div_wrap _ _ hN]
      cases shuffle
      · simpa using h3
      · simp only [and_true, if_true] at h3 ⊢
        split_ifs with h
        · rw [hcount, h3]; omega
        · rw [h3]; omega

/-- C17: for an observer `count` of the shuffle stream that goes up by one at
every call of the shuffle (the stream is touched by `ShuffleImages` only):
setup raises it by one when shuffling is enabled and leaves it alone
otherwise; a production cycle from cursor `c` in an index of `N` entries with
batch size `B` raises it by `(c + B) / N` when shuffling is enabled and by 0
when it is disabled; and the pass of item `i` raises it by one exactly when
shuffling is enabled and the item read the cursor `N - 1`. -/
theorem shuffle_once_per_wrap {F S T : Type} [Sub F] [Zero F] [One F] [NatCast F]
    (env : Env F S T) (data_param : SegmentationDataParameter F)
    (L : SegmentationDataLayer F S T) (pair0 : ImagePair F)
    (hpair0 : L.image_pairs_[L.image_pair_id_]? = some pair0)
    (hsh : data_param.shuffle = true → ∀ l s, (env.shuffle l s).1.length = l.length)
    (hmean : (env.imread pair0.image).channels ≤ L.mean_values_.length)
    (count : S → Nat) (hcount : ∀ l s, count (env.shuffle l s).2 = count s + 1) :
    (∀ (data_transformer : T) (prefetch_rng_seed bool_rng_seed : Nat)
        (index : List (ImagePair F)),
      load_manifest env data_param.source data_param.has_manipulation_data [] = .ok index →
      index ≠ [] → 0 ≤ data_param.batch_size →
      ∃ L0, DataLayerSetUp env data_param data_transformer prefetch_rng_seed bool_rng_seed
          = .ok L0 ∧
        count L0.prefetch_rng_ =
          count (env.seed prefetch_rng_seed) + if data_param.shuffle then 1 else 0) ∧
    ∃ L' items, InternalThreadEntry env data_param L = .ok (L', items) ∧
      items.length = data_param.batch_size.toNat ∧
      count L'.prefetch_rng_ =
        count L.prefetch_rng_ +
          (if data_param.shuffle then
            (L.image_pair_id_ + data_param.batch_size.toNat) / L.image_pairs_.length
          else 0) ∧
      ∀ i, i < data_param.batch_size.toNat →
        (∃ it, items[i]? = some it ∧
          it.cursor = (L.image_pair_id_ + i) % L.image_pairs_.length) ∧
        ∃ Li items_i Li1 items_i1,
          InternalThreadEntry env { data_param with batch_size := (i : Int) } L
            = .ok (Li, items_i) ∧
          InternalThreadEntry env { data_param with batch_size := ((i + 1 : Nat) : Int) } L
            = .ok (Li1, items_i1) ∧
          count Li1.prefetch_rng_ =
            count Li.prefetch_rng_ +
              (if data_param.shuffle = true ∧
                  (L.image_pair_id_ + i) % L.image_pairs_.length + 1 = L.image_pairs_.length
                then 1 else 0) := by
  have hcur := lt_length_of_getElem? _ _ _ hpair0
  have hN : 0 < L.image_pairs_.length := Nat.lt_of_le_of_lt (Nat.zero_le _) hcur
  have hsched := schedule_after_count env data_param.shuffle L.image_pairs_ L.image_pair_id_
    L.prefetch_rng_ hcur hsh count hcount
  -- the shuffle stream at the end of a cycle of `n` passes
  have hprefix : ∀ n : Nat, ∃ Ln items_n,
      InternalThreadEntry env { data_param with batch_size := (n : Int) } L = .ok (Ln, items_n) ∧
      count Ln.prefetch_rng_ =
        count L.prefetch_rng_ +
          (if data_param.shuffle then (L.image_pair_id_ + n) / L.image_pairs_.length
            else 0) := by
    intro n
    obtain ⟨Ln, items_n, hrun, -, -, -, hst, -⟩ :=
      cycle_states env { data_param with batch_size := (n : Int) } L pair0 hpair0 hsh hmean
    refine ⟨Ln, items_n, hrun, ?_⟩
    have h3 := (hsched n).2.2
    have hst2 : Ln.prefetch_rng_ =
        (schedule_after env data_param.shuffle
          (L.image_pairs_, L.image_pair_id_, L.prefetch_rng_) n).2.2 := by
      have := congrArg (fun t => t.2.2) hst
      simpa using this
    rw [hst2]
    exact h3
  constructor
  · intro data_transformer prefetch_rng_seed bool_rng_seed index hload hne hB
    obtain ⟨L0, hset, -, -, hr, -⟩ := DataLayerSetUp_ok env data_param data_transformer
      prefetch_rng_seed bool_rng_seed index hload hne hB hsh
    refine ⟨L0, hset, ?_⟩
    rw [hr]
    cases data_param.shuffle
    · simp
    · simp [hcount]
  · obtain ⟨L', items, hrun, hlen, -, -, hst, hall⟩ :=
      cycle_states env data_param L pair0 hpair0 hsh hmean
    refine ⟨L', items, hrun, hlen, ?_, ?_⟩
    · have hst2 : L'.prefetch_rng_ =
          (schedule_after env data_param.shuffle
            (L.image_pairs_, L.image_pair_id_, L.prefetch_rng_)
            data_param.batch_size.toNat).2.2 := by
        have := congrArg (fun t => t.2.2) hst
        simpa using this
      rw [hst2]
      exact (hsched _).2.2
    · intro i hi
      have hlt : i < items.length := by rw [hlen]; exact hi
      refine ⟨⟨items.get ⟨i, hlt⟩, getElem?_of_lt _ _ hlt,
        hall i _ (getElem?_of_lt _ _ hlt)⟩, ?_⟩
      obtain ⟨Li, items_i, hri, hci⟩ := hprefix i
      obtain ⟨Li1, items_i1, hri1, hci1⟩ := hprefix (i + 1)
      refine ⟨Li, items_i, Li1, items_i1, hri, hri1, ?_⟩
      rw [hci, hci1, ← Nat.add_assoc, succ_div_wrap _ _ hN]
      have hm : (L.image_pair_id_ + i) % L.image_pairs_.length < L.image_pairs_.length :=
        Nat.mod_lt _ hN
      cases data_param.shuffle
      · simp
      · simp only [if_true, true_and]
        by_cases h : L.image_pairs_.length ≤ (L.image_pair_id_ + i) % L.image_pairs_.length + 1
        · rw [if_pos h, if_pos (by omega)]; omega
        · rw [if_neg h, if_neg (by omega)]; omega

/-! ## The shuffle is a permutation -/

theorem iter_swap_perm {α : Type} (l : List α) (i j : Nat) : List.Perm (iter_swap l i j) l := by
  classical
  unfold iter_swap
  cases hi : l[i]? with
  | none => exact List.Perm.refl _
  | some a =>
    cases hj : l[j]? with
    | none => exact List.Perm.refl _
    | some b =>
      have hil := lt_length_of_getElem? _ _ _ hi
      have hjl := lt_length_of_getElem? _ _ _ hj
      have hia : l[i] = a := by
        have := List.getElem?_eq_getElem hil
        rw [hi] at this
        exact (Option.some.inj this).symm
      have hjb : l[j] = b := by
        have := List.getElem?_eq_getElem hjl
        rw [hj] at this
        exact (Option.some.inj this).symm
      show List.Perm ((l.set i b).set j a) l
      rw [List.perm_iff_count]
      intro x
      have hjl2 : j < (l.set i b).length := by rw [List.length_set]; exact hjl
      have hjb2 : (l.set i b)[j] = b := by
        rw [List.getElem_set]
        split_ifs
        · rfl
        · exact hjb
      rw [List.count_set _ _ _ _ hjl2, List.count_set _ _ _ _ hil, hjb2, hia]
      have hpos : (if (a == x) = true then 1 else 0) ≤ List.count x l := by
        split_ifs with h
        · have hax : a = x := by simpa using h
          have : x ∈ l := by rw [← hax, ← hia]; exact List.getElem_mem _
          exact List.count_pos_iff.mpr this
        · exact Nat.zero_le _
      omega

theorem shuffle_from_perm {α S : Type} (draw : S → Nat → Nat × S) (n : Nat) (l : List α)
    (s : S) : List.Perm (shuffle_from draw n l s).1 l := by
  induction n generalizing l s with
  | zero => exact List.Perm.refl _
  | succ n ih => exact (ih _ _).trans (iter_swap_perm l _ _)

/-- The modelled shuffle returns a permutation of the sequence it is given. -/
theorem shuffle_perm {α S : Type} (draw : S → Nat → Nat × S) (l : List α) (s : S) :
    List.Perm (shuffle draw l s).1 l :=
  shuffle_from_perm draw _ l s

/-- The modelled shuffle on four entries with the draws 1, 0, 1: the last
entry is exchanged with the second, the third with the first, the second stays,
and one draw is made for each position but the first. -/
theorem shuffle_on_four :
    shuffle (fun (s : Nat) i => ((2 * s + 1) % (i + 1), s + 1)) ['a', 'b', 'c', 'd'] 0 =
      (['c', 'd', 'a', 'b'], 3) := by
  decide

/-- C14: with the modelled shuffle, `ShuffleImages` leaves an index of the
same length that is a permutation of the index it found, whatever the index
and the state of the shuffle stream; run from an equal index and an equal
stream state it yields the same order and the same stream state. -/
theorem ShuffleImages_permutes {F S T : Type} (env : Env F S T) (draw : S → Nat → Nat × S)
    (L : SegmentationDataLayer F S T) :
    (ShuffleImages { env with shuffle := shuffle draw } L).image_pairs_.length =
      L.image_pairs_.length ∧
    List.Perm (ShuffleImages { env with shuffle := shuffle draw } L).image_pairs_
      L.image_pairs_ ∧
    ∀ L2 : SegmentationDataLayer F S T,
      L2.image_pairs_ = L.image_pairs_ → L2.prefetch_rng_ = L.prefetch_rng_ →
      (ShuffleImages { env with shuffle := shuffle draw } L2).image_pairs_ =
        (ShuffleImages { env with shuffle := shuffle draw } L).image_pairs_ ∧
      (ShuffleImages { env with shuffle := shuffle draw } L2).prefetch_rng_ =
        (ShuffleImages { env with shuffle := shuffle draw } L).prefetch_rng_ := by
  refine ⟨(shuffle_perm draw _ _).length_eq, shuffle_perm draw _ _, ?_⟩
  intro L2 h1 h2
  simp only [ShuffleImages, h1, h2, and_self]

/-! ## Reading a written manifest -/

theorem takeWhile_append_stop {α : Type} (p : α → Bool) (l rest : List α) (c : α)
    (hl : ∀ x ∈ l, p x = true) (hc : p c = false) : (l ++ c :: rest).takeWhile p = l := by
  induction l with
  | nil => simp [List.takeWhile, hc]
  | cons a l ih =>
    have ha : p a = true := hl a (List.mem_cons_self _ _)
    simp only [List.cons_append, List.takeWhile_cons, ha, if_true]
    rw [ih (fun x hx => hl x (List.mem_cons_of_mem _ hx))]

theorem dropWhile_append_stop {α : Type} (p : α → Bool) (l rest : List α) (c : α)
    (hl : ∀ x ∈ l, p x = true) (hc : p c = false) :
    (l ++ c :: rest).dropWhile p = c :: rest := by
  induction l with
  | nil => simp [List.dropWhile, hc]
  | cons a l ih =>
    have ha : p a = true := hl a (List.mem_cons_self _ _)
    simp only [List.cons_append, List.dropWhile_cons, ha, if_true]
    exact ih (fun x hx => hl x (List.mem_cons_of_mem _ hx))

theorem takeWhile_all {α : Type} (p : α → Bool) (l : List α) (hl : ∀ x ∈ l, p x = true) :
    l.takeWhile p = l :=
  List.takeWhile_eq_self_iff.mpr hl

theorem dropWhile_all {α : Type} (p : α → Bool) (l : List α) (hl : ∀ x ∈ l, p x = true) :
    l.dropWhile p = [] :=
  List.dropWhile_eq_nil_iff.mpr hl

/-- The body of the `getline` loop in terms of the quantities of the split. -/
theorem parse_line_split {F : Type} (pair : ImagePair F) (line : string) :
    parse_line pair line =
      match substr line 0 (to_size_t (split_pos1 line)) with
      | .error e => .error e
      | .ok image =>
        match substr line (to_size_t (split_start line)) (to_size_t (mask_length line)) with
        | .error e => .error e
        | .ok gt_image => .ok { pair with image := image, gt_image := gt_image } :=
  rfl

/-- A line that holds no newline and is followed by one is what `getline`
extracts, and the stream goes on after the newline. -/
theorem getline_line (l rest : List Char) (hl : '\n' ∉ l) :
    getline (l ++ '\n' :: rest) = some (l, rest) := by
  have hp : ∀ x ∈ l, (decide (x ≠ '\n')) = true := by
    intro x hx
    simp only [decide_eq_true_eq]
    intro h
    exact hl (h ▸ hx)
  have hc : (decide ('\n' ≠ '\n')) = false := by decide
  have h1 := takeWhile_append_stop (fun x => decide (x ≠ '\n')) l rest '\n' hp hc
  have h2 := dropWhile_append_stop (fun x => decide (x ≠ '\n')) l rest '\n' hp hc
  cases l with
  | nil =>
    simp only [List.nil_append] at h1 h2 ⊢
    simp only [getline, h1, h2, List.drop_one, List.tail_cons]
  | cons a l =>
    simp only [List.cons_append] at h1 h2 ⊢
    simp only [getline, h1, h2, List.drop_one, List.tail_cons]

theorem length_le_write_basic {F : Type} (es : List (ImagePair F)) :
    es.length ≤ (write_basic es).length := by
  induction es with
  | nil => simp
  | cons e es ih =>
    simp only [write_basic, List.flatMap_cons, List.length_append, List.length_cons,
      write_basic_line] at ih ⊢
    omega

/-- The `getline` loop on a written basic manifest, with fuel for every line:
one entry per line, in order, with the paths of the line. -/
theorem read_basic_written {F : Type} (pair : ImagePair F) (es : List (ImagePair F))
    (hes : ∀ e ∈ es, ' ' ∉ e.image ∧ '\n' ∉ e.image ∧ ' ' ∉ e.gt_image ∧ '\n' ∉ e.gt_image ∧
      e.image.length + e.gt_image.length + 1 < 2 ^ 31)
    (fuel : Nat) (hf : es.length ≤ fuel) (acc : List (ImagePair F)) :
    read_basic pair fuel (write_basic es) acc =
      .ok (acc ++ es.map (fun e => { pair with image := e.image, gt_image := e.gt_image })) := by
  induction es generalizing fuel acc with
  | nil =>
    cases fuel with
    | zero => simp [read_basic, write_basic]
    | succ fuel => simp [read_basic, write_basic, getline]
  | cons e es ih =>
    obtain ⟨h1, h2, h3, h4, h5⟩ := hes e (List.mem_cons_self _ _)
    cases fuel with
    | zero => simp at hf
    | succ fuel =>
      have hline : '\n' ∉ e.image ++ ' ' :: e.gt_image := by
        intro h
        rcases List.mem_append.mp h with h | h
        · exact h2 h
        · rcases List.mem_cons.mp h with h | h
          · exact absurd h (by decide)
          · exact h4 h
      have hstream : write_basic (e :: es) =
          (e.image ++ ' ' :: e.gt_image) ++ '\n' :: write_basic es := by
        simp [write_basic, write_basic_line]
      rw [hstream]
      simp only [read_basic, getline_line _ _ hline, (parse_line_tokens pair _ _ h1 h3 h5).1]
      rw [ih (fun e he => hes e (List.mem_cons_of_mem _ he)) fuel (by simpa using hf)]
      simp

theorem dropWhile_append_all {α : Type} (p : α → Bool) (l rest : List α)
    (hl : ∀ x ∈ l, p x = true) : (l ++ rest).dropWhile p = rest.dropWhile p := by
  induction l with
  | nil => rfl
  | cons a l ih =>
    have ha : p a = true := hl a (List.mem_cons_self _ _)
    simp only [List.cons_append, List.dropWhile_cons, ha, if_true]
    exact ih (fun x hx => hl x (List.mem_cons_of_mem _ hx))

/-- Extraction of a string skips the whitespace in front of it. -/
theorem read_string_skip (ws s : List Char) (hws : ∀ c ∈ ws, isspace c = true) :
    read_string (ws ++ s) = read_string s := by
  unfold read_string
  rw [dropWhile_append_all isspace ws s hws]

/-- Extraction of a string from whitespace alone fails. -/
theorem read_string_blank (ws : List Char) (hws : ∀ c ∈ ws, isspace c = true) :
    read_string ws = none := by
  unfold read_string
  rw [dropWhile_all isspace ws hws]
  rfl

/-- Extraction of a string returns the token in front, up to the whitespace
that ends it. -/
theorem read_string_token (tok rest : List Char) (c0 : Char) (hne : tok ≠ [])
    (htok : ∀ c ∈ tok, isspace c = false) (hc0 : isspace c0 = true) :
    read_string (tok ++ c0 :: rest) = some (tok, c0 :: rest) := by
  have hp : ∀ c ∈ tok, (!isspace c) = true := by
    intro c hc; rw [htok c hc]; rfl
  have hq : (!isspace c0) = false := by rw [hc0]; rfl
  have h1 := takeWhile_append_stop (fun c => !isspace c) tok rest c0 hp hq
  have h2 := dropWhile_append_stop (fun c => !isspace c) tok rest c0 hp hq
  cases tok with
  | nil => exact absurd rfl hne
  | cons a tok =>
    have ha : isspace a = false := htok a (List.mem_cons_self _ _)
    have h0 : ((a :: tok) ++ c0 :: rest).dropWhile isspace = (a :: tok) ++ c0 :: rest := by
      simp only [List.cons_append, List.dropWhile_cons, ha]
      rfl
    unfold read_string
    simp only [h0, h1, h2]

theorem isspace_space : isspace ' ' = true := by decide

theorem isspace_newline : isspace '\n' = true := by decide

/-- One pass of the extraction loop over the line of a well-formed entry, the
numbers of which extraction reads back as written. -/
theorem read_extended_record {F S T : Type} (env : Env F S T) (print : F → List Char)
    (e : ImagePair F) (ws rest : List Char) (fuel : Nat) (acc : List (ImagePair F))
    (hws : ∀ c ∈ ws, isspace c = true)
    (hi : e.image ≠ [] ∧ ∀ c ∈ e.image, isspace c = false)
    (hg : e.gt_image ≠ [] ∧ ∀ c ∈ e.gt_image, isspace c = false)
    (hx : ∀ c rest, isspace c = true →
      env.read_float (' ' :: (print e.mp_x ++ c :: rest)) =
        some (e.mp_x, (print e.mp_x).length + 1))
    (hy : ∀ c rest, isspace c = true →
      env.read_float (' ' :: (print e.mp_y ++ c :: rest)) =
        some (e.mp_y, (print e.mp_y).length + 1)) :
    read_extended env (fuel + 1) (ws ++ (write_extended_line print e ++ rest)) acc =
      read_extended env fuel ('\n' :: rest) (acc ++ [e]) := by
  have hs : write_extended_line print e ++ rest =
      e.image ++ ' ' :: (e.gt_image ++ ' ' ::
        (print e.mp_x ++ ' ' :: (print e.mp_y ++ '\n' :: rest))) := by
    simp [write_extended_line]
  have h1 := read_string_skip ws (write_extended_line print e ++ rest) hws
  rw [hs, read_string_token _ _ _ hi.1 hi.2 isspace_space] at h1
  have h2 : read_string (' ' :: (e.gt_image ++ ' ' ::
      (print e.mp_x ++ ' ' :: (print e.mp_y ++ '\n' :: rest)))) =
      some (e.gt_image, ' ' :: (print e.mp_x ++ ' ' :: (print e.mp_y ++ '\n' :: rest))) := by
    have := read_string_skip [' '] (e.gt_image ++ ' ' ::
      (print e.mp_x ++ ' ' :: (print e.mp_y ++ '\n' :: rest)))
      (by intro c hc; rw [List.mem_singleton] at hc; rw [hc]; exact isspace_space)
    rw [read_string_token _ _ _ hg.1 hg.2 isspace_space] at this
    exact this
  have hd : ∀ (p r : List Char), (' ' :: (p ++ r)).drop (p.length + 1) = r := by
    intro p r
    rw [List.drop_succ_cons, List.drop_append_of_le_length (Nat.le_refl _), List.drop_length]
    rfl
  have h3 := hx ' ' (print e.mp_y ++ '\n' :: rest) isspace_space
  have h4 := hy '\n' rest isspace_newline
  rw [hs]
  simp only [read_extended, h1, h2, h3, hd, h4]

theorem length_le_write_extended {F : Type} (print : F → List Char) (es : List (ImagePair F)) :
    es.length ≤ (write_extended print es).length := by
  induction es with
  | nil => simp
  | cons e es ih =>
    simp only [write_extended, List.flatMap_cons, List.length_append, List.length_cons,
      write_extended_line] at ih ⊢
    omega

/-- The extraction loop over a written extended manifest followed by `tail`,
with fuel for every line: the entries are appended in order and the loop goes
on at `tail`, behind whitespace. -/
theorem read_extended_written {F S T : Type} (env : Env F S T) (print : F → List Char)
    (es : List (ImagePair F)) (tail : List Char)
    (hes : ∀ e ∈ es, (e.image ≠ [] ∧ ∀ c ∈ e.image, isspace c = false) ∧
      (e.gt_image ≠ [] ∧ ∀ c ∈ e.gt_image, isspace c = false) ∧
      (∀ c rest, isspace c = true →
        env.read_float (' ' :: (print e.mp_x ++ c :: rest)) =
          some (e.mp_x, (print e.mp_x).length + 1)) ∧
      (∀ c rest, isspace c = true →
        env.read_float (' ' :: (print e.mp_y ++ c :: rest)) =
          some (e.mp_y, (print e.mp_y).length + 1)))
    (fuel : Nat) (hf : es.length ≤ fuel) (ws : List Char) (hws : ∀ c ∈ ws, isspace c = true)
    (acc : List (ImagePair F)) :
    ∃ ws', (∀ c ∈ ws', isspace c = true) ∧
      read_extended env fuel (ws ++ (write_extended print es ++ tail)) acc =
        read_extended env (fuel - es.length) (ws' ++ tail) (acc ++ es) := by
  induction es generalizing fuel ws acc with
  | nil => exact ⟨ws, hws, by simp [write_extended]⟩
  | cons e es ih =>
    obtain ⟨hi, hg, hx, hy⟩ := hes e (List.mem_cons_self _ _)
    cases fuel with
    | zero => simp at hf
    | succ fuel =>
      obtain ⟨ws', hws', h⟩ := ih (fun e he => hes e (List.mem_cons_of_mem _ he)) fuel
        (by simpa using hf) ['\n']
        (by intro c hc; rw [List.mem_singleton] at hc; rw [hc]; exact isspace_newline)
        (acc ++ [e])
      refine ⟨ws', hws', ?_⟩
      have hstream : write_extended print (e :: es) ++ tail =
          write_extended_line print e ++ (write_extended print es ++ tail) := by
        simp [write_extended]
      rw [hstream, read_extended_record env print e ws _ fuel acc hws hi hg hx hy]
      have h' : read_extended env fuel ('\n' :: (write_extended print es ++ tail)) (acc ++ [e]) =
          read_extended env (fuel - es.length) (ws' ++ tail) (acc ++ [e] ++ es) := h
      rw [h']
      simp

/-! ## Manifests that load to no entry -/

/-- A manifest that cannot be opened loads to the empty index. -/
theorem load_manifest_unreadable {F S T : Type} (env : Env F S T) (source : string)
    (has_manipulation_data : Bool) (h : env.read_file source = none) :
    load_manifest env source has_manipulation_data [] = .ok [] := by
  simp [load_manifest, h]

/-- When the manifest cannot be opened, or loads to no entry, setup makes no
check: the index is empty and setup goes on to the unchecked read
`image_pairs_[0]`, past the end of the index, where the run stops before any
buffer is reshaped. -/
theorem setup_reads_empty_index {F S T : Type} [Zero F] (env : Env F S T)
    (data_param : SegmentationDataParameter F) (data_transformer : T)
    (prefetch_rng_seed bool_rng_seed : Nat)
    (hempty : env.read_file data_param.source = none ∨
      load_manifest env data_param.source data_param.has_manipulation_data [] = .ok [])
    (hsh : data_param.shuffle = true → ∀ l s, (env.shuffle l s).1.length = l.length) :
    load_manifest env data_param.source data_param.has_manipulation_data [] = .ok [] ∧
    DataLayerSetUp env data_param data_transformer prefetch_rng_seed bool_rng_seed =
      .error .out_of_bounds := by
  have hload : load_manifest env data_param.source data_param.has_manipulation_data [] =
      .ok [] := by
    rcases hempty with h | h
    · exact load_manifest_unreadable env _ _ h
    · exact h
  refine ⟨hload, ?_⟩
  unfold DataLayerSetUp
  rw [hload]
  cases hs : data_param.shuffle
  · simp [vec_get]
  · have hnil : (env.shuffle [] (env.seed prefetch_rng_seed)).1 = [] :=
      List.length_eq_zero.mp (by rw [hsh hs]; rfl)
    simp [ShuffleImages, vec_get, hnil]

/-- C12 at a manifest that cannot be opened: setup raises no configuration
error; the index is empty and setup goes on to the read `image_pairs_[0]`,
which is out of bounds, and stops there, not at a check. -/
theorem setup_on_unreadable_manifest :
    ex_env_ext.read_file (ex_param_ext ['u']).source = none ∧
    DataLayerSetUp ex_env_ext (ex_param_ext ['u']) () 7 8 = .error .out_of_bounds ∧
    DataLayerSetUp ex_env_ext (ex_param_ext ['u']) () 7 8 ≠ .error .check_failed := by
  refine ⟨rfl, rfl, ?_⟩
  intro h
  have h2 : DataLayerSetUp ex_env_ext (ex_param_ext ['u']) () 7 8 = .error .out_of_bounds := rfl
  rw [h2] at h
  cases h

/-- Setup on the example whose manifest is an empty file stops at the read
`image_pairs_[0]`. -/
theorem setup_reads_empty_index_witness :
    (ex_env_ext.read_file (ex_param_ext ['z']).source = none ∨
      load_manifest ex_env_ext (ex_param_ext ['z']).source
        (ex_param_ext ['z']).has_manipulation_data [] = .ok []) ∧
    ((ex_param_ext ['z']).shuffle = true →
      ∀ l s, (ex_env_ext.shuffle l s).1.length = l.length) ∧
    load_manifest ex_env_ext (ex_param_ext ['z']).source
      (ex_param_ext ['z']).has_manipulation_data [] = .ok [] ∧
    DataLayerSetUp ex_env_ext (ex_param_ext ['z']) () 7 8 = .error .out_of_bounds :=
  ⟨Or.inr rfl, fun _ l _ => List.length_reverse l,
    setup_reads_empty_index ex_env_ext (ex_param_ext ['z']) () 7 8 (Or.inr rfl)
      (fun _ l _ => List.length_reverse l)⟩

/-! ## The split of a line without a second space -/

theorem find_absent (line : List Char) (ch : Char) (pos : Nat) (h : ch ∉ line) :
    find line ch pos = npos := by
  unfold find
  exact find_from_absent _ _ _ (fun hm => h (List.mem_of_mem_drop hm))

/-- C18, as the code has it: a line without a space has `pos1 = pos2 = -1`
and the length `pos2 - pos1 - 1 = -1`, and both paths are the whole line; a
line with exactly one space, at a position `p` with `p + 1 < 2^31`, has
`pos1 = p`, a second search that starts at `p + 1` and finds nothing,
`pos2 = -1` and the negative length `-p - 2`.  The parser does not check: the
length is converted to the `size_t` value `2^64 - p - 2` and the mask path is
the rest of the line.  On these lines no `int` of the split overflows. -/
theorem split_without_second_space :
    (∀ line : List Char, ' ' ∉ line →
      find line ' ' 0 = npos ∧ split_pos1 line = -1 ∧ split_start line = 0 ∧
      find line ' ' (to_size_t (split_start line)) = npos ∧ split_pos2 line = -1 ∧
      mask_length line = -1 ∧ mask_length line < 0 ∧
      to_size_t (mask_length line) = npos ∧
      ∀ (F : Type) (pair : ImagePair F), parse_line pair line =
        .ok { pair with image := line.take npos, gt_image := line.take npos }) ∧
    (∀ a b : List Char, ' ' ∉ a → ' ' ∉ b → a.length + 1 < 2 ^ 31 →
      split_pos1 (a ++ ' ' :: b) = (a.length : Int) ∧
      split_start (a ++ ' ' :: b) = (a.length : Int) + 1 ∧
      find (a ++ ' ' :: b) ' ' (to_size_t (split_start (a ++ ' ' :: b))) = npos ∧
      split_pos2 (a ++ ' ' :: b) = -1 ∧
      mask_length (a ++ ' ' :: b) = -(a.length : Int) - 2 ∧
      mask_length (a ++ ' ' :: b) < 0 ∧
      to_size_t (mask_length (a ++ ' ' :: b)) = 2 ^ 64 - a.length - 2 ∧
      ∀ (F : Type) (pair : ImagePair F), parse_line pair (a ++ ' ' :: b) =
        .ok { pair with image := a, gt_image := b.take (2 ^ 64 - a.length - 2) }) := by
  constructor
  · intro line hline
    have h1 : split_pos1 line = -1 := by
      unfold split_pos1
      rw [find_absent _ _ _ hline, to_int_npos]
    have h0 : split_start line = 0 := by
      rw [split_start, h1]
      decide
    have h2 : split_pos2 line = -1 := by
      unfold split_pos2
      rw [find_absent _ _ _ hline, to_int_npos]
    have hm : mask_length line = -1 := by
      rw [mask_length, h1, h2]
      decide
    have hs : to_size_t (mask_length line) = npos := by
      rw [hm]
      decide
    have hs1 : to_size_t (-1) = npos := by decide
    refine ⟨find_absent _ _ _ hline, h1, h0, find_absent _ _ _ hline, h2, hm, by rw [hm]; decide,
      hs, ?_⟩
    intro F pair
    rw [parse_line_split, hs, h1, h0, hs1]
    simp [substr, to_size_t]
  · intro a b ha hb hla
    have h1 : split_pos1 (a ++ ' ' :: b) = (a.length : Int) := by
      unfold split_pos1
      rw [find, List.drop_zero, find_from_append _ _ _ _ ha, Nat.zero_add,
        to_int_of_lt _ (by omega)]
    have h0 : split_start (a ++ ' ' :: b) = (a.length : Int) + 1 := by
      rw [split_start, h1, wrap_int_of_range _ (by omega) (by omega)]
    have hnext : to_size_t ((a.length : Int) + 1) = a.length + 1 := by
      have := to_size_t_of_nat (a.length + 1) (by omega)
      rw [← this]; congr 1
    have hfind : find (a ++ ' ' :: b) ' ' (to_size_t (split_start (a ++ ' ' :: b))) =
        npos := by
      rw [h0, hnext, find, drop_past_first, find_from_absent _ _ _ hb]
    have h2 : split_pos2 (a ++ ' ' :: b) = -1 := by
      unfold split_pos2
      rw [hfind, to_int_npos]
    have hm : mask_length (a ++ ' ' :: b) = -(a.length : Int) - 2 := by
      rw [mask_length, h1, h2, wrap_int_sub_one _ (by omega) (by omega)]
      omega
    have hs : to_size_t (mask_length (a ++ ' ' :: b)) = 2 ^ 64 - a.length - 2 := by
      rw [hm, to_size_t_of_neg _ (by omega) (by omega)]
      omega
    refine ⟨h1, h0, hfind, h2, hm, by rw [hm]; omega, hs, ?_⟩
    intro F pair
    rw [parse_line_split, hs, h1, h0, hnext, to_size_t_of_nat _ (by omega)]
    simp [substr, drop_past_first]

/-- A line with exactly one space, at position `2^31`: `pos1` is `-2^31`, the
second search starts past the end of the line and finds nothing, and the
length `pos2 - pos1 - 1` is `2^31 - 2`. -/
theorem mask_length_at_int_limit (a b : List Char) (ha : ' ' ∉ a) (hla : a.length = 2 ^ 31)
    (hlb : b.length < 2 ^ 31) : mask_length (a ++ ' ' :: b) = 2 ^ 31 - 2 := by
  have h1 : split_pos1 (a ++ ' ' :: b) = -(2 ^ 31 : Int) := by
    unfold split_pos1
    rw [find, List.drop_zero, find_from_append _ _ _ _ ha, Nat.zero_add, hla]
    decide
  have hstart : to_size_t (wrap_int (-(2 ^ 31 : Int) + 1)) = 2 ^ 64 - 2 ^ 31 + 1 := by decide
  have h2 : split_pos2 (a ++ ' ' :: b) = -1 := by
    unfold split_pos2
    rw [split_start, h1, hstart, find, List.drop_eq_nil_of_le (by
      rw [List.length_append, List.length_cons, hla]; omega)]
    exact to_int_npos
  rw [mask_length, h1, h2]
  decide

/-- A line with exactly one space, at position `2^31 - 1`, the largest `int`:
`pos1 + 1` overflows and holds `-2^31`, the second search starts past the end
of the line and finds nothing, the length `pos2 - pos1 - 1` overflows and holds
`2^31 - 1`, and `substr` is asked for a start past the end of the line. -/
theorem split_at_int_max (a b : List Char) (ha : ' ' ∉ a) (hla : a.length = 2 ^ 31 - 1)
    (hlb : b.length < 2 ^ 31) :
    split_pos1 (a ++ ' ' :: b) = 2 ^ 31 - 1 ∧ split_start (a ++ ' ' :: b) = -(2 ^ 31) ∧
    split_pos2 (a ++ ' ' :: b) = -1 ∧ mask_length (a ++ ' ' :: b) = 2 ^ 31 - 1 ∧
    ∀ (F : Type) (pair : ImagePair F),
      parse_line pair (a ++ ' ' :: b) = .error .out_of_range := by
  have h1 : split_pos1 (a ++ ' ' :: b) = 2 ^ 31 - 1 := by
    unfold split_pos1
    rw [find, List.drop_zero, find_from_append _ _ _ _ ha, Nat.zero_add, hla]
    decide
  have h0 : split_start (a ++ ' ' :: b) = -(2 ^ 31) := by
    rw [split_start, h1]
    decide
  have hstart : to_size_t (-(2 ^ 31 : Int)) = 2 ^ 64 - 2 ^ 31 := by decide
  have h2 : split_pos2 (a ++ ' ' :: b) = -1 := by
    unfold split_pos2
    rw [h0, hstart, find, List.drop_eq_nil_of_le (by
      rw [List.length_append, List.length_cons, hla]; omega)]
    exact to_int_npos
  have hm : mask_length (a ++ ' ' :: b) = 2 ^ 31 - 1 := by
    rw [mask_length, h1, h2]
    decide
  refine ⟨h1, h0, h2, hm, ?_⟩
  intro F pair
  have hsub : ∀ n, substr (a ++ ' ' :: b) (2 ^ 64 - 2 ^ 31) n = .error .out_of_range := by
    intro n
    unfold substr
    rw [if_pos (by rw [List.length_append, List.length_cons, hla]; omega)]
  have himg : ∀ n, substr (a ++ ' ' :: b) 0 n = .ok ((a ++ ' ' :: b).take n) := by
    intro n
    unfold substr
    rw [if_neg (Nat.not_lt_zero _), List.drop_zero]
  rw [parse_line_split, h1, h0, hstart]
  simp only [himg, hsub]

/-- C18 at the line made of `2^31` characters `a`, a space and `b`, which
has exactly one space: the length `pos2 - pos1 - 1` is `2^31 - 2`, not
negative. -/
theorem mask_length_long_first_token :
    ' ' ∉ List.replicate (2 ^ 31) 'a' ∧ ' ' ∉ ['b'] ∧
    mask_length (List.replicate (2 ^ 31) 'a' ++ ' ' :: ['b']) = 2 ^ 31 - 2 ∧
    ¬ mask_length (List.replicate (2 ^ 31) 'a' ++ ' ' :: ['b']) < 0 := by
  have ha : ' ' ∉ List.replicate (2 ^ 31) 'a' :=
    fun h => absurd (List.eq_of_mem_replicate h) (by decide)
  have hm := mask_length_at_int_limit (List.replicate (2 ^ 31) 'a') ['b'] ha
    (List.length_replicate _ _) (by decide)
  refine ⟨ha, by decide, hm, ?_⟩
  rw [hm]
  norm_num

/-- C18 on the lines `ab` and `a b`. -/
theorem split_without_second_space_witness :
    (' ' ∉ ['a', 'b'] ∧ mask_length ['a', 'b'] = -1 ∧
      parse_line ex_pair ['a', 'b'] =
        .ok { ex_pair with image := ['a', 'b'], gt_image := ['a', 'b'] }) ∧
    (' ' ∉ ['a'] ∧ ' ' ∉ ['b'] ∧ ['a'].length + 1 < 2 ^ 31 ∧ mask_length ['a', ' ', 'b'] = -3 ∧
      parse_line ex_pair ['a', ' ', 'b'] = .ok { ex_pair with image := ['a'], gt_image := ['b'] }) :=
  ⟨⟨by decide, (split_without_second_space.1 ['a', 'b'] (by decide)).2.2.2.2.2.1,
      (split_without_second_space.1 ['a', 'b'] (by decide)).2.2.2.2.2.2.2.2 ℚ ex_pair⟩,
    by decide, by decide, by decide,
    (split_without_second_space.2 ['a'] ['b'] (by decide) (by decide) (by decide)).2.2.2.2.1,
    (split_without_second_space.2 ['a'] ['b'] (by decide) (by decide)
      (by decide)).2.2.2.2.2.2.2 ℚ ex_pair⟩

/-! ## The extended form: where the load ends -/

theorem read_extended_blank {F S T : Type} (env : Env F S T) (ws : List Char)
    (hws : ∀ c ∈ ws, isspace c = true) (k : Nat) (acc : List (ImagePair F)) :
    read_extended env k ws acc = acc := by
  cases k with
  | zero => rfl
  | succ k => simp [read_extended, read_string_blank ws hws]

/-- A record whose two paths are extracted and whose `mp_x` or `mp_y` is not
ends the extraction loop with the entries read so far. -/
theorem read_extended_malformed {F S T : Type} (env : Env F S T) (ws tail : List Char)
    (hws : ∀ c ∈ ws, isspace c = true) (k : Nat) (acc : List (ImagePair F))
    (hbad : ∃ p s1 m s2, read_string tail = some (p, s1) ∧ read_string s1 = some (m, s2) ∧
      (env.read_float s2 = none ∨
        ∃ x n, env.read_float s2 = some (x, n) ∧ env.read_float (s2.drop n) = none)) :
    read_extended env (k + 1) (ws ++ tail) acc = acc := by
  obtain ⟨p, s1, m, s2, h1, h2, h3⟩ := hbad
  have h1' : read_string (ws ++ tail) = some (p, s1) := by
    rw [read_string_skip ws tail hws]; exact h1
  rcases h3 with h3 | ⟨x, n, h3, h4⟩
  · simp only [read_extended, h1', h2, h3]
  · simp only [read_extended, h1', h2, h3, h4]

/-- A record whose two paths and two numbers are extracted is appended to the
index, and the loop goes on at the first character that the extraction of
`mp_y` left in the stream. -/
theorem read_extended_kept {F S T : Type} (env : Env F S T) (ws tail p s1 m s2 : List Char)
    (hws : ∀ c ∈ ws, isspace c = true) (k : Nat) (acc : List (ImagePair F))
    (x : F) (n3 : Nat) (y : F) (n4 : Nat)
    (hp : read_string tail = some (p, s1)) (hm : read_string s1 = some (m, s2))
    (hx : env.read_float s2 = some (x, n3)) (hy : env.read_float (s2.drop n3) = some (y, n4)) :
    read_extended env (k + 1) (ws ++ tail) acc =
      read_extended env k ((s2.drop n3).drop n4)
        (acc ++ [{ image := p, gt_image := m, mp_x := x, mp_y := y }]) := by
  have hp' : read_string (ws ++ tail) = some (p, s1) := by
    rw [read_string_skip ws tail hws]; exact hp
  simp only [read_extended, hp', hm, hx, hy]

/-- Extraction of a string takes at least one character off the stream. -/
theorem read_string_length (s t r : List Char) (h : read_string s = some (t, r)) :
    r.length < s.length := by
  unfold read_string at h
  have hu : (s.dropWhile isspace).length ≤ s.length := (List.dropWhile_sublist _).length_le
  have hsplit := List.takeWhile_append_dropWhile (fun c => !isspace c) (s.dropWhile isspace)
  cases htw : (s.dropWhile isspace).takeWhile (fun c => !isspace c) with
  | nil => simp [htw] at h
  | cons c cs =>
    simp only [htw, Option.some.injEq, Prod.mk.injEq] at h
    obtain ⟨-, rfl⟩ := h
    have := congrArg List.length hsplit
    rw [htw, List.length_append, List.length_cons] at this
    omega

/-- The extraction loop reads the same index with any fuel that covers the
characters of the stream. -/
theorem read_extended_fuel {F S T : Type} (env : Env F S T) (k : Nat) :
    ∀ (k' : Nat) (s : List Char) (acc : List (ImagePair F)), s.length ≤ k → s.length ≤ k' →
      read_extended env k s acc = read_extended env k' s acc := by
  induction k with
  | zero =>
    intro k' s acc hk hk'
    have hs : s = [] := List.length_eq_zero.mp (Nat.le_zero.mp hk)
    subst hs
    cases k' with
    | zero => rfl
    | succ k' => simp [read_extended, read_string]
  | succ k ih =>
    intro k' s acc hk hk'
    cases k' with
    | zero =>
      have hs : s = [] := List.length_eq_zero.mp (Nat.le_zero.mp hk')
      subst hs
      simp [read_extended, read_string]
    | succ k' =>
      cases h1 : read_string s with
      | none => simp only [read_extended, h1]
      | some r1 =>
        obtain ⟨p, s1⟩ := r1
        have l1 := read_string_length _ _ _ h1
        cases h2 : read_string s1 with
        | none => simp only [read_extended, h1, h2]
        | some r2 =>
          obtain ⟨m, s2⟩ := r2
          have l2 := read_string_length _ _ _ h2
          cases h3 : env.read_float s2 with
          | none => simp only [read_extended, h1, h2, h3]
          | some r3 =>
            obtain ⟨x, n3⟩ := r3
            cases h4 : env.read_float (s2.drop n3) with
            | none => simp only [read_extended, h1, h2, h3, h4]
            | some r4 =>
              obtain ⟨y, n4⟩ := r4
              have l4 : ((s2.drop n3).drop n4).length ≤ s2.length := by
                simp only [List.length_drop]
                omega
              simp only [read_extended, h1, h2, h3, h4]
              exact ih k' _ _ (by omega) (by omega)

/-- The extraction loop appends to the index it is given. -/
theorem read_extended_acc {F S T : Type} (env : Env F S T) (k : Nat) :
    ∀ (s : List Char) (acc : List (ImagePair F)),
      read_extended env k s acc = acc ++ read_extended env k s [] := by
  induction k with
  | zero => intro s acc; simp [read_extended]
  | succ k ih =>
    intro s acc
    cases h1 : read_string s with
    | none => simp [read_extended, h1]
    | some r1 =>
      obtain ⟨p, s1⟩ := r1
      cases h2 : read_string s1 with
      | none => simp [read_extended, h1, h2]
      | some r2 =>
        obtain ⟨m, s2⟩ := r2
        cases h3 : env.read_float s2 with
        | none => simp [read_extended, h1, h2, h3]
        | some r3 =>
          obtain ⟨x, n3⟩ := r3
          cases h4 : env.read_float (s2.drop n3) with
          | none => simp [read_extended, h1, h2, h3, h4]
          | some r4 =>
            obtain ⟨y, n4⟩ := r4
            simp only [read_extended, h1, h2, h3, h4]
            rw [ih _ (acc ++ _), ih _ ([] ++ _)]
            simp

/-- C13, as the code has it: in the extended form no `mp_x` or `mp_y` token
makes the load fail, the load of any source returns an index.  Take a manifest
that holds well-formed records and then a record whose two paths are
extracted.  If the extraction of `mp_x` or of `mp_y` fails there, the load
ends without an error: the index holds the records written before, in order,
what follows is not read, and setup returns a layer on that index when it is
not empty.  If both extractions succeed, as they do for an `mp_y` token that
begins with a number and goes on with other characters, the record is kept
with the numbers extracted, the load goes on at the first character that the
extraction of `mp_y` left in the stream, so that what follows is read out of
step, and setup returns a layer on the index that holds the record. -/
theorem load_stops_at_malformed_record {F S T : Type} [Zero F] (env : Env F S T)
    (print : F → List Char) (data_param : SegmentationDataParameter F) (data_transformer : T)
    (prefetch_rng_seed bool_rng_seed : Nat) (es : List (ImagePair F))
    (tail p s1 m s2 : List Char)
    (hext : data_param.has_manipulation_data = true)
    (hfile : env.read_file data_param.source = some (write_extended print es ++ tail))
    (hes : ∀ e ∈ es, (e.image ≠ [] ∧ ∀ c ∈ e.image, isspace c = false) ∧
      (e.gt_image ≠ [] ∧ ∀ c ∈ e.gt_image, isspace c = false) ∧
      (∀ c rest, isspace c = true →
        env.read_float (' ' :: (print e.mp_x ++ c :: rest)) =
          some (e.mp_x, (print e.mp_x).length + 1)) ∧
      (∀ c rest, isspace c = true →
        env.read_float (' ' :: (print e.mp_y ++ c :: rest)) =
          some (e.mp_y, (print e.mp_y).length + 1)))
    (hp : read_string tail = some (p, s1)) (hm : read_string s1 = some (m, s2))
    (hB : 0 ≤ data_param.batch_size)
    (hsh : data_param.shuffle = true → ∀ l s, (env.shuffle l s).1.length = l.length) :
    (∀ source : string, ∃ index, load_manifest env source true [] = .ok index) ∧
    ((env.read_float s2 = none ∨
        ∃ x n, env.read_float s2 = some (x, n) ∧ env.read_float (s2.drop n) = none) →
      load_manifest env data_param.source data_param.has_manipulation_data [] = .ok es ∧
      (es ≠ [] →
        ∃ L, DataLayerSetUp env data_param data_transformer prefetch_rng_seed bool_rng_seed
            = .ok L ∧
          L.image_pair_id_ = 0 ∧
          L.image_pairs_ =
            (if data_param.shuffle then (env.shuffle es (env.seed prefetch_rng_seed)).1
              else es))) ∧
    (∀ (x : F) (n3 : Nat) (y : F) (n4 : Nat), env.read_float s2 = some (x, n3) →
      env.read_float (s2.drop n3) = some (y, n4) →
      load_manifest env data_param.source data_param.has_manipulation_data [] =
        .ok (es ++ { image := p, gt_image := m, mp_x := x, mp_y := y } ::
          read_extended env ((s2.drop n3).drop n4).length ((s2.drop n3).drop n4) []) ∧
      ∃ L, DataLayerSetUp env data_param data_transformer prefetch_rng_seed bool_rng_seed
          = .ok L ∧
        L.image_pair_id_ = 0 ∧
        L.image_pairs_ =
          (if data_param.shuffle then
            (env.shuffle
              (es ++ { image := p, gt_image := m, mp_x := x, mp_y := y } ::
                read_extended env ((s2.drop n3).drop n4).length ((s2.drop n3).drop n4) [])
              (env.seed prefetch_rng_seed)).1
          else
            es ++ { image := p, gt_image := m, mp_x := x, mp_y := y } ::
              read_extended env ((s2.drop n3).drop n4).length ((s2.drop n3).drop n4) [])) := by
  have l1 := read_string_length _ _ _ hp
  have l2 := read_string_length _ _ _ hm
  have hlen := length_le_write_extended print es
  obtain ⟨ws', hws', h⟩ := read_extended_written env print es tail hes
    (write_extended print es ++ tail).length
    (by rw [List.length_append]; omega) [] (by simp) []
  obtain ⟨k, hk⟩ : ∃ k, (write_extended print es ++ tail).length - es.length = k + 1 :=
    ⟨(write_extended print es ++ tail).length - es.length - 1, by
      rw [List.length_append]; omega⟩
  have hk' : tail.length ≤ k + 1 := by
    rw [← hk, List.length_append]; omega
  rw [List.nil_append, List.nil_append, hk] at h
  refine ⟨?_, ?_, ?_⟩
  · intro source
    unfold load_manifest
    cases env.read_file source with
    | none => exact ⟨_, rfl⟩
    | some content => exact ⟨_, rfl⟩
  · intro hbad
    have hload : load_manifest env data_param.source data_param.has_manipulation_data [] =
        .ok es := by
      unfold load_manifest
      rw [hfile, hext]
      simp only [if_true]
      rw [h, read_extended_malformed env ws' tail hws' k _ ⟨p, s1, m, s2, hp, hm, hbad⟩]
    refine ⟨hload, ?_⟩
    intro hne
    obtain ⟨L, hset, hc, hi, -⟩ := DataLayerSetUp_ok env data_param data_transformer
      prefetch_rng_seed bool_rng_seed es hload hne hB hsh
    exact ⟨L, hset, hc, hi⟩
  · intro x n3 y n4 hx hy
    have l4 : ((s2.drop n3).drop n4).length ≤ s2.length := by
      simp only [List.length_drop]
      omega
    have hload : load_manifest env data_param.source data_param.has_manipulation_data [] =
        .ok (es ++ { image := p, gt_image := m, mp_x := x, mp_y := y } ::
          read_extended env ((s2.drop n3).drop n4).length ((s2.drop n3).drop n4) []) := by
      unfold load_manifest
      rw [hfile, hext]
      simp only [if_true]
      rw [h, read_extended_kept env ws' tail p s1 m s2 hws' k es x n3 y n4 hp hm hx hy,
        read_extended_fuel env k ((s2.drop n3).drop n4).length _ _ (by omega) (Nat.le_refl _),
        read_extended_acc]
      simp
    refine ⟨hload, ?_⟩
    obtain ⟨L, hset, hc, hi, -⟩ := DataLayerSetUp_ok env data_param data_transformer
      prefetch_rng_seed bool_rng_seed _ hload (by simp) hB hsh
    exact ⟨L, hset, hc, hi⟩

/-- C13 at a manifest of three records whose second has the token `x` for
`mp_x`: the load returns the first record, and setup returns a layer on it. -/
theorem setup_on_malformed_record :
    ex_env_ext.read_file (ex_param_ext ['x']).source =
      some ['a', ' ', 'b', ' ', '1', ' ', '2', '\n', 'c', ' ', 'd', ' ', 'x', ' ', '4', '\n',
        'e', ' ', 'f', ' ', '5', ' ', '6', '\n'] ∧
    ex_env_ext.read_float [' ', 'x', ' ', '4', '\n', 'e', ' ', 'f', ' ', '5', ' ', '6', '\n']
      = none ∧
    load_manifest ex_env_ext ['x'] true [] =
      .ok [{ image := ['a'], gt_image := ['b'], mp_x := 1, mp_y := 2 }] ∧
    ∃ L, DataLayerSetUp ex_env_ext (ex_param_ext ['x']) () 7 8 = .ok L ∧
      L.image_pairs_ = [{ image := ['a'], gt_image := ['b'], mp_x := 1, mp_y := 2 }] :=
  ⟨rfl, rfl, rfl, _, rfl, rfl⟩

theorem isDigit_of_isspace (c : Char) (h : isspace c = true) : c.isDigit = false := by
  simp only [isspace, Bool.or_eq_true, decide_eq_true_eq] at h
  rcases h with ((((h | h) | h) | h) | h) | h <;> subst h <;> rfl

/-- In the example, a number of one digit between a space and whitespace is
read back as written. -/
theorem ex_read_float_digit (d c : Char) (rest : List Char) (hd : d.isDigit = true)
    (hds : isspace d = false) (hc : isspace c = true) :
    ex_read_float (' ' :: ([d] ++ c :: rest)) = some (((d.toNat - 48 : Nat) : ℚ), 1 + 1) := by
  have hcd := isDigit_of_isspace c hc
  simp [ex_read_float, List.dropWhile, List.takeWhile, isspace_space, hds, hd, hcd]

/-- The example records are well-formed and extraction reads their numbers
back as the example writes them. -/
theorem ex_records_well_formed :
    ∀ e ∈ ex_records, (e.image ≠ [] ∧ ∀ c ∈ e.image, isspace c = false) ∧
      (e.gt_image ≠ [] ∧ ∀ c ∈ e.gt_image, isspace c = false) ∧
      (∀ c rest, isspace c = true →
        ex_env_ext.read_float (' ' :: (ex_print e.mp_x ++ c :: rest)) =
          some (e.mp_x, (ex_print e.mp_x).length + 1)) ∧
      (∀ c rest, isspace c = true →
        ex_env_ext.read_float (' ' :: (ex_print e.mp_y ++ c :: rest)) =
          some (e.mp_y, (ex_print e.mp_y).length + 1)) := by
  intro e he
  simp only [ex_records, List.mem_cons, List.mem_singleton, List.not_mem_nil, or_false] at he
  rcases he with rfl | rfl
  · exact ⟨⟨by decide, by decide⟩, ⟨by decide, by decide⟩,
      fun c rest hc => ex_read_float_digit '1' c rest rfl rfl hc,
      fun c rest hc => ex_read_float_digit '2' c rest rfl rfl hc⟩
  · exact ⟨⟨by decide, by decide⟩, ⟨by decide, by decide⟩,
      fun c rest hc => ex_read_float_digit '3' c rest rfl rfl hc,
      fun c rest hc => ex_read_float_digit '4' c rest rfl rfl hc⟩

/-- C13 on the example manifest whose second record has the token `y` for
`mp_y`, where `3` is extracted for `mp_x` and the extraction of `mp_y` fails,
and on the example manifest whose second record has the token `4x` for `mp_y`
and is followed by the line `e 5 6`, where both extractions succeed. -/
theorem load_stops_at_malformed_record_witness :
    ((ex_param_ext ['y']).has_manipulation_data = true ∧
      ex_env_ext.read_file (ex_param_ext ['y']).source =
        some (write_extended ex_print (ex_records.take 1) ++
          ['c', ' ', 'd', ' ', '3', ' ', 'y', '\n']) ∧
      read_string ['c', ' ', 'd', ' ', '3', ' ', 'y', '\n'] =
        some (['c'], [' ', 'd', ' ', '3', ' ', 'y', '\n']) ∧
      read_string [' ', 'd', ' ', '3', ' ', 'y', '\n'] = some (['d'], [' ', '3', ' ', 'y', '\n']) ∧
      ex_env_ext.read_float [' ', '3', ' ', 'y', '\n'] = some (3, 2) ∧
      ex_env_ext.read_float ([' ', '3', ' ', 'y', '\n'].drop 2) = none ∧
      load_manifest ex_env_ext (ex_param_ext ['y']).source
        (ex_param_ext ['y']).has_manipulation_data [] = .ok (ex_records.take 1) ∧
      (ex_records.take 1 ≠ [] →
        ∃ L, DataLayerSetUp ex_env_ext (ex_param_ext ['y']) () 7 8 = .ok L ∧
          L.image_pair_id_ = 0 ∧
          L.image_pairs_ =
            (if (ex_param_ext ['y']).shuffle then
              (ex_env_ext.shuffle (ex_records.take 1) (ex_env_ext.seed 7)).1
            else ex_records.take 1))) ∧
    ((ex_param_ext ['w']).has_manipulation_data = true ∧
      ex_env_ext.read_file (ex_param_ext ['w']).source =
        some (write_extended ex_print (ex_records.take 1) ++
          ['c', ' ', 'd', ' ', '3', ' ', '4', 'x', '\n', 'e', ' ', '5', ' ', '6', '\n']) ∧
      read_string ['c', ' ', 'd', ' ', '3', ' ', '4', 'x', '\n', 'e', ' ', '5', ' ', '6', '\n'] =
        some (['c'], [' ', 'd', ' ', '3', ' ', '4', 'x', '\n', 'e', ' ', '5', ' ', '6', '\n']) ∧
      read_string [' ', 'd', ' ', '3', ' ', '4', 'x', '\n', 'e', ' ', '5', ' ', '6', '\n'] =
        some (['d'], [' ', '3', ' ', '4', 'x', '\n', 'e', ' ', '5', ' ', '6', '\n']) ∧
      ex_env_ext.read_float [' ', '3', ' ', '4', 'x', '\n', 'e', ' ', '5', ' ', '6', '\n'] =
        some (3, 2) ∧
      ex_env_ext.read_float
        ([' ', '3', ' ', '4', 'x', '\n', 'e', ' ', '5', ' ', '6', '\n'].drop 2) = some (4, 2) ∧
      (([' ', '3', ' ', '4', 'x', '\n', 'e', ' ', '5', ' ', '6', '\n'].drop 2).drop 2 =
        ['x', '\n', 'e', ' ', '5', ' ', '6', '\n']) ∧
      load_manifest ex_env_ext (ex_param_ext ['w']).source
        (ex_param_ext ['w']).has_manipulation_data [] =
        .ok [{ image := ['a'], gt_image := ['b'], mp_x := 1, mp_y := 2 },
          { image := ['c'], gt_image := ['d'], mp_x := 3, mp_y := 4 },
          { image := ['x'], gt_image := ['e'], mp_x := 5, mp_y := 6 }] ∧
      ∃ L, DataLayerSetUp ex_env_ext (ex_param_ext ['w']) () 7 8 = .ok L ∧
        L.image_pair_id_ = 0 ∧
        L.image_pairs_ =
          [{ image := ['a'], gt_image := ['b'], mp_x := 1, mp_y := 2 },
            { image := ['c'], gt_image := ['d'], mp_x := 3, mp_y := 4 },
            { image := ['x'], gt_image := ['e'], mp_x := 5, mp_y := 6 }]) :=
  ⟨⟨rfl, rfl, rfl, rfl, rfl, rfl,
      (load_stops_at_malformed_record ex_env_ext ex_print (ex_param_ext ['y']) () 7 8
        (ex_records.take 1) ['c', ' ', 'd', ' ', '3', ' ', 'y', '\n']
        ['c'] [' ', 'd', ' ', '3', ' ', 'y', '\n'] ['d'] [' ', '3', ' ', 'y', '\n'] rfl rfl
        (fun e he => ex_records_well_formed e (List.mem_of_mem_take he)) rfl rfl (by decide)
        (fun _ l _ => List.length_reverse l)).2.1 (Or.inr ⟨3, 2, rfl, rfl⟩)⟩,
    rfl, rfl, rfl, rfl, rfl, rfl, rfl,
    (load_stops_at_malformed_record ex_env_ext ex_print (ex_param_ext ['w']) () 7 8
      (ex_records.take 1)
      ['c', ' ', 'd', ' ', '3', ' ', '4', 'x', '\n', 'e', ' ', '5', ' ', '6', '\n']
      ['c'] [' ', 'd', ' ', '3', ' ', '4', 'x', '\n', 'e', ' ', '5', ' ', '6', '\n']
      ['d'] [' ', '3', ' ', '4', 'x', '\n', 'e', ' ', '5', ' ', '6', '\n'] rfl rfl
      (fun e he => ex_records_well_formed e (List.mem_of_mem_take he)) rfl rfl (by decide)
      (fun _ l _ => List.length_reverse l)).2.2 3 2 4 2 rfl rfl⟩

/-! ## The basic form: one entry per line -/

theorem manifest_lines_from_line (l rest cur : List Char) (hl : '\n' ∉ l) :
    manifest_lines_from (l ++ '\n' :: rest) cur = (cur ++ l) :: manifest_lines_from rest [] := by
  induction l generalizing cur with
  | nil => simp [manifest_lines_from]
  | cons c l ih =>
    have hc : c ≠ '\n' := fun h => hl (h ▸ List.mem_cons_self _ _)
    have hl' : '\n' ∉ l := fun h => hl (List.mem_cons_of_mem _ h)
    show manifest_lines_from (c :: (l ++ '\n' :: rest)) cur = _
    rw [manifest_lines_from, if_neg hc, ih _ hl']
    simp

theorem manifest_lines_from_last (l cur : List Char) (hl : '\n' ∉ l) (hne : cur ++ l ≠ []) :
    manifest_lines_from l cur = [cur ++ l] := by
  induction l generalizing cur with
  | nil =>
    cases cur with
    | nil => simp at hne
    | cons c cur => simp [manifest_lines_from]
  | cons c l ih =>
    have hc : c ≠ '\n' := fun h => hl (h ▸ List.mem_cons_self _ _)
    have hl' : '\n' ∉ l := fun h => hl (List.mem_cons_of_mem _ h)
    simp only [manifest_lines_from, if_neg hc]
    rw [ih _ hl' (by simp)]
    simp

/-- What is left of the stream without a newline is what `getline` extracts,
and it leaves the stream empty. -/
theorem getline_last (c : Char) (cs : List Char) (h : '\n' ∉ c :: cs) :
    getline (c :: cs) = some (c :: cs, []) := by
  have hp : ∀ x ∈ c :: cs, (decide (x ≠ '\n')) = true := by
    intro x hx
    simp only [decide_eq_true_eq]
    intro hx2
    exact h (hx2 ▸ hx)
  simp only [getline, takeWhile_all _ _ hp, dropWhile_all _ _ hp, List.drop_nil]

/-- A line shorter than `2^31` characters is split without a fault. -/
theorem parse_line_short {F : Type} (pair : ImagePair F) (line : List Char)
    (hlen : line.length < 2 ^ 31) : ∃ p, parse_line pair line = .ok p := by
  by_cases hs : ' ' ∈ line
  · obtain ⟨a, b, rfl, ha⟩ := List.eq_append_cons_of_mem hs
    have hla : a.length < 2 ^ 31 := by
      rw [List.length_append] at hlen; omega
    have h1 : split_pos1 (a ++ ' ' :: b) = (a.length : Int) := by
      unfold split_pos1
      rw [find, List.drop_zero, find_from_append _ _ _ _ ha, Nat.zero_add, to_int_of_lt _ hla]
    have hla1 : a.length + 1 < 2 ^ 31 := by
      rw [List.length_append, List.length_cons] at hlen; omega
    have hnext : to_size_t (split_start (a ++ ' ' :: b)) = a.length + 1 := by
      have := to_size_t_of_nat (a.length + 1) (by omega)
      rw [split_start, h1, wrap_int_of_range _ (by omega) (by omega), ← this]; congr 1
    rw [parse_line_split, h1, hnext]
    simp [substr]
  · have h1 : split_pos1 line = -1 := by
      unfold split_pos1
      rw [find_absent _ _ _ hs, to_int_npos]
    have h0 : to_size_t (split_start line) = 0 := by
      rw [split_start, h1]
      decide
    rw [parse_line_split, h1, h0]
    simp [substr]

/-- The `getline` loop over a manifest whose lines are shorter than `2^31`
characters, with fuel for every character: one entry per line, in the order of
the lines, each the split of its line. -/
theorem read_basic_lines {F : Type} (pair : ImagePair F) (fuel : Nat) (s : List Char)
    (acc : List (ImagePair F)) (hf : s.length ≤ fuel)
    (hshort : ∀ line ∈ manifest_lines s, line.length < 2 ^ 31) :
    ∃ ps, read_basic pair fuel s acc = .ok (acc ++ ps) ∧
      List.Forall₂ (fun line p => parse_line pair line = .ok p) (manifest_lines s) ps := by
  induction fuel generalizing s acc with
  | zero =>
    have hs : s = [] := List.length_eq_zero.mp (Nat.le_zero.mp hf)
    subst hs
    exact ⟨[], by simp [read_basic], by simp [manifest_lines, manifest_lines_from]⟩
  | succ fuel ih =>
    cases s with
    | nil => exact ⟨[], by simp [read_basic, getline], by simp [manifest_lines, manifest_lines_from]⟩
    | cons c cs =>
      by_cases hn : '\n' ∈ c :: cs
      · obtain ⟨l, rest, hs, hl⟩ := List.eq_append_cons_of_mem hn
        have hlines : manifest_lines (c :: cs) = l :: manifest_lines rest := by
          rw [hs]
          simpa [manifest_lines] using manifest_lines_from_line l rest [] hl
        rw [hlines] at hshort ⊢
        obtain ⟨p, hp⟩ := parse_line_short pair l (hshort l (List.mem_cons_self _ _))
        have hlen : rest.length ≤ fuel := by
          have := congrArg List.length hs
          rw [List.length_append, List.length_cons, List.length_cons] at this
          simp only [List.length_cons] at hf
          omega
        obtain ⟨ps, hps, hall⟩ := ih rest (acc ++ [p]) hlen
          (fun line hline => hshort line (List.mem_cons_of_mem _ hline))
        refine ⟨p :: ps, ?_, List.Forall₂.cons hp hall⟩
        rw [hs]
        simp only [read_basic, getline_line l rest hl, hp, hps]
        simp
      · have hlines : manifest_lines (c :: cs) = [c :: cs] := by
          simpa [manifest_lines] using manifest_lines_from_last (c :: cs) [] hn (by simp)
        rw [hlines] at hshort ⊢
        obtain ⟨p, hp⟩ := parse_line_short pair (c :: cs) (hshort _ (List.mem_singleton_self _))
        refine ⟨[p], ?_, List.Forall₂.cons hp List.Forall₂.nil⟩
        simp only [read_basic, getline_last c cs hn, hp]
        cases fuel with
        | zero => simp [read_basic]
        | succ fuel => simp [read_basic, getline]

/-! ## Loading what was written -/

theorem not_mem_of_isspace (path : List Char) (c0 : Char) (hc0 : isspace c0 = true)
    (h : ∀ c ∈ path, isspace c = false) : c0 ∉ path := by
  intro hm
  have := h c0 hm
  rw [hc0] at this
  exact Bool.noConfusion this

/-- C11, as the code has it.  Basic form: a manifest whose lines are shorter
than `2^31` characters loads to one entry per line, in the order of the lines,
each entry the split of its line; and the manifest written from entries whose
paths hold no whitespace, one line of fewer than `2^31` characters per entry,
loads to as many entries with the same image and mask paths in the same
order.  Extended form: the manifest written from entries whose paths are not
empty and hold no whitespace, with numbers that extraction reads back as
written, loads to exactly those entries. -/
theorem manifest_round_trip {F S T : Type} (env : Env F S T) (source : string) :
    (∀ content, env.read_file source = some content →
      (∀ line ∈ manifest_lines content, line.length < 2 ^ 31) →
      ∃ index, load_manifest env source false [] = .ok index ∧
        index.length = (manifest_lines content).length ∧
        List.Forall₂
          (fun line p =>
            parse_line
              { image := [], gt_image := [], mp_x := env.indeterminate,
                mp_y := env.indeterminate } line = .ok p)
          (manifest_lines content) index) ∧
    (∀ es : List (ImagePair F), env.read_file source = some (write_basic es) →
      (∀ e ∈ es, (∀ c ∈ e.image, isspace c = false) ∧ (∀ c ∈ e.gt_image, isspace c = false) ∧
        e.image.length + e.gt_image.length + 1 < 2 ^ 31) →
      ∃ index, load_manifest env source false [] = .ok index ∧
        index.length = es.length ∧
        index.map ImagePair.image = es.map ImagePair.image ∧
        index.map ImagePair.gt_image = es.map ImagePair.gt_image) ∧
    (∀ (print : F → List Char) (es : List (ImagePair F)),
      env.read_file source = some (write_extended print es) →
      (∀ e ∈ es, (e.image ≠ [] ∧ ∀ c ∈ e.image, isspace c = false) ∧
        (e.gt_image ≠ [] ∧ ∀ c ∈ e.gt_image, isspace c = false) ∧
        (∀ c rest, isspace c = true →
          env.read_float (' ' :: (print e.mp_x ++ c :: rest)) =
            some (e.mp_x, (print e.mp_x).length + 1)) ∧
        (∀ c rest, isspace c = true →
          env.read_float (' ' :: (print e.mp_y ++ c :: rest)) =
            some (e.mp_y, (print e.mp_y).length + 1))) →
      load_manifest env source true [] = .ok es) := by
  refine ⟨?_, ?_, ?_⟩
  · intro content hfile hshort
    obtain ⟨ps, hps, hall⟩ := read_basic_lines
      ({ image := [], gt_image := [], mp_x := env.indeterminate,
         mp_y := env.indeterminate } : ImagePair F)
      content.length content [] (Nat.le_refl _) hshort
    refine ⟨ps, ?_, hall.length_eq.symm, hall⟩
    simp only [load_manifest, hfile]
    simpa using hps
  · intro es hfile hes
    have hes' : ∀ e ∈ es, ' ' ∉ e.image ∧ '\n' ∉ e.image ∧ ' ' ∉ e.gt_image ∧
        '\n' ∉ e.gt_image ∧ e.image.length + e.gt_image.length + 1 < 2 ^ 31 := by
      intro e he
      obtain ⟨h1, h2, h3⟩ := hes e he
      exact ⟨not_mem_of_isspace _ _ isspace_space h1, not_mem_of_isspace _ _ isspace_newline h1,
        not_mem_of_isspace _ _ isspace_space h2, not_mem_of_isspace _ _ isspace_newline h2, h3⟩
    have h := read_basic_written
      ({ image := [], gt_image := [], mp_x := env.indeterminate,
         mp_y := env.indeterminate } : ImagePair F)
      es hes' (write_basic es).length (length_le_write_basic es) []
    refine ⟨es.map (fun e =>
      ({ image := e.image, gt_image := e.gt_image, mp_x := env.indeterminate,
         mp_y := env.indeterminate } : ImagePair F)), ?_, ?_, ?_, ?_⟩
    · simp only [load_manifest, hfile]
      simpa using h
    · simp
    · simp [Function.comp_def]
    · simp [Function.comp_def]
  · intro print es hfile hes
    simp only [load_manifest, hfile, if_true]
    obtain ⟨ws', hws', h⟩ := read_extended_written env print es [] hes
      (write_extended print es ++ []).length
      (by rw [List.append_nil]; exact length_le_write_extended print es) [] (by simp) []
    simp only [List.append_nil, List.nil_append] at h
    rw [h, read_extended_blank env ws' hws']

/-- C11 at the extended manifest written from one entry whose image path is
empty and whose numbers extraction reads back: the line is ` m 1 2`, extraction
takes `m` for the image path, `1` for the mask path and 2 for `mp_x`, finds
no `mp_y`, and the load returns no entry. -/
theorem round_trip_empty_image_path :
    (∀ c ∈ ([] : List Char), isspace c = false) ∧ (∀ c ∈ ['m'], isspace c = false) ∧
    write_extended ex_print [{ image := [], gt_image := ['m'], mp_x := 1, mp_y := 2 }] =
      [' ', 'm', ' ', '1', ' ', '2', '\n'] ∧
    ex_env_ext.read_file ['e'] =
      some (write_extended ex_print [{ image := [], gt_image := ['m'], mp_x := 1, mp_y := 2 }]) ∧
    (∀ c rest, isspace c = true →
      ex_env_ext.read_float (' ' :: (ex_print 1 ++ c :: rest)) =
        some (1, (ex_print 1).length + 1)) ∧
    (∀ c rest, isspace c = true →
      ex_env_ext.read_float (' ' :: (ex_print 2 ++ c :: rest)) =
        some (2, (ex_print 2).length + 1)) ∧
    load_manifest ex_env_ext ['e'] true [] = .ok [] :=
  ⟨by simp, by decide, rfl, rfl,
    fun c rest hc => ex_read_float_digit '1' c rest rfl rfl hc,
    fun c rest hc => ex_read_float_digit '2' c rest rfl rfl hc, rfl⟩

/-- C11 on the examples: the basic manifest of three lines, the basic manifest
written from the example index, and the extended manifest written from the
example records. -/
theorem manifest_round_trip_witness :
    (∃ index, load_manifest ex_env ['l'] false [] = .ok index ∧
      index.length = (manifest_lines
        ['a', ' ', 'b', '\n', 'c', ' ', 'd', '\n', 'e', ' ', 'f']).length ∧
      List.Forall₂
        (fun line p =>
          parse_line
            { image := [], gt_image := [], mp_x := ex_env.indeterminate,
              mp_y := ex_env.indeterminate } line = .ok p)
        (manifest_lines ['a', ' ', 'b', '\n', 'c', ' ', 'd', '\n', 'e', ' ', 'f']) index) ∧
    (∃ index,
      load_manifest { ex_env with read_file := fun _ => some (write_basic ex_index) } ['l']
        false [] = .ok index ∧
      index.length = ex_index.length ∧
      index.map ImagePair.image = ex_index.map ImagePair.image ∧
      index.map ImagePair.gt_image = ex_index.map ImagePair.gt_image) ∧
    load_manifest ex_env_ext ['g'] true [] = .ok ex_records :=
  ⟨(manifest_round_trip ex_env ['l']).1 _ rfl (by decide),
    (manifest_round_trip { ex_env with read_file := fun _ => some (write_basic ex_index) }
      ['l']).2.1 ex_index rfl (by decide),
    (manifest_round_trip ex_env_ext ['g']).2.2 ex_print ex_records rfl ex_records_well_formed⟩

/-! ## The later statements on the worked example -/

/-- C15 on the worked example, for a layer whose mirror stream draws odd
values. -/
theorem mirror_draws_one_per_item_witness :
    (ex_layer 1).image_pairs_[(ex_layer 1).image_pair_id_]? = some ex_pair ∧
    ((ex_param true).shuffle = true → ∀ l s, (ex_env.shuffle l s).1.length = l.length) ∧
    (ex_env.imread ex_pair.image).channels ≤ (ex_layer 1).mean_values_.length ∧
    (ex_param true).mirror = true ∧
    ((RandBool ex_env (ex_layer 1)).1 = true ↔ (ex_env.rng (ex_layer 1).bool_rng_).1 % 2 = 1) ∧
    (RandBool ex_env (ex_layer 1)).2.bool_rng_ = (ex_env.rng (ex_layer 1).bool_rng_).2 ∧
    ∃ L' items, InternalThreadEntry ex_env (ex_param true) (ex_layer 1) = .ok (L', items) ∧
      items.length = (ex_param true).batch_size.toNat ∧
      L'.bool_rng_ = stream_after ex_env (ex_layer 1).bool_rng_ (ex_param true).batch_size.toNat ∧
      ∀ i, i < (ex_param true).batch_size.toNat → ∃ it, items[i]? = some it ∧
        (it.mirror_image = true ↔ (ex_env.rng (stream_after ex_env (ex_layer 1).bool_rng_ i)).1 % 2 = 1) :=
  ⟨rfl, fun _ l _ => List.length_reverse l, by decide, rfl,
    mirror_draws_one_per_item ex_env (ex_param true) (ex_layer 1) ex_pair rfl
      (fun _ l _ => List.length_reverse l) (by decide) rfl⟩

/-- C17 on the worked example: a batch of 2 from the last entry of an index of
3 entries, with shuffling enabled and the state of the shuffle stream as the
count of the calls. -/
theorem shuffle_once_per_wrap_witness :
    ex_layer_last.image_pairs_[ex_layer_last.image_pair_id_]? = some ex_last_pair ∧
    ((ex_param true).shuffle = true → ∀ l s, (ex_env.shuffle l s).1.length = l.length) ∧
    (ex_env.imread ex_last_pair.image).channels ≤ ex_layer_last.mean_values_.length ∧
    (∀ l s, id (ex_env.shuffle l s).2 = id s + 1) ∧
    (∀ (data_transformer : Unit) (prefetch_rng_seed bool_rng_seed : Nat)
        (index : List (ImagePair ℚ)),
      load_manifest ex_env (ex_param true).source (ex_param true).has_manipulation_data [] = .ok index →
      index ≠ [] → 0 ≤ (ex_param true).batch_size →
      ∃ L0, DataLayerSetUp ex_env (ex_param true) data_transformer prefetch_rng_seed bool_rng_seed
          = .ok L0 ∧
        id L0.prefetch_rng_ =
          id (ex_env.seed prefetch_rng_seed) + if (ex_param true).shuffle then 1 else 0) ∧
    ∃ L' items, InternalThreadEntry ex_env (ex_param true) ex_layer_last = .ok (L', items) ∧
      items.length = (ex_param true).batch_size.toNat ∧
      id L'.prefetch_rng_ =
        id ex_layer_last.prefetch_rng_ +
          (if (ex_param true).shuffle then
            (ex_layer_last.image_pair_id_ + (ex_param true).batch_size.toNat) / ex_layer_last.image_pairs_.length
          else 0) ∧
      ∀ i, i < (ex_param true).batch_size.toNat →
        (∃ it, items[i]? = some it ∧
          it.cursor = (ex_layer_last.image_pair_id_ + i) % ex_layer_last.image_pairs_.length) ∧
        ∃ Li items_i Li1 items_i1,
          InternalThreadEntry ex_env { (ex_param true) with batch_size := (i : Int) } ex_layer_last
            = .ok (Li, items_i) ∧
          InternalThreadEntry ex_env { (ex_param true) with batch_size := ((i + 1 : Nat) : Int) } ex_layer_last
            = .ok (Li1, items_i1) ∧
          id Li1.prefetch_rng_ =
            id Li.prefetch_rng_ +
              (if (ex_param true).shuffle = true ∧
                  (ex_layer_last.image_pair_id_ + i) % ex_layer_last.image_pairs_.length + 1 = ex_layer_last.image_pairs_.length
                then 1 else 0) :=
  ⟨rfl, fun _ l _ => List.length_reverse l, by decide, fun _ _ => rfl,
    shuffle_once_per_wrap ex_env (ex_param true) ex_layer_last ex_last_pair rfl
      (fun _ l _ => List.length_reverse l) (by decide) id (fun _ _ => rfl)⟩

/-- C14 on the worked example, with positions drawn as the remainder of the
stream state. -/
theorem ShuffleImages_permutes_witness :
    (ShuffleImages { ex_env with shuffle := shuffle (fun s i => (s % (i + 1), s + 1)) }
      (ex_layer 1)).image_pairs_.length = (ex_layer 1).image_pairs_.length ∧
    List.Perm
      (ShuffleImages { ex_env with shuffle := shuffle (fun s i => (s % (i + 1), s + 1)) }
        (ex_layer 1)).image_pairs_
      (ex_layer 1).image_pairs_ ∧
    (ShuffleImages { ex_env with shuffle := shuffle (fun s i => (s % (i + 1), s + 1)) }
      (ex_layer 0)).image_pairs_ =
      (ShuffleImages { ex_env with shuffle := shuffle (fun s i => (s % (i + 1), s + 1)) }
        (ex_layer 1)).image_pairs_ ∧
    (ShuffleImages { ex_env with shuffle := shuffle (fun s i => (s % (i + 1), s + 1)) }
      (ex_layer 0)).prefetch_rng_ =
      (ShuffleImages { ex_env with shuffle := shuffle (fun s i => (s % (i + 1), s + 1)) }
        (ex_layer 1)).prefetch_rng_ :=
  ⟨(ShuffleImages_permutes ex_env (fun s i => (s % (i + 1), s + 1)) (ex_layer 1)).1,
    (ShuffleImages_permutes ex_env (fun s i => (s % (i + 1), s + 1)) (ex_layer 1)).2.1,
    (ShuffleImages_permutes ex_env (fun s i => (s % (i + 1), s + 1)) (ex_layer 1)).2.2
      (ex_layer 0) rfl rfl⟩

/-- C19 on the example image and mask. -/
theorem mirror_of_flipped_is_plain_witness :
    fill_image ex_image (flip_columns ex_image) [(0 : ℚ), 0, 0] true [] =
      fill_image ex_image ex_image [(0 : ℚ), 0, 0] false [] ∧
    fill_label (flip_columns ex_mask) true ([] : List ℚ) = fill_label ex_mask false [] ∧
    (fill_image ex_image (flip_columns ex_image) [(0 : ℚ), 0, 0] true []).bind
        (fun float_data => fill_label (flip_columns ex_mask) true float_data) =
      (fill_image ex_image ex_image [(0 : ℚ), 0, 0] false []).bind
        (fun float_data => fill_label ex_mask false float_data) :=
  ⟨(mirror_of_flipped_is_plain ex_image ex_image ex_mask [(0 : ℚ), 0, 0] []).1,
    (mirror_of_flipped_is_plain ex_image ex_image ex_mask [(0 : ℚ), 0, 0] []).2.1,
    (mirror_of_flipped_is_plain ex_image ex_image ex_mask [(0 : ℚ), 0, 0] []).2.2.2.2⟩

end caffe
